import Mathlib

/-!
Verification development for libdlgmod.

Shallow embedding of

* `src/DlgModule/Universal/dlgmodule.cpp` (namespace `dlgmodule`): the
  asynchronous one-shot wrappers around the dialog functions, their worker
  threads and the two globals `dialog_identifier` / `enable_dialog_creation`;
* `src/filedialogs.cpp` (namespace `filedialogs`) and
  `src/DlgModule/MacOSX/filedialogs.cpp` (namespace `MacOSX`): the string
  helpers and `file_dialog_helper`.

Conventions: `unsigned` is a `Nat` reduced modulo `4294967296`; a `double` is a
value of `Dbl`; what the operating system, SDL, the GUI library or the user
decide is an explicit argument of the embedded function.
-/

namespace dlgmodule

/-- A C `double`, as far as the module looks at it: not-a-number, an infinity
or a finite value.  The module only copies doubles, tests them with `isnan`
and converts 32-bit integers to them (which is exact). -/
inductive Dbl where
  | nan
  | inf (negative : Bool)
  | fin (q : Rat)
  deriving DecidableEq

/-- Conversion `(double)id` of an `unsigned`; exact for every 32-bit value. -/
def Dbl.ofUnsigned (n : Nat) : Dbl := .fin (n : Rat)

/-- The C library test `isnan`. -/
def isnan : Dbl → Bool
  | .nan => true
  | _ => false

/-- The round trip `double -> (int) -> double` made when `(int)defcol` is
handed to a worker whose parameter is a `double`: truncation toward zero.
Converting NaN, an infinity or an out-of-range value is undefined in C++; the
model leaves such a value as it is. -/
def Dbl.intCast : Dbl → Dbl
  | .fin q => if -2147483649 < q ∧ q < 2147483648 then .fin ((Int.tdiv q.num q.den : Int) : Rat) else .fin q
  | d => d

/-- A value stored in a map of the host runtime. -/
inductive MapVal where
  | dbl (d : Dbl)
  | str (s : String)
  deriving DecidableEq

/-- The host runtime behind the four function pointers stored by
`RegisterCallbacks`.  It is not part of the repository; it is modelled as the
store the spec describes (External result channel): maps are addressed by the
integer `CreateDsMap` returned and hold key/value entries in insertion order,
and every `CreateAsynEventWithDSMap(map, type)` is recorded in `events`. -/
structure Host where
  maps : List (List (String × MapVal))
  events : List (Nat × Nat)
  deriving DecidableEq

/-- Host call `CreateDsMap(0)`: a fresh empty map; returns its index. -/
def Host.CreateDsMap (h : Host) : Nat × Host :=
  (h.maps.length, { h with maps := h.maps ++ [[]] })

/-- Host call `DsMapAddDouble(index, key, value)`. -/
def Host.DsMapAddDouble (h : Host) (index : Nat) (key : String) (value : Dbl) : Host :=
  { h with maps := h.maps.modify (fun m => m ++ [(key, MapVal.dbl value)]) index }

/-- Host call `DsMapAddString(index, key, value)`. -/
def Host.DsMapAddString (h : Host) (index : Nat) (key : String) (value : String) : Host :=
  { h with maps := h.maps.modify (fun m => m ++ [(key, MapVal.str value)]) index }

/-- Host call `CreateAsynEventWithDSMap(map, type)`. -/
def Host.CreateAsynEventWithDSMap (h : Host) (map : Nat) (type : Nat) : Host :=
  { h with events := h.events ++ [(map, type)] }

/-- A detached `std::thread` started by an asynchronous entry point: the
worker function it runs and the arguments it was constructed with.  The
`char *` arguments point into the staging strings `arg1..arg4`; the thread
records the text they hold when it is started. -/
inductive Thread where
  | show_message_threaded (str : String) (id : Nat)
  | show_message_cancelable_threaded (str : String) (id : Nat)
  | show_question_threaded (str : String) (id : Nat)
  | show_question_cancelable_threaded (str : String) (id : Nat)
  | show_attempt_threaded (str : String) (id : Nat)
  | show_error_threaded (str : String) (abort : Dbl) (id : Nat)
  | get_string_threaded (str def_ : String) (id : Nat)
  | get_password_threaded (str def_ : String) (id : Nat)
  | get_integer_threaded (str : String) (def_ : Dbl) (id : Nat)
  | get_passcode_threaded (str : String) (def_ : Dbl) (id : Nat)
  | get_open_filename_threaded (filter fname : String) (id : Nat)
  | get_open_filename_ext_threaded (filter fname dir title : String) (id : Nat)
  | get_open_filenames_threaded (filter fname : String) (id : Nat)
  | get_open_filenames_ext_threaded (filter fname dir title : String) (id : Nat)
  | get_save_filename_threaded (filter fname : String) (id : Nat)
  | get_save_filename_ext_threaded (filter fname dir title : String) (id : Nat)
  | get_directory_threaded (dname : String) (id : Nat)
  | get_directory_alt_threaded (capt root : String) (id : Nat)
  | get_color_threaded (defcol : Dbl) (id : Nat)
  | get_color_ext_threaded (defcol : Dbl) (title : String) (id : Nat)
  deriving DecidableEq

/-- The globals of `dlgmodule.cpp` (lines 92-102), the detached threads that
have been started and have not finished, and the host runtime. -/
structure State where
  dialog_identifier : Nat
  enable_dialog_creation : Bool
  arg1 : String
  arg2 : String
  arg3 : String
  arg4 : String
  threads : List Thread
  host : Host
  deriving DecidableEq

/-- The state at load time: `dialog_identifier = 100`, the gate open, the
staging strings empty, no thread, an empty host store. -/
def State.initial : State :=
  { dialog_identifier := 100, enable_dialog_creation := true,
    arg1 := "", arg2 := "", arg3 := "", arg4 := "",
    threads := [], host := { maps := [], events := [] } }

/-- The variables a worker thread works on: its local `resultMap` and the
globals. -/
structure Local where
  resultMap : Nat
  g : State
  deriving DecidableEq

/-- One statement of a worker body. -/
abbrev Stmt := Local → Local

/-- Statement `int resultMap = CreateDsMap(0);`. -/
def stmtCreateDsMap : Stmt := fun l =>
  { resultMap := l.g.host.CreateDsMap.1, g := { l.g with host := l.g.host.CreateDsMap.2 } }

/-- Statement `DsMapAddDouble(resultMap, key, value);`. -/
def stmtDsMapAddDouble (key : String) (value : Dbl) : Stmt := fun l =>
  { l with g := { l.g with host := l.g.host.DsMapAddDouble l.resultMap key value } }

/-- Statement `DsMapAddString(resultMap, key, value);`. -/
def stmtDsMapAddString (key : String) (value : String) : Stmt := fun l =>
  { l with g := { l.g with host := l.g.host.DsMapAddString l.resultMap key value } }

/-- Statement `CreateAsynEventWithDSMap(resultMap, type);`. -/
def stmtCreateAsynEventWithDSMap (type : Nat) : Stmt := fun l =>
  { l with g := { l.g with host := l.g.host.CreateAsynEventWithDSMap l.resultMap type } }

/-- Statement `enable_dialog_creation = true;`. -/
def stmtEnableDialogCreation : Stmt := fun l =>
  { l with g := { l.g with enable_dialog_creation := true } }

/-! ### Worker bodies (lines 104-296)

Each body is the list of its statements after the first one.  The first
statement calls the synchronous dialog, which blocks until the user is done;
the value it returns is the argument `result`. -/

/-- Source: `show_message_threaded`, lines 104-111. -/
def show_message_threaded (_str : String) (id : Nat) (result : Dbl) : List Stmt :=
  [ stmtCreateDsMap,
    stmtDsMapAddDouble "id" (Dbl.ofUnsigned id),
    stmtDsMapAddDouble "status" result,
    stmtCreateAsynEventWithDSMap 63,
    stmtEnableDialogCreation ]

/-- Source: `show_message_cancelable_threaded`, lines 113-120. -/
def show_message_cancelable_threaded (_str : String) (id : Nat) (result : Dbl) : List Stmt :=
  [ stmtCreateDsMap,
    stmtDsMapAddDouble "id" (Dbl.ofUnsigned id),
    stmtDsMapAddDouble "status" result,
    stmtCreateAsynEventWithDSMap 63,
    stmtEnableDialogCreation ]

/-- Source: `show_question_threaded`, lines 122-129. -/
def show_question_threaded (_str : String) (id : Nat) (result : Dbl) : List Stmt :=
  [ stmtCreateDsMap,
    stmtDsMapAddDouble "id" (Dbl.ofUnsigned id),
    stmtDsMapAddDouble "status" result,
    stmtCreateAsynEventWithDSMap 63,
    stmtEnableDialogCreation ]

/-- Source: `show_question_cancelable_threaded`, lines 131-138. -/
def show_question_cancelable_threaded (_str : String) (id : Nat) (result : Dbl) : List Stmt :=
  [ stmtCreateDsMap,
    stmtDsMapAddDouble "id" (Dbl.ofUnsigned id),
    stmtDsMapAddDouble "status" result,
    stmtCreateAsynEventWithDSMap 63,
    stmtEnableDialogCreation ]

/-- Source: `show_attempt_threaded`, lines 140-147. -/
def show_attempt_threaded (_str : String) (id : Nat) (result : Dbl) : List Stmt :=
  [ stmtCreateDsMap,
    stmtDsMapAddDouble "id" (Dbl.ofUnsigned id),
    stmtDsMapAddDouble "status" result,
    stmtCreateAsynEventWithDSMap 63,
    stmtEnableDialogCreation ]

/-- Source: `show_error_threaded`, lines 149-156. -/
def show_error_threaded (_str : String) (_abort : Dbl) (id : Nat) (result : Dbl) : List Stmt :=
  [ stmtCreateDsMap,
    stmtDsMapAddDouble "id" (Dbl.ofUnsigned id),
    stmtDsMapAddDouble "status" result,
    stmtCreateAsynEventWithDSMap 63,
    stmtEnableDialogCreation ]

/-- Source: `get_string_threaded`, lines 158-166. -/
def get_string_threaded (_str _def : String) (id : Nat) (result : String) : List Stmt :=
  [ stmtCreateDsMap,
    stmtDsMapAddDouble "id" (Dbl.ofUnsigned id),
    stmtDsMapAddDouble "status" (.fin 1),
    stmtDsMapAddString "result" result,
    stmtCreateAsynEventWithDSMap 63,
    stmtEnableDialogCreation ]

/-- Source: `get_password_threaded`, lines 168-176. -/
def get_password_threaded (_str _def : String) (id : Nat) (result : String) : List Stmt :=
  [ stmtCreateDsMap,
    stmtDsMapAddDouble "id" (Dbl.ofUnsigned id),
    stmtDsMapAddDouble "status" (.fin 1),
    stmtDsMapAddString "result" result,
    stmtCreateAsynEventWithDSMap 63,
    stmtEnableDialogCreation ]

/-- Source: `get_integer_threaded`, lines 178-186. -/
def get_integer_threaded (_str : String) (_def : Dbl) (id : Nat) (result : Dbl) : List Stmt :=
  [ stmtCreateDsMap,
    stmtDsMapAddDouble "id" (Dbl.ofUnsigned id),
    stmtDsMapAddDouble "status" (if isnan result then .fin 0 else .fin 1),
    stmtDsMapAddDouble "value" (if isnan result then .fin 0 else result),
    stmtCreateAsynEventWithDSMap 63,
    stmtEnableDialogCreation ]

/-- Source: `get_passcode_threaded`, lines 188-196. -/
def get_passcode_threaded (_str : String) (_def : Dbl) (id : Nat) (result : Dbl) : List Stmt :=
  [ stmtCreateDsMap,
    stmtDsMapAddDouble "id" (Dbl.ofUnsigned id),
    stmtDsMapAddDouble "status" (.fin 1),
    stmtDsMapAddDouble "value" result,
    stmtCreateAsynEventWithDSMap 63,
    stmtEnableDialogCreation ]

/-- Source: `get_open_filename_threaded`, lines 198-206. -/
def get_open_filename_threaded (_filter _fname : String) (id : Nat) (result : String) : List Stmt :=
  [ stmtCreateDsMap,
    stmtDsMapAddDouble "id" (Dbl.ofUnsigned id),
    stmtDsMapAddDouble "status" (.fin 1),
    stmtDsMapAddString "result" result,
    stmtCreateAsynEventWithDSMap 63,
    stmtEnableDialogCreation ]

/-- Source: `get_open_filename_ext_threaded`, lines 208-216. -/
def get_open_filename_ext_threaded (_filter _fname _dir _title : String) (id : Nat)
    (result : String) : List Stmt :=
  [ stmtCreateDsMap,
    stmtDsMapAddDouble "id" (Dbl.ofUnsigned id),
    stmtDsMapAddDouble "status" (.fin 1),
    stmtDsMapAddString "result" result,
    stmtCreateAsynEventWithDSMap 63,
    stmtEnableDialogCreation ]

/-- Source: `get_open_filenames_threaded`, lines 218-226. -/
def get_open_filenames_threaded (_filter _fname : String) (id : Nat) (result : String) : List Stmt :=
  [ stmtCreateDsMap,
    stmtDsMapAddDouble "id" (Dbl.ofUnsigned id),
    stmtDsMapAddDouble "status" (.fin 1),
    stmtDsMapAddString "result" result,
    stmtCreateAsynEventWithDSMap 63,
    stmtEnableDialogCreation ]

/-- Source: `get_open_filenames_ext_threaded`, lines 228-236. -/
def get_open_filenames_ext_threaded (_filter _fname _dir _title : String) (id : Nat)
    (result : String) : List Stmt :=
  [ stmtCreateDsMap,
    stmtDsMapAddDouble "id" (Dbl.ofUnsigned id),
    stmtDsMapAddDouble "status" (.fin 1),
    stmtDsMapAddString "result" result,
    stmtCreateAsynEventWithDSMap 63,
    stmtEnableDialogCreation ]

/-- Source: `get_save_filename_threaded`, lines 238-246. -/
def get_save_filename_threaded (_filter _fname : String) (id : Nat) (result : String) : List Stmt :=
  [ stmtCreateDsMap,
    stmtDsMapAddDouble "id" (Dbl.ofUnsigned id),
    stmtDsMapAddDouble "status" (.fin 1),
    stmtDsMapAddString "result" result,
    stmtCreateAsynEventWithDSMap 63,
    stmtEnableDialogCreation ]

/-- Source: `get_save_filename_ext_threaded`, lines 248-256. -/
def get_save_filename_ext_threaded (_filter _fname _dir _title : String) (id : Nat)
    (result : String) : List Stmt :=
  [ stmtCreateDsMap,
    stmtDsMapAddDouble "id" (Dbl.ofUnsigned id),
    stmtDsMapAddDouble "status" (.fin 1),
    stmtDsMapAddString "result" result,
    stmtCreateAsynEventWithDSMap 63,
    stmtEnableDialogCreation ]

/-- Source: `get_directory_threaded`, lines 258-266. -/
def get_directory_threaded (_dname : String) (id : Nat) (result : String) : List Stmt :=
  [ stmtCreateDsMap,
    stmtDsMapAddDouble "id" (Dbl.ofUnsigned id),
    stmtDsMapAddDouble "status" (.fin 1),
    stmtDsMapAddString "result" result,
    stmtCreateAsynEventWithDSMap 63,
    stmtEnableDialogCreation ]

/-- Source: `get_directory_alt_threaded`, lines 268-276. -/
def get_directory_alt_threaded (_capt _root : String) (id : Nat) (result : String) : List Stmt :=
  [ stmtCreateDsMap,
    stmtDsMapAddDouble "id" (Dbl.ofUnsigned id),
    stmtDsMapAddDouble "status" (.fin 1),
    stmtDsMapAddString "result" result,
    stmtCreateAsynEventWithDSMap 63,
    stmtEnableDialogCreation ]

/-- Source: `get_color_threaded`, lines 278-286. -/
def get_color_threaded (_defcol : Dbl) (id : Nat) (result : Dbl) : List Stmt :=
  [ stmtCreateDsMap,
    stmtDsMapAddDouble "id" (Dbl.ofUnsigned id),
    stmtDsMapAddDouble "status" (.fin 1),
    stmtDsMapAddDouble "value" result,
    stmtCreateAsynEventWithDSMap 63,
    stmtEnableDialogCreation ]

/-- Source: `get_color_ext_threaded`, lines 288-296. -/
def get_color_ext_threaded (_defcol : Dbl) (_title : String) (id : Nat) (result : Dbl) : List Stmt :=
  [ stmtCreateDsMap,
    stmtDsMapAddDouble "id" (Dbl.ofUnsigned id),
    stmtDsMapAddDouble "status" (.fin 1),
    stmtDsMapAddDouble "value" result,
    stmtCreateAsynEventWithDSMap 63,
    stmtEnableDialogCreation ]

/-! ### Asynchronous entry points (lines 304-632)

The value returned is the `double` the C function returns.  On the busy path
the C expression `dialog_identifier - 1` is computed in `unsigned` arithmetic,
hence modulo `4294967296`. -/

/-- Source: `show_message_async`, lines 304-314. -/
def show_message_async (str : String) (s : State) : Dbl × State :=
  if s.enable_dialog_creation then
    let s := { s with enable_dialog_creation := false }
    let id := s.dialog_identifier
    let s := { s with dialog_identifier := (s.dialog_identifier + 1) % 4294967296 }
    let s := { s with arg1 := str }
    let s := { s with threads := s.threads ++ [Thread.show_message_threaded s.arg1 id] }
    (Dbl.ofUnsigned id, s)
  else
    (Dbl.ofUnsigned ((s.dialog_identifier + 4294967295) % 4294967296), s)

/-- Source: `show_message_cancelable_async`, lines 320-330. -/
def show_message_cancelable_async (str : String) (s : State) : Dbl × State :=
  if s.enable_dialog_creation then
    let s := { s with enable_dialog_creation := false }
    let id := s.dialog_identifier
    let s := { s with dialog_identifier := (s.dialog_identifier + 1) % 4294967296 }
    let s := { s with arg1 := str }
    let s := { s with threads := s.threads ++ [Thread.show_message_cancelable_threaded s.arg1 id] }
    (Dbl.ofUnsigned id, s)
  else
    (Dbl.ofUnsigned ((s.dialog_identifier + 4294967295) % 4294967296), s)

/-- Source: `show_question_async`, lines 336-346. -/
def show_question_async (str : String) (s : State) : Dbl × State :=
  if s.enable_dialog_creation then
    let s := { s with enable_dialog_creation := false }
    let id := s.dialog_identifier
    let s := { s with dialog_identifier := (s.dialog_identifier + 1) % 4294967296 }
    let s := { s with arg1 := str }
    let s := { s with threads := s.threads ++ [Thread.show_question_threaded s.arg1 id] }
    (Dbl.ofUnsigned id, s)
  else
    (Dbl.ofUnsigned ((s.dialog_identifier + 4294967295) % 4294967296), s)

/-- Source: `show_question_cancelable_async`, lines 352-362. -/
def show_question_cancelable_async (str : String) (s : State) : Dbl × State :=
  if s.enable_dialog_creation then
    let s := { s with enable_dialog_creation := false }
    let id := s.dialog_identifier
    let s := { s with dialog_identifier := (s.dialog_identifier + 1) % 4294967296 }
    let s := { s with arg1 := str }
    let s := { s with threads := s.threads ++ [Thread.show_question_cancelable_threaded s.arg1 id] }
    (Dbl.ofUnsigned id, s)
  else
    (Dbl.ofUnsigned ((s.dialog_identifier + 4294967295) % 4294967296), s)

/-- Source: `show_attempt_async`, lines 368-378. -/
def show_attempt_async (str : String) (s : State) : Dbl × State :=
  if s.enable_dialog_creation then
    let s := { s with enable_dialog_creation := false }
    let id := s.dialog_identifier
    let s := { s with dialog_identifier := (s.dialog_identifier + 1) % 4294967296 }
    let s := { s with arg1 := str }
    let s := { s with threads := s.threads ++ [Thread.show_attempt_threaded s.arg1 id] }
    (Dbl.ofUnsigned id, s)
  else
    (Dbl.ofUnsigned ((s.dialog_identifier + 4294967295) % 4294967296), s)

/-- Source: `show_error_async`, lines 384-394. -/
def show_error_async (str : String) (abort : Dbl) (s : State) : Dbl × State :=
  if s.enable_dialog_creation then
    let s := { s with enable_dialog_creation := false }
    let id := s.dialog_identifier
    let s := { s with dialog_identifier := (s.dialog_identifier + 1) % 4294967296 }
    let s := { s with arg1 := str }
    let s := { s with threads := s.threads ++ [Thread.show_error_threaded s.arg1 abort id] }
    (Dbl.ofUnsigned id, s)
  else
    (Dbl.ofUnsigned ((s.dialog_identifier + 4294967295) % 4294967296), s)

/-- Source: `get_string_async`, lines 400-411. -/
def get_string_async (str : String) (def_ : String) (s : State) : Dbl × State :=
  if s.enable_dialog_creation then
    let s := { s with enable_dialog_creation := false }
    let id := s.dialog_identifier
    let s := { s with dialog_identifier := (s.dialog_identifier + 1) % 4294967296 }
    let s := { s with arg1 := str }
    let s := { s with arg2 := def_ }
    let s := { s with threads := s.threads ++ [Thread.get_string_threaded s.arg1 s.arg2 id] }
    (Dbl.ofUnsigned id, s)
  else
    (Dbl.ofUnsigned ((s.dialog_identifier + 4294967295) % 4294967296), s)

/-- Source: `get_password_async`, lines 417-428. -/
def get_password_async (str : String) (def_ : String) (s : State) : Dbl × State :=
  if s.enable_dialog_creation then
    let s := { s with enable_dialog_creation := false }
    let id := s.dialog_identifier
    let s := { s with dialog_identifier := (s.dialog_identifier + 1) % 4294967296 }
    let s := { s with arg1 := str }
    let s := { s with arg2 := def_ }
    let s := { s with threads := s.threads ++ [Thread.get_password_threaded s.arg1 s.arg2 id] }
    (Dbl.ofUnsigned id, s)
  else
    (Dbl.ofUnsigned ((s.dialog_identifier + 4294967295) % 4294967296), s)

/-- Source: `get_integer_async`, lines 434-444. -/
def get_integer_async (str : String) (def_ : Dbl) (s : State) : Dbl × State :=
  if s.enable_dialog_creation then
    let s := { s with enable_dialog_creation := false }
    let id := s.dialog_identifier
    let s := { s with dialog_identifier := (s.dialog_identifier + 1) % 4294967296 }
    let s := { s with arg1 := str }
    let s := { s with threads := s.threads ++ [Thread.get_integer_threaded s.arg1 def_ id] }
    (Dbl.ofUnsigned id, s)
  else
    (Dbl.ofUnsigned ((s.dialog_identifier + 4294967295) % 4294967296), s)

/-- Source: `get_passcode_async`, lines 450-460. -/
def get_passcode_async (str : String) (def_ : Dbl) (s : State) : Dbl × State :=
  if s.enable_dialog_creation then
    let s := { s with enable_dialog_creation := false }
    let id := s.dialog_identifier
    let s := { s with dialog_identifier := (s.dialog_identifier + 1) % 4294967296 }
    let s := { s with arg1 := str }
    let s := { s with threads := s.threads ++ [Thread.get_passcode_threaded s.arg1 def_ id] }
    (Dbl.ofUnsigned id, s)
  else
    (Dbl.ofUnsigned ((s.dialog_identifier + 4294967295) % 4294967296), s)

/-- Source: `get_open_filename_async`, lines 466-477. -/
def get_open_filename_async (filter : String) (fname : String) (s : State) : Dbl × State :=
  if s.enable_dialog_creation then
    let s := { s with enable_dialog_creation := false }
    let id := s.dialog_identifier
    let s := { s with dialog_identifier := (s.dialog_identifier + 1) % 4294967296 }
    let s := { s with arg1 := filter }
    let s := { s with arg2 := fname }
    let s := { s with threads := s.threads ++ [Thread.get_open_filename_threaded s.arg1 s.arg2 id] }
    (Dbl.ofUnsigned id, s)
  else
    (Dbl.ofUnsigned ((s.dialog_identifier + 4294967295) % 4294967296), s)

/-- Source: `get_open_filename_ext_async`, lines 483-496. -/
def get_open_filename_ext_async (filter : String) (fname : String) (dir : String) (title : String) (s : State) : Dbl × State :=
  if s.enable_dialog_creation then
    let s := { s with enable_dialog_creation := false }
    let id := s.dialog_identifier
    let s := { s with dialog_identifier := (s.dialog_identifier + 1) % 4294967296 }
    let s := { s with arg1 := filter }
    let s := { s with arg2 := fname }
    let s := { s with arg3 := dir }
    let s := { s with arg4 := title }
    let s := { s with threads := s.threads ++ [Thread.get_open_filename_ext_threaded s.arg1 s.arg2 s.arg3 s.arg4 id] }
    (Dbl.ofUnsigned id, s)
  else
    (Dbl.ofUnsigned ((s.dialog_identifier + 4294967295) % 4294967296), s)

/-- Source: `get_open_filenames_async`, lines 502-513. -/
def get_open_filenames_async (filter : String) (fname : String) (s : State) : Dbl × State :=
  if s.enable_dialog_creation then
    let s := { s with enable_dialog_creation := false }
    let id := s.dialog_identifier
    let s := { s with dialog_identifier := (s.dialog_identifier + 1) % 4294967296 }
    let s := { s with arg1 := filter }
    let s := { s with arg2 := fname }
    let s := { s with threads := s.threads ++ [Thread.get_open_filenames_threaded s.arg1 s.arg2 id] }
    (Dbl.ofUnsigned id, s)
  else
    (Dbl.ofUnsigned ((s.dialog_identifier + 4294967295) % 4294967296), s)

/-- Source: `get_open_filenames_ext_async`, lines 519-532. -/
def get_open_filenames_ext_async (filter : String) (fname : String) (dir : String) (title : String) (s : State) : Dbl × State :=
  if s.enable_dialog_creation then
    let s := { s with enable_dialog_creation := false }
    let id := s.dialog_identifier
    let s := { s with dialog_identifier := (s.dialog_identifier + 1) % 4294967296 }
    let s := { s with arg1 := filter }
    let s := { s with arg2 := fname }
    let s := { s with arg3 := dir }
    let s := { s with arg4 := title }
    let s := { s with threads := s.threads ++ [Thread.get_open_filenames_ext_threaded s.arg1 s.arg2 s.arg3 s.arg4 id] }
    (Dbl.ofUnsigned id, s)
  else
    (Dbl.ofUnsigned ((s.dialog_identifier + 4294967295) % 4294967296), s)

/-- Source: `get_save_filename_async`, lines 538-549. -/
def get_save_filename_async (filter : String) (fname : String) (s : State) : Dbl × State :=
  if s.enable_dialog_creation then
    let s := { s with enable_dialog_creation := false }
    let id := s.dialog_identifier
    let s := { s with dialog_identifier := (s.dialog_identifier + 1) % 4294967296 }
    let s := { s with arg1 := filter }
    let s := { s with arg2 := fname }
    let s := { s with threads := s.threads ++ [Thread.get_save_filename_threaded s.arg1 s.arg2 id] }
    (Dbl.ofUnsigned id, s)
  else
    (Dbl.ofUnsigned ((s.dialog_identifier + 4294967295) % 4294967296), s)

/-- Source: `get_save_filename_ext_async`, lines 555-568. -/
def get_save_filename_ext_async (filter : String) (fname : String) (dir : String) (title : String) (s : State) : Dbl × State :=
  if s.enable_dialog_creation then
    let s := { s with enable_dialog_creation := false }
    let id := s.dialog_identifier
    let s := { s with dialog_identifier := (s.dialog_identifier + 1) % 4294967296 }
    let s := { s with arg1 := filter }
    let s := { s with arg2 := fname }
    let s := { s with arg3 := dir }
    let s := { s with arg4 := title }
    let s := { s with threads := s.threads ++ [Thread.get_save_filename_ext_threaded s.arg1 s.arg2 s.arg3 s.arg4 id] }
    (Dbl.ofUnsigned id, s)
  else
    (Dbl.ofUnsigned ((s.dialog_identifier + 4294967295) % 4294967296), s)

/-- Source: `get_directory_async`, lines 574-584. -/
def get_directory_async (dname : String) (s : State) : Dbl × State :=
  if s.enable_dialog_creation then
    let s := { s with enable_dialog_creation := false }
    let id := s.dialog_identifier
    let s := { s with dialog_identifier := (s.dialog_identifier + 1) % 4294967296 }
    let s := { s with arg1 := dname }
    let s := { s with threads := s.threads ++ [Thread.get_directory_threaded s.arg1 id] }
    (Dbl.ofUnsigned id, s)
  else
    (Dbl.ofUnsigned ((s.dialog_identifier + 4294967295) % 4294967296), s)

/-- Source: `get_directory_alt_async`, lines 590-601. -/
def get_directory_alt_async (capt : String) (root : String) (s : State) : Dbl × State :=
  if s.enable_dialog_creation then
    let s := { s with enable_dialog_creation := false }
    let id := s.dialog_identifier
    let s := { s with dialog_identifier := (s.dialog_identifier + 1) % 4294967296 }
    let s := { s with arg1 := capt }
    let s := { s with arg2 := root }
    let s := { s with threads := s.threads ++ [Thread.get_directory_alt_threaded s.arg1 s.arg2 id] }
    (Dbl.ofUnsigned id, s)
  else
    (Dbl.ofUnsigned ((s.dialog_identifier + 4294967295) % 4294967296), s)

/-- Source: `get_color_async`, lines 607-616. -/
def get_color_async (defcol : Dbl) (s : State) : Dbl × State :=
  if s.enable_dialog_creation then
    let s := { s with enable_dialog_creation := false }
    let id := s.dialog_identifier
    let s := { s with dialog_identifier := (s.dialog_identifier + 1) % 4294967296 }
    let s := { s with threads := s.threads ++ [Thread.get_color_threaded defcol.intCast id] }
    (Dbl.ofUnsigned id, s)
  else
    (Dbl.ofUnsigned ((s.dialog_identifier + 4294967295) % 4294967296), s)

/-- Source: `get_color_ext_async`, lines 622-632. -/
def get_color_ext_async (defcol : Dbl) (title : String) (s : State) : Dbl × State :=
  if s.enable_dialog_creation then
    let s := { s with enable_dialog_creation := false }
    let id := s.dialog_identifier
    let s := { s with dialog_identifier := (s.dialog_identifier + 1) % 4294967296 }
    let s := { s with arg2 := title }
    let s := { s with threads := s.threads ++ [Thread.get_color_ext_threaded defcol.intCast s.arg2 id] }
    (Dbl.ofUnsigned id, s)
  else
    (Dbl.ofUnsigned ((s.dialog_identifier + 4294967295) % 4294967296), s)

/-- A call of one of the asynchronous entry points, with its arguments. -/
inductive AsyncCall where
  | show_message_async (str : String)
  | show_message_cancelable_async (str : String)
  | show_question_async (str : String)
  | show_question_cancelable_async (str : String)
  | show_attempt_async (str : String)
  | show_error_async (str : String) (abort : Dbl)
  | get_string_async (str : String) (def_ : String)
  | get_password_async (str : String) (def_ : String)
  | get_integer_async (str : String) (def_ : Dbl)
  | get_passcode_async (str : String) (def_ : Dbl)
  | get_open_filename_async (filter : String) (fname : String)
  | get_open_filename_ext_async (filter : String) (fname : String) (dir : String) (title : String)
  | get_open_filenames_async (filter : String) (fname : String)
  | get_open_filenames_ext_async (filter : String) (fname : String) (dir : String) (title : String)
  | get_save_filename_async (filter : String) (fname : String)
  | get_save_filename_ext_async (filter : String) (fname : String) (dir : String) (title : String)
  | get_directory_async (dname : String)
  | get_directory_alt_async (capt : String) (root : String)
  | get_color_async (defcol : Dbl)
  | get_color_ext_async (defcol : Dbl) (title : String)
  deriving DecidableEq

/-- Runs the entry point a call names. -/
def AsyncCall.run : AsyncCall → State → Dbl × State
  | .show_message_async str => dlgmodule.show_message_async str
  | .show_message_cancelable_async str => dlgmodule.show_message_cancelable_async str
  | .show_question_async str => dlgmodule.show_question_async str
  | .show_question_cancelable_async str => dlgmodule.show_question_cancelable_async str
  | .show_attempt_async str => dlgmodule.show_attempt_async str
  | .show_error_async str abort => dlgmodule.show_error_async str abort
  | .get_string_async str def_ => dlgmodule.get_string_async str def_
  | .get_password_async str def_ => dlgmodule.get_password_async str def_
  | .get_integer_async str def_ => dlgmodule.get_integer_async str def_
  | .get_passcode_async str def_ => dlgmodule.get_passcode_async str def_
  | .get_open_filename_async filter fname => dlgmodule.get_open_filename_async filter fname
  | .get_open_filename_ext_async filter fname dir title => dlgmodule.get_open_filename_ext_async filter fname dir title
  | .get_open_filenames_async filter fname => dlgmodule.get_open_filenames_async filter fname
  | .get_open_filenames_ext_async filter fname dir title => dlgmodule.get_open_filenames_ext_async filter fname dir title
  | .get_save_filename_async filter fname => dlgmodule.get_save_filename_async filter fname
  | .get_save_filename_ext_async filter fname dir title => dlgmodule.get_save_filename_ext_async filter fname dir title
  | .get_directory_async dname => dlgmodule.get_directory_async dname
  | .get_directory_alt_async capt root => dlgmodule.get_directory_alt_async capt root
  | .get_color_async defcol => dlgmodule.get_color_async defcol
  | .get_color_ext_async defcol title => dlgmodule.get_color_ext_async defcol title

/-- The `id` argument a thread was started with. -/
def Thread.id : Thread → Nat
  | .show_message_threaded _ id => id
  | .show_message_cancelable_threaded _ id => id
  | .show_question_threaded _ id => id
  | .show_question_cancelable_threaded _ id => id
  | .show_attempt_threaded _ id => id
  | .show_error_threaded _ _ id => id
  | .get_string_threaded _ _ id => id
  | .get_password_threaded _ _ id => id
  | .get_integer_threaded _ _ id => id
  | .get_passcode_threaded _ _ id => id
  | .get_open_filename_threaded _ _ id => id
  | .get_open_filename_ext_threaded _ _ _ _ id => id
  | .get_open_filenames_threaded _ _ id => id
  | .get_open_filenames_ext_threaded _ _ _ _ id => id
  | .get_save_filename_threaded _ _ id => id
  | .get_save_filename_ext_threaded _ _ _ _ id => id
  | .get_directory_threaded _ id => id
  | .get_directory_alt_threaded _ _ id => id
  | .get_color_threaded _ id => id
  | .get_color_ext_threaded _ _ id => id

/-- What the synchronous dialog called by a worker returned: `num` is read by
the workers whose dialog returns a `double`, `text` by those whose dialog
returns a `char *`. -/
structure DialogResult where
  num : Dbl
  text : String
  deriving DecidableEq

/-- The body of the worker function a thread runs, given what its dialog
returned. -/
def Thread.body : Thread → DialogResult → List Stmt
  | .show_message_threaded str id, r => dlgmodule.show_message_threaded str id r.num
  | .show_message_cancelable_threaded str id, r => dlgmodule.show_message_cancelable_threaded str id r.num
  | .show_question_threaded str id, r => dlgmodule.show_question_threaded str id r.num
  | .show_question_cancelable_threaded str id, r => dlgmodule.show_question_cancelable_threaded str id r.num
  | .show_attempt_threaded str id, r => dlgmodule.show_attempt_threaded str id r.num
  | .show_error_threaded str abort id, r => dlgmodule.show_error_threaded str abort id r.num
  | .get_string_threaded str def_ id, r => dlgmodule.get_string_threaded str def_ id r.text
  | .get_password_threaded str def_ id, r => dlgmodule.get_password_threaded str def_ id r.text
  | .get_integer_threaded str def_ id, r => dlgmodule.get_integer_threaded str def_ id r.num
  | .get_passcode_threaded str def_ id, r => dlgmodule.get_passcode_threaded str def_ id r.num
  | .get_open_filename_threaded filter fname id, r => dlgmodule.get_open_filename_threaded filter fname id r.text
  | .get_open_filename_ext_threaded filter fname dir title id, r => dlgmodule.get_open_filename_ext_threaded filter fname dir title id r.text
  | .get_open_filenames_threaded filter fname id, r => dlgmodule.get_open_filenames_threaded filter fname id r.text
  | .get_open_filenames_ext_threaded filter fname dir title id, r => dlgmodule.get_open_filenames_ext_threaded filter fname dir title id r.text
  | .get_save_filename_threaded filter fname id, r => dlgmodule.get_save_filename_threaded filter fname id r.text
  | .get_save_filename_ext_threaded filter fname dir title id, r => dlgmodule.get_save_filename_ext_threaded filter fname dir title id r.text
  | .get_directory_threaded dname id, r => dlgmodule.get_directory_threaded dname id r.text
  | .get_directory_alt_threaded capt root id, r => dlgmodule.get_directory_alt_threaded capt root id r.text
  | .get_color_threaded defcol id, r => dlgmodule.get_color_threaded defcol id r.num
  | .get_color_ext_threaded defcol title id, r => dlgmodule.get_color_ext_threaded defcol title id r.num

/-- Runs a list of statements. -/
def exec (body : List Stmt) (l : Local) : Local :=
  body.foldl (fun l st => st l) l

/-- The states a worker passes through: the one after each statement, in
order. -/
def trace : List Stmt → Local → List Local
  | [], _ => []
  | st :: rest, l => st l :: trace rest (st l)

/-- A whole worker run as one atomic step: the dialog returns `r`, the body
runs to its end on the globals. -/
def Thread.complete (w : Thread) (r : DialogResult) (s : State) : State :=
  (exec (w.body r) { resultMap := 0, g := s }).g

/-- The map a worker run leaves behind for the host: the content of the map
named by the last event dispatched. -/
def Thread.delivered (w : Thread) (r : DialogResult) (s : State) : List (String × MapVal) :=
  match (w.complete r s).host.events.getLast? with
  | some (m, _) => (w.complete r s).host.maps.getD m []
  | none => []

/-- One atomic step of the module: a call of an asynchronous entry point, or
the thread at position `i` of the started threads running to its end after
its dialog returned `r` (nothing happens when there is no such thread). -/
inductive Event where
  | call (c : AsyncCall)
  | finish (i : Nat) (r : DialogResult)
  deriving DecidableEq

/-- Effect of one atomic step on the state. -/
def Event.apply (e : Event) (s : State) : State :=
  match e with
  | .call c => (c.run s).2
  | .finish i r =>
    match s.threads.get? i with
    | some w => { w.complete r s with threads := (w.complete r s).threads.eraseIdx i }
    | none => s

/-- State after a sequence of atomic steps. -/
def run (es : List Event) (s : State) : State :=
  es.foldl (fun s e => e.apply s) s

/-- The values returned by the accepted calls (those made while the gate is
open) of a sequence of atomic steps, in order. -/
def acceptedReturns : List Event → State → List Dbl
  | [], _ => []
  | .call c :: es, s =>
    (if s.enable_dialog_creation then [(c.run s).1] else []) ++ acceptedReturns es (c.run s).2
  | .finish i r :: es, s => acceptedReturns es ((Event.finish i r).apply s)

/-- The synchronous dialog a worker calls returns a `char *` (declarations at
lines 38-77: `get_string`, `get_password`, the file-name and directory
dialogs); the others return a `double`. -/
def Thread.returnsString : Thread → Bool
  | .get_string_threaded .. => true
  | .get_password_threaded .. => true
  | .get_open_filename_threaded .. => true
  | .get_open_filename_ext_threaded .. => true
  | .get_open_filenames_threaded .. => true
  | .get_open_filenames_ext_threaded .. => true
  | .get_save_filename_threaded .. => true
  | .get_save_filename_ext_threaded .. => true
  | .get_directory_threaded .. => true
  | .get_directory_alt_threaded .. => true
  | _ => false

/-- The worker belongs to the message-box family `show_message`,
`show_message_cancelable`, `show_question`, `show_question_cancelable`,
`show_attempt`, `show_error` (lines 104-156). -/
def Thread.isMessageBox : Thread → Bool
  | .show_message_threaded .. => true
  | .show_message_cancelable_threaded .. => true
  | .show_question_threaded .. => true
  | .show_question_cancelable_threaded .. => true
  | .show_attempt_threaded .. => true
  | .show_error_threaded .. => true
  | _ => false

/-- The keys of a map, in insertion order. -/
def keys (m : List (String × MapVal)) : List String := m.map Prod.fst

/-- The invariant of the atomic-step model: the counter is a 32-bit value, and
either the gate is open and no thread is in flight, or the gate is closed and
exactly one thread is in flight, whose `id` is the counter minus one. -/
def Inv (s : State) : Prop :=
  s.dialog_identifier < 4294967296 ∧
  ((s.enable_dialog_creation = true ∧ s.threads = []) ∨
   (s.enable_dialog_creation = false ∧
     ∃ w, s.threads = [w] ∧ w.id = (s.dialog_identifier + 4294967295) % 4294967296))

end dlgmodule

namespace filedialogs

/-- A `std::string`: its characters in order. -/
abbrev Str := List Char

/-- The build targets the preprocessor conditions tell apart: `_WIN32`,
`__APPLE__ && __MACH__`, and everything else (Linux, BSD). -/
inductive Platform where
  | win32
  | apple
  | other
  deriving DecidableEq

/-- The macro `CHR_SLASH`: a backslash on Windows, a slash elsewhere. -/
def CHR_SLASH : Platform → Char
  | .win32 => '\\'
  | _ => '/'

/-- The macro `STR_SLASH`. -/
def STR_SLASH (p : Platform) : Str := [CHR_SLASH p]

/-- Scan behind `string_replace_all`: `skip` is the number of characters of the
occurrence just replaced that are still to be passed over. -/
def string_replace_all.scan (substr nstr : Str) : Nat → Str → Str
  | _, [] => []
  | skip + 1, _ :: cs => string_replace_all.scan substr nstr skip cs
  | 0, c :: cs =>
    if substr ≠ [] ∧ substr <+: c :: cs then
      nstr ++ string_replace_all.scan substr nstr (substr.length - 1) cs
    else
      c :: string_replace_all.scan substr nstr 0 cs

/-- Source: `string_replace_all`, src/filedialogs.cpp lines 95-103 (the same
text is at lines 109-117 of the MacOSX file).  The loop finds the next
occurrence of `substr` at or after `pos`, replaces it by `nstr` and moves `pos`
behind the inserted text: the occurrences are replaced left to right, without
overlap, and inserted text is not searched again.  Every caller passes a
non-empty `substr`; with an empty one the C++ loop never ends, and the model
then returns `str` as it is. -/
def string_replace_all (str substr nstr : Str) : Str :=
  string_replace_all.scan substr nstr 0 str

/-- Loop of `string_split`: `tmp` is the field being read by `std::getline`.
At the end of the input a field is delivered only when at least one character
was read for it. -/
def string_split.go (delimiter : Char) : Str → Str → List Str
  | tmp, [] => if tmp = [] then [] else [tmp]
  | tmp, c :: cs =>
    if c = delimiter then tmp :: string_split.go delimiter [] cs
    else string_split.go delimiter (tmp ++ [c]) cs

/-- Source: `string_split`, src/filedialogs.cpp lines 105-112 (and lines
119-126 of the MacOSX file). -/
def string_split (str : Str) (delimiter : Char) : List Str :=
  string_split.go delimiter [] str

/-- The `for` loop of `imgui_filter` (lines 123-132): `index` is the loop
counter, `string_output` the text built so far. -/
def imgui_filter.loop : List Str → Nat → Str → Str
  | [], _, string_output => string_output
  | str :: rest, index, string_output =>
    if index % 2 = 0 then
      imgui_filter.loop rest (index + 1) (string_output ++ (str ++ ['{']))
    else
      imgui_filter.loop rest (index + 1)
        (string_output ++
          (string_replace_all (str.map (fun c => if c = ';' then ',' else c)) ['*', '.'] ['.']
            ++ ['}', ',']))

/-- Source: `imgui_filter`, src/filedialogs.cpp lines 114-139. -/
def imgui_filter (input : Str) : Str :=
  let input := string_replace_all input ['\r'] []
  let input := string_replace_all input ['\n'] []
  let input := string_replace_all input ['{'] []
  let input := string_replace_all input ['}'] []
  let input := string_replace_all input [','] []
  let stringVec := string_split input '|'
  let string_output := imgui_filter.loop stringVec 0 []
  if string_output ≠ [] ∧ string_output.getLast? = some ',' then
    string_output.dropLast
  else if string_output = [] then
    ['.', '*']
  else
    string_output

/-- Source: `filename_drive`, lines 382-391.  `find_first_of` looks for a slash
(on Windows also for a backslash). -/
def filename_drive (p : Platform) (fname : Str) : Str :=
  let fp := fname.findIdx (fun c => c = '/' ∨ (p = .win32 ∧ c = '\\'))
  if fp = 0 ∨ fp = fname.length ∨ fname.get? (fp - 1) ≠ some ':' then []
  else fname.take fp

/-- The bytes `strcmp` looks at: those before the first NUL. -/
def c_str (s : Str) : Str := s.takeWhile (fun c => c ≠ Char.ofNat 0)

/-- The enumeration at lines 400-405 (and 153-158 of the MacOSX file). -/
inductive DialogType where
  | openFile
  | openFiles
  | saveFile
  | selectFolder
  deriving DecidableEq

/-- What the SDL calls of the set-up part of `file_dialog_helper` return. -/
structure Setup where
  /-- Return value of `SDL_Init` (zero on success). -/
  SDL_Init : Int
  /-- `SDL_CreateWindow` returned a non-null window. -/
  SDL_CreateWindow : Bool
  /-- `SDL_CreateRenderer` returned a non-null renderer. -/
  SDL_CreateRenderer : Bool
  /-- `SDL_GetWindowWMInfo` returned true. -/
  SDL_GetWindowWMInfo : Bool
  /-- `SDL_GL_CreateContext` returned a non-null context. -/
  SDL_GL_CreateContext : Bool
  deriving DecidableEq

/-- The calls to SDL and to the two dialog libraries that `file_dialog_helper`
makes, as far as they are recorded.  Calls that return nothing the helper
looks at and do not touch `result` (attributes, hints, fonts, style, the GL
drawing calls) are not recorded. -/
inductive Call where
  | SDL_Init
  | SDL_CreateWindow (title : Str)
  | SDL_CreateRenderer
  | SDL_GetWindowWMInfo
  | SDL_GL_CreateContext
  | ImGui_CreateContext
  | ImGui_NewFrame
  | OpenDialog (filters : Option Str) (path : Str) (fileName : Option Str)
      (countSelectionMax : Option Nat) (confirmOverwrite : Bool)
  | Display
  | Open (key title filter : Str) (isMultiselect : Bool) (startingFile startingDir : Str)
  | Save (key title filter startingFile startingDir : Str)
  | IsDone (key : Str)
  | Close
  | ImGui_Render
  | ImGui_DestroyContext
  | SDL_GL_DeleteContext
  | SDL_DestroyWindow
  | SDL_Quit
  deriving DecidableEq

/-- What a run of `file_dialog_helper` does: the recorded calls in order, and
the string returned; `result` is `none` when the given frames end while the
dialog is still open (the loop has not ended, nothing is returned yet). -/
structure Outcome where
  calls : List Call
  result : Option Str
  deriving DecidableEq

/-- The helpers of src/filedialogs.cpp whose value depends on the state of the
file system (through `std::filesystem` and the environment), as functions of
their argument: `filename_absolute` (lines 330-338), `filename_canonical`
(lines 319-328), `directory_exists` (lines 310-317) and `directory_create`
(lines 393-398). -/
structure FileSystem where
  filename_absolute : Str → Str
  filename_canonical : Str → Str
  directory_exists : Str → Bool
  directory_create : Str → Bool

/-- What happens during one iteration of the render loop of src/filedialogs.cpp
(lines 464-521): `events` has one entry for each event `SDL_PollEvent` hands
out, true when its type is `SDL_QUIT`; the other fields are what the
ImGuiFileDialog instance answers in this iteration. -/
structure Frame where
  events : List Bool
  Display : Bool
  IsOk : Bool
  GetSelection : List Str
  GetFilePathName : Str

/-- Lines 483-512: the value of `result` after the block guarded by `IsOk()`,
from its value before. -/
def confirmed_result (p : Platform) (fs : FileSystem) (type : DialogType) (f : Frame)
    (result : Str) : Str :=
  match type with
  | .openFile | .openFiles =>
    let result :=
      f.GetSelection.foldl (fun result val => result ++ (fs.filename_absolute val ++ ['\n'])) result
    if result ≠ [] ∧ result.getLast? = some '\n' then result.dropLast else result
  | .saveFile => string_replace_all (fs.filename_canonical f.GetFilePathName) ['.', '*'] []
  | .selectFolder =>
    let result := f.GetFilePathName
    let result := result.rdropWhile (fun c => c == CHR_SLASH p)
    let result :=
      if p = .win32 then (if result ≠ [] then result ++ [CHR_SLASH p] else result)
      else result ++ [CHR_SLASH p]
    let result := fs.filename_canonical result
    let ret := fs.directory_exists result ||
      decide (c_str result = c_str (filename_drive p (result ++ STR_SLASH p) ++ STR_SLASH p))
    let ret := if ret then ret else fs.directory_create result
    if ret then result else []

/-- The render loop of src/filedialogs.cpp, lines 464-521, run on the frames
given; `dir` and `result` are the values of these variables at the loop
head.  The loop is left after the iteration in which `quit` became true. -/
def render_loop (p : Platform) (fs : FileSystem) (filterNew fname : Str) (type : DialogType) :
    List Frame → Str → Str → Outcome
  | [], _, _ => { calls := [], result := none }
  | f :: frames, dir, result =>
    let quit := f.events.any (fun isQuit => isQuit)
    let dir := if dir ≠ [] ∧ dir.getLast? ≠ some (CHR_SLASH p) then dir ++ [CHR_SLASH p] else dir
    let opened :=
      match type with
      | .openFile => Call.OpenDialog (some filterNew) dir (some fname) (some 1) false
      | .openFiles => Call.OpenDialog (some filterNew) dir (some fname) (some 0) false
      | .saveFile => Call.OpenDialog (some filterNew) dir (some fname) (some 1) true
      | .selectFolder => Call.OpenDialog none dir none none false
    let result := if f.Display ∧ f.IsOk then confirmed_result p fs type f result else result
    let quit := if f.Display then true else quit
    let calls :=
      [Call.ImGui_NewFrame, opened, Call.Display] ++ (if f.Display then [Call.Close] else [])
        ++ [Call.ImGui_Render]
    if quit then { calls := calls, result := some result }
    else
      { calls := calls ++ (render_loop p fs filterNew fname type frames dir result).calls,
        result := (render_loop p fs filterNew fname type frames dir result).result }

/-- Source: `file_dialog_helper`, src/filedialogs.cpp lines 407-529.  The set-up
between `SDL_GL_CreateContext` and the loop (fonts, style, back-end
initialisation) is taken to return; it decides no branch. -/
def file_dialog_helper (p : Platform) (su : Setup) (fs : FileSystem) (frames : List Frame)
    (filter fname dir title : Str) (type : DialogType) : Outcome :=
  if su.SDL_Init ≠ 0 then
    { calls := [Call.SDL_Init], result := some [] }
  else if su.SDL_CreateWindow = false then
    { calls := [Call.SDL_Init, Call.SDL_CreateWindow title], result := some [] }
  else if p = .win32 ∧ su.SDL_GetWindowWMInfo = false then
    { calls := [Call.SDL_Init, Call.SDL_CreateWindow title, Call.SDL_GetWindowWMInfo],
      result := some [] }
  else
    let before :=
      [Call.SDL_Init, Call.SDL_CreateWindow title]
        ++ (if p = .win32 then [Call.SDL_GetWindowWMInfo] else [])
        ++ [Call.SDL_GL_CreateContext, Call.ImGui_CreateContext]
    let filterNew := imgui_filter filter
    let o := render_loop p fs filterNew fname type frames dir []
    match o.result with
    | none => { calls := before ++ o.calls, result := none }
    | some result =>
      { calls := before ++ o.calls
          ++ [Call.ImGui_DestroyContext, Call.SDL_GL_DeleteContext, Call.SDL_DestroyWindow,
              Call.SDL_Quit],
        result := some result }

end filedialogs

namespace MacOSX

open filedialogs (Str Platform CHR_SLASH STR_SLASH DialogType Setup Call Outcome string_replace_all
  string_split)

/-- Source: `imgui_filter`, src/DlgModule/MacOSX/filedialogs.cpp lines 128-151.
Its `for` loop (lines 137-146) has the text of the loop of the other file. -/
def imgui_filter (input : Str) (is_folder : Bool) : Str :=
  let input := string_replace_all input ['\r'] []
  let input := string_replace_all input ['\n'] []
  let input := string_replace_all input ['{'] []
  let input := string_replace_all input ['}'] []
  let input := string_replace_all input [','] []
  let stringVec := string_split input '|'
  let string_output := filedialogs.imgui_filter.loop stringVec 0 []
  if ¬ is_folder then string_output ++ ['.', '*'] else string_output

/-- What `expand_without_trailing_slash` gets from outside the file:
`ngs::fs::environment_expand_variables`, `ghc::filesystem::absolute` (`none`
when it sets the error code) and `path::root_name`. -/
structure FileSystem where
  environment_expand_variables : Str → Str
  absolute : Str → Option Str
  root_name : Str → Str

/-- The Windows loop of `expand_without_trailing_slash` (lines 168-172): `path`
is the text of the variable `p`.  The first argument bounds the number of
iterations; the length of `dname` is enough, one character goes at each.
`back()` of an empty string is undefined in C++; the model leaves the loop
there. -/
def expand_without_trailing_slash.win32 (fs : FileSystem) : Nat → Str → Str → Str
  | 0, _, dname => dname
  | n + 1, path, dname =>
    if (dname.getLast? = some '\\' ∨ dname.getLast? = some '/') ∧
        (fs.root_name path ++ ['\\'] ≠ dname ∧ fs.root_name path ++ ['/'] ≠ dname) then
      expand_without_trailing_slash.win32 fs n dname dname.dropLast
    else dname

/-- The loop of `expand_without_trailing_slash` on the other platforms (lines
174-176), with the same bound and the same reading of `back()`. -/
def expand_without_trailing_slash.posix : Nat → Str → Str
  | 0, dname => dname
  | n + 1, dname =>
    if dname.getLast? = some '/' ∧ (dname ≠ [] ∧ dname.head? ≠ some '/' ∧ dname.length ≠ 1) then
      expand_without_trailing_slash.posix n dname.dropLast
    else dname

/-- Source: `expand_without_trailing_slash`, lines 160-179. -/
def expand_without_trailing_slash (p : Platform) (fs : FileSystem) (dname : Str) : Str :=
  let dname := fs.environment_expand_variables dname
  match fs.absolute dname with
  | none => []
  | some dname =>
    if p = .win32 then expand_without_trailing_slash.win32 fs dname.length dname dname
    else expand_without_trailing_slash.posix dname.length dname

/-- What happens during one iteration of the render loop of the MacOSX file
(lines 407-472): `events` as in the other file; the other fields are what the
`ifd::FileDialog` instance answers in this iteration. -/
structure Frame where
  events : List Bool
  IsDone : Str → Bool
  HasResult : Bool
  GetResult : Str
  GetResults : List Str

/-- The dialog finishes in this iteration: `IsDone` holds for one of the four
keys the loop asks about (lines 425, 432, 441, 449). -/
def Frame.finished (f : Frame) : Bool :=
  f.IsDone "GetOpenFileName".toList || f.IsDone "GetOpenFileNames".toList ||
    f.IsDone "GetDirectory".toList || f.IsDone "GetSaveFileName".toList

/-- The render loop of the MacOSX file, lines 407-472, run on the frames given;
`dir` and `result` are the values of these variables at the loop head.  An
iteration in which `IsDone` holds jumps to `finish`. -/
def render_loop (p : Platform) (fs : FileSystem) (filterNew fname : Str) (type : DialogType) :
    List Frame → Str → Str → Outcome
  | [], _, _ => { calls := [], result := none }
  | f :: frames, dir, result =>
    let quit := f.events.any (fun isQuit => isQuit)
    let dir := expand_without_trailing_slash p fs dir
    let opened :=
      match type with
      | .openFile =>
        Call.Open "GetOpenFileName".toList "Open".toList filterNew false fname dir
      | .openFiles =>
        Call.Open "GetOpenFileNames".toList "Open".toList filterNew true fname dir
      | .selectFolder =>
        Call.Open "GetDirectory".toList "Select Directory".toList [] false fname dir
      | .saveFile =>
        Call.Save "GetSaveFileName".toList "Save As".toList filterNew fname dir
    if f.IsDone "GetOpenFileName".toList then
      let result := if f.HasResult then f.GetResult else result
      { calls := [Call.ImGui_NewFrame, opened, Call.IsDone "GetOpenFileName".toList, Call.Close],
        result := some result }
    else if f.IsDone "GetOpenFileNames".toList then
      let result :=
        if f.HasResult then
          let result := f.GetResults.foldl (fun result r => result ++ (r ++ ['\n'])) result
          if result ≠ [] then result.dropLast else result
        else result
      { calls := [Call.ImGui_NewFrame, opened, Call.IsDone "GetOpenFileNames".toList, Call.Close],
        result := some result }
    else if f.IsDone "GetDirectory".toList then
      let result :=
        if f.HasResult then
          let result := f.GetResult
          if result ≠ [] ∧ result.getLast? ≠ some (CHR_SLASH p) then result ++ [CHR_SLASH p]
          else result
        else result
      { calls := [Call.ImGui_NewFrame, opened, Call.IsDone "GetDirectory".toList, Call.Close],
        result := some result }
    else if f.IsDone "GetSaveFileName".toList then
      let result := if f.HasResult then f.GetResult else result
      { calls := [Call.ImGui_NewFrame, opened, Call.IsDone "GetSaveFileName".toList, Call.Close],
        result := some result }
    else if quit then
      { calls := [Call.ImGui_NewFrame, opened, Call.ImGui_Render], result := some result }
    else
      { calls := [Call.ImGui_NewFrame, opened, Call.ImGui_Render]
          ++ (render_loop p fs filterNew fname type frames dir result).calls,
        result := (render_loop p fs filterNew fname type frames dir result).result }

/-- Source: `file_dialog_helper`, src/DlgModule/MacOSX/filedialogs.cpp lines
206-487.  The set-up that decides no branch (window icon, placement relative
to the parent window, fonts, theme, texture callbacks) is taken to return. -/
def file_dialog_helper (p : Platform) (su : Setup) (fs : FileSystem) (frames : List Frame)
    (filter fname dir title : Str) (type : DialogType) : Outcome :=
  if su.SDL_Init ≠ 0 then
    { calls := [Call.SDL_Init], result := some [] }
  else if su.SDL_CreateWindow = false then
    { calls := [Call.SDL_Init, Call.SDL_CreateWindow title], result := some [] }
  else if p = .apple ∧ su.SDL_CreateRenderer = false then
    { calls := [Call.SDL_Init, Call.SDL_CreateWindow title, Call.SDL_CreateRenderer],
      result := some [] }
  else if su.SDL_GetWindowWMInfo = false then
    { calls := [Call.SDL_Init, Call.SDL_CreateWindow title]
        ++ (if p = .apple then [Call.SDL_CreateRenderer] else [])
        ++ [Call.SDL_GetWindowWMInfo],
      result := some [] }
  else
    let before :=
      [Call.SDL_Init, Call.SDL_CreateWindow title]
        ++ (if p = .apple then [Call.SDL_CreateRenderer] else [])
        ++ [Call.SDL_GetWindowWMInfo]
        ++ (if p = .apple then [] else [Call.SDL_GL_CreateContext])
        ++ [Call.ImGui_CreateContext]
    let filterNew := imgui_filter filter (type = .selectFolder)
    let o := render_loop p fs filterNew fname type frames dir []
    match o.result with
    | none => { calls := before ++ o.calls, result := none }
    | some result =>
      { calls := before ++ o.calls ++ [Call.ImGui_DestroyContext]
          ++ (if p = .apple then [] else [Call.SDL_GL_DeleteContext])
          ++ [Call.SDL_DestroyWindow, Call.SDL_Quit],
        result := some result }

end MacOSX

namespace filedialogs

/-! ### Path and environment helpers of src/filedialogs.cpp -/

/-- The loop of `filename_remove_slash` (lines 219-227), on the characters of
`dname` from the last to the first.  `back()` of an empty string is undefined
behaviour in C++: the answer is `none` when the loop gets there. -/
def filename_remove_slash.loop (p : Platform) : Str → Option Str
  | [] => none
  | c :: cs =>
    if c = '/' ∨ (p = .win32 ∧ c = '\\') then filename_remove_slash.loop p cs
    else some (c :: cs).reverse

/-- Source: `filename_remove_slash`, lines 217-229.  `none`: the call evaluates
`back()` on an empty string. -/
def filename_remove_slash (p : Platform) (fs : FileSystem) (dname : Str) (canonical : Bool) :
    Option Str :=
  let dname := if canonical then fs.filename_canonical dname else dname
  filename_remove_slash.loop p dname.reverse

/-- Source: `filename_add_slash`, lines 231-239.  `none`: the call evaluates
`back()` on an empty string, in `filename_remove_slash` or in its own test. -/
def filename_add_slash (p : Platform) (fs : FileSystem) (dname : Str) (canonical : Bool) :
    Option Str :=
  match filename_remove_slash p fs dname canonical with
  | none => none
  | some dname =>
    match dname.getLast? with
    | none => none
    | some c => if c ≠ CHR_SLASH p then some (dname ++ STR_SLASH p) else some dname

/-- Position of the first occurrence of `substr` in `str`: the value of
`str.find(substr)`, `none` for `npos`. -/
def find (str substr : Str) : Option Nat :=
  if substr <+: str then some 0
  else
    match str with
    | [] => none
    | _ :: cs => (find cs substr).map (fun i => i + 1)

/-- The process environment as `getenv` shows it: what it answers for the C
string it is given, `none` for a null pointer. -/
abbrev Env := Str → Option Str

/-- Source: `environment_get_variable`, lines 182-195: the value of the
variable, the empty string when it is not set. -/
def environment_get_variable (env : Env) (name : Str) : Str :=
  match env (c_str name) with
  | some value => value
  | none => []

/-- Source: `environment_expand_variables`, lines 291-300.  The first argument
bounds the depth of the recursion; `none` when the bound is reached before the
function returns. -/
def environment_expand_variables (env : Env) : Nat → Str → Option Str
  | 0, _ => none
  | fuel + 1, str =>
    match find str ['$', '{'] with
    | none => some str
    | some i =>
      let pre := str.take i
      let post := str.drop (i + 2)
      match find post ['}'] with
      | none => some str
      | some j =>
        let variable_ := post.take j
        let post := post.drop (j + 1)
        let value := environment_get_variable env variable_
        environment_expand_variables env fuel (pre ++ value ++ post)

/-! ### The words of the claims about `imgui_filter` -/

/-- Claim side: the characters `imgui_filter` removes from its input first. -/
def stripped_chars : List Char := ['\r', '\n', '{', '}', ',']

/-- Claim side: the input `D1|P1|...|Dn|Pn` for the pairs `(Di, Pi)`. -/
def claimed_input (pairs : List (Str × Str)) : Str :=
  List.intercalate ['|'] (pairs.flatMap (fun dp => [dp.1, dp.2]))

/-- Claim side: every left-to-right non-overlapping occurrence of `*.` replaced
by `.`. -/
def claimed_star_dot : Str → Str
  | [] => []
  | [c] => [c]
  | c :: d :: rest =>
    if c = '*' ∧ d = '.' then '.' :: claimed_star_dot rest
    else c :: claimed_star_dot (d :: rest)

/-- Claim side: `Pi'`, that is `Pi` with every `;` replaced by `,` and then
every `*.` by `.`. -/
def claimed_pattern (pattern : Str) : Str :=
  claimed_star_dot (pattern.map (fun c => if c = ';' then ',' else c))

/-- Claim side: the output `D1{P1'},D2{P2'},...,Dn{Pn'}`, without a trailing
comma. -/
def claimed_output (pairs : List (Str × Str)) : Str :=
  List.intercalate [',']
    (pairs.map (fun dp => dp.1 ++ ['{'] ++ claimed_pattern dp.2 ++ ['}']))

end filedialogs

namespace filedialogs

/-! ### File-name helpers of src/filedialogs.cpp -/

/-- Position of the last character of `str` that is one of `chars`: the value
of `str.find_last_of(chars)`, `none` for `npos`. -/
def find_last_of (str : Str) (chars : List Char) : Option Nat :=
  match str with
  | [] => none
  | c :: cs =>
    match find_last_of cs chars with
    | some i => some (i + 1)
    | none => if c ∈ chars then some 0 else none

/-- The separators `find_last_of` looks for in `filename_path` and
`filename_name`: slash, and on Windows also backslash. -/
def separators (p : Platform) : List Char :=
  if p = .win32 then ['\\', '/'] else ['/']

/-- Source: `filename_path`, lines 141-149. -/
def filename_path (p : Platform) (fname : Str) : Str :=
  match find_last_of fname (separators p) with
  | none => fname
  | some fp => fname.take (fp + 1)

/-- Source: `filename_name`, lines 151-159. -/
def filename_name (p : Platform) (fname : Str) : Str :=
  match find_last_of fname (separators p) with
  | none => fname
  | some fp => fname.drop (fp + 1)

/-- Claim side: the input after removal of the five characters. -/
def claimed_stripped (input : Str) : Str :=
  input.filter (fun c => decide (c ∉ stripped_chars))

end filedialogs

namespace MacOSX

open filedialogs (Str Platform DialogType Setup Call Outcome)

/-! ### The entry points of the MacOSX file (lines 512-542)

`home` is the value of `ngs::fs::environment_get_variable(HOME_PATH)`, a
function of the `ngs::fs` library, which is not part of this file. -/

/-- Source: `ngs::imgui::get_open_filename`, lines 512-514. -/
def get_open_filename (p : Platform) (su : Setup) (fs : FileSystem) (frames : List Frame)
    (home filter fname : Str) : Outcome :=
  file_dialog_helper p su fs frames (if filter = [] then "*.*".toList else filter) fname home
    "Open".toList .openFile

/-- Source: `ngs::imgui::get_open_filename_ext`, lines 516-518. -/
def get_open_filename_ext (p : Platform) (su : Setup) (fs : FileSystem) (frames : List Frame)
    (home filter fname dir title : Str) : Outcome :=
  file_dialog_helper p su fs frames (if filter = [] then "*.*".toList else filter) fname
    (if dir = [] then home else dir) title .openFile

/-- Source: `ngs::imgui::get_open_filenames`, lines 520-522. -/
def get_open_filenames (p : Platform) (su : Setup) (fs : FileSystem) (frames : List Frame)
    (home filter fname : Str) : Outcome :=
  file_dialog_helper p su fs frames (if filter = [] then "*.*".toList else filter) fname home
    "Open".toList .openFiles

/-- Source: `ngs::imgui::get_open_filenames_ext`, lines 524-526. -/
def get_open_filenames_ext (p : Platform) (su : Setup) (fs : FileSystem) (frames : List Frame)
    (home filter fname dir title : Str) : Outcome :=
  file_dialog_helper p su fs frames (if filter = [] then "*.*".toList else filter) fname
    (if dir = [] then home else dir) title .openFiles

/-- Source: `ngs::imgui::get_save_filename`, lines 528-530. -/
def get_save_filename (p : Platform) (su : Setup) (fs : FileSystem) (frames : List Frame)
    (home filter fname : Str) : Outcome :=
  file_dialog_helper p su fs frames (if filter = [] then "*.*".toList else filter) fname home
    "Save As".toList .saveFile

/-- Source: `ngs::imgui::get_save_filename_ext`, lines 532-534. -/
def get_save_filename_ext (p : Platform) (su : Setup) (fs : FileSystem) (frames : List Frame)
    (home filter fname dir title : Str) : Outcome :=
  file_dialog_helper p su fs frames (if filter = [] then "*.*".toList else filter) fname
    (if dir = [] then home else dir) title .saveFile

/-- Source: `ngs::imgui::get_directory`, lines 536-538. -/
def get_directory (p : Platform) (su : Setup) (fs : FileSystem) (frames : List Frame)
    (home dname : Str) : Outcome :=
  file_dialog_helper p su fs frames [] [] (if dname = [] then home else dname)
    "Select Directory".toList .selectFolder

/-- Source: `ngs::imgui::get_directory_alt`, lines 540-542. -/
def get_directory_alt (p : Platform) (su : Setup) (fs : FileSystem) (frames : List Frame)
    (home capt root : Str) : Outcome :=
  file_dialog_helper p su fs frames [] [] (if root = [] then home else root) capt .selectFolder

end MacOSX

/-! ## Theorems -/

namespace dlgmodule

/-! ### Shared lemmas -/

theorem run_of_open (c : AsyncCall) (s : State) (h : s.enable_dialog_creation = true) :
    (c.run s).2.enable_dialog_creation = false ∧
    (c.run s).1 = Dbl.ofUnsigned s.dialog_identifier ∧
    (c.run s).2.dialog_identifier = (s.dialog_identifier + 1) % 4294967296 ∧
    ∃ w, (c.run s).2.threads = s.threads ++ [w] ∧ w.id = s.dialog_identifier := by
  cases c <;>
    simp [AsyncCall.run, show_message_async, show_message_cancelable_async, show_question_async,
      show_question_cancelable_async, show_attempt_async, show_error_async, get_string_async,
      get_password_async, get_integer_async, get_passcode_async, get_open_filename_async,
      get_open_filename_ext_async, get_open_filenames_async, get_open_filenames_ext_async,
      get_save_filename_async, get_save_filename_ext_async, get_directory_async,
      get_directory_alt_async, get_color_async, get_color_ext_async, h, Thread.id]

theorem run_of_closed (c : AsyncCall) (s : State) (h : s.enable_dialog_creation = false) :
    (c.run s).1 = Dbl.ofUnsigned ((s.dialog_identifier + 4294967295) % 4294967296) ∧
    (c.run s).2 = s := by
  cases c <;>
    simp [AsyncCall.run, show_message_async, show_message_cancelable_async, show_question_async,
      show_question_cancelable_async, show_attempt_async, show_error_async, get_string_async,
      get_password_async, get_integer_async, get_passcode_async, get_open_filename_async,
      get_open_filename_ext_async, get_open_filenames_async, get_open_filenames_ext_async,
      get_save_filename_async, get_save_filename_ext_async, get_directory_async,
      get_directory_alt_async, get_color_async, get_color_ext_async, h]

theorem modify_length_append {α : Type} (f : α → α) (xs : List α) (a : α) :
    (xs ++ [a]).modify f xs.length = xs ++ [f a] := by
  induction xs with
  | nil => rfl
  | cons x xs ih =>
    show x :: (xs ++ [a]).modify f xs.length = x :: (xs ++ [f a])
    rw [ih]

theorem getD_length_append {α : Type} (xs : List α) (a d : α) :
    (xs ++ [a]).getD xs.length d = a := by
  induction xs with
  | nil => rfl
  | cons x xs ih => simp

theorem complete_fields (w : Thread) (r : DialogResult) (s : State) :
    (w.complete r s).enable_dialog_creation = true ∧
    (w.complete r s).dialog_identifier = s.dialog_identifier ∧
    (w.complete r s).threads = s.threads ∧
    (w.complete r s).arg1 = s.arg1 ∧ (w.complete r s).arg2 = s.arg2 ∧
    (w.complete r s).arg3 = s.arg3 ∧ (w.complete r s).arg4 = s.arg4 := by
  cases w <;>
    simp [Thread.complete, Thread.body, exec, show_message_threaded,
      show_message_cancelable_threaded, show_question_threaded,
      show_question_cancelable_threaded, show_attempt_threaded, show_error_threaded,
      get_string_threaded, get_password_threaded, get_integer_threaded, get_passcode_threaded,
      get_open_filename_threaded, get_open_filename_ext_threaded, get_open_filenames_threaded,
      get_open_filenames_ext_threaded, get_save_filename_threaded,
      get_save_filename_ext_threaded, get_directory_threaded, get_directory_alt_threaded,
      get_color_threaded, get_color_ext_threaded, stmtCreateDsMap, stmtDsMapAddDouble,
      stmtDsMapAddString, stmtCreateAsynEventWithDSMap, stmtEnableDialogCreation]

theorem inv_initial : Inv State.initial := by
  refine ⟨by decide, Or.inl ⟨rfl, rfl⟩⟩

theorem inv_call (c : AsyncCall) (s : State) (h : Inv s) : Inv (c.run s).2 := by
  obtain ⟨hd, hg⟩ := h
  rcases hg with ⟨hopen, hth⟩ | ⟨hclosed, w, hth, hid⟩
  · obtain ⟨h1, _, h3, w, h4, h5⟩ := run_of_open c s hopen
    refine ⟨by rw [h3]; omega, Or.inr ⟨h1, w, ?_, ?_⟩⟩
    · rw [h4, hth]; rfl
    · rw [h5, h3]; omega
  · obtain ⟨_, h2⟩ := run_of_closed c s hclosed
    rw [h2]
    exact ⟨hd, Or.inr ⟨hclosed, w, hth, hid⟩⟩

theorem inv_finish (i : Nat) (r : DialogResult) (s : State) (h : Inv s) :
    Inv ((Event.finish i r).apply s) := by
  obtain ⟨hd, hg⟩ := h
  rcases hg with ⟨hopen, hth⟩ | ⟨hclosed, w, hth, hid⟩
  · simp [Event.apply, hth]
    exact ⟨hd, Or.inl ⟨hopen, hth⟩⟩
  · cases i with
    | zero =>
      obtain ⟨h1, h2, h3, _⟩ := complete_fields w r s
      simp [Event.apply, hth]
      refine ⟨by rw [h2]; exact hd, Or.inl ⟨h1, ?_⟩⟩
      rw [h3, hth]; rfl
    | succ n =>
      simp [Event.apply, hth]
      exact ⟨hd, Or.inr ⟨hclosed, w, hth, hid⟩⟩

theorem inv_apply (e : Event) (s : State) (h : Inv s) : Inv (e.apply s) := by
  cases e with
  | call c => exact inv_call c s h
  | finish i r => exact inv_finish i r s h

theorem inv_run (es : List Event) (s : State) (h : Inv s) : Inv (run es s) := by
  induction es generalizing s with
  | nil => exact h
  | cons e es ih => exact ih (e.apply s) (inv_apply e s h)

theorem acceptedReturns_spec (es : List Event) (s : State)
    (hd : s.dialog_identifier < 4294967296) :
    (∀ k, k < (acceptedReturns es s).length →
      (acceptedReturns es s)[k]? =
        some (Dbl.ofUnsigned ((s.dialog_identifier + k) % 4294967296))) ∧
    (run es s).dialog_identifier =
      (s.dialog_identifier + (acceptedReturns es s).length) % 4294967296 := by
  induction es generalizing s with
  | nil => simp [acceptedReturns, run]; omega
  | cons e es ih =>
    cases e with
    | call c =>
      cases hg : s.enable_dialog_creation with
      | true =>
        obtain ⟨_, h2, h3, _⟩ := run_of_open c s hg
        have hd2 : (c.run s).2.dialog_identifier < 4294967296 := by rw [h3]; omega
        obtain ⟨ih1, ih2⟩ := ih (c.run s).2 hd2
        constructor
        · intro k hk
          cases k with
          | zero =>
            simp [acceptedReturns, hg, h2]
            congr 1; omega
          | succ n =>
            simp [acceptedReturns, hg] at hk ⊢
            rw [ih1 n hk, h3]
            congr 2; omega
        · show (run es (c.run s).2).dialog_identifier = _
          rw [ih2, h3]
          simp [acceptedReturns, hg]
          omega
      | false =>
        obtain ⟨_, h2⟩ := run_of_closed c s hg
        obtain ⟨ih1, ih2⟩ := ih (c.run s).2 (by rw [h2]; exact hd)
        rw [h2] at ih1 ih2
        constructor
        · intro k hk
          simp [acceptedReturns, hg, h2] at hk ⊢
          exact ih1 k hk
        · show (run es (c.run s).2).dialog_identifier = _
          rw [h2, ih2]
          simp [acceptedReturns, hg, h2]
    | finish i r =>
      have hd2 : ((Event.finish i r).apply s).dialog_identifier = s.dialog_identifier := by
        simp only [Event.apply]
        split
        · exact (complete_fields _ r s).2.1
        · rfl
      obtain ⟨ih1, ih2⟩ := ih ((Event.finish i r).apply s) (by rw [hd2]; exact hd)
      rw [hd2] at ih1 ih2
      exact ⟨fun k hk => ih1 k hk, ih2⟩

theorem delivered_eq (w : Thread) (r : DialogResult) (s : State) :
    w.delivered r s = (w.complete r s).host.maps.getD s.host.maps.length [] ∧
    (w.complete r s).host.events = s.host.events ++ [(s.host.maps.length, 63)] := by
  cases w <;>
    simp [Thread.delivered, Thread.complete, Thread.body, exec, show_message_threaded,
      show_message_cancelable_threaded, show_question_threaded,
      show_question_cancelable_threaded, show_attempt_threaded, show_error_threaded,
      get_string_threaded, get_password_threaded, get_integer_threaded, get_passcode_threaded,
      get_open_filename_threaded, get_open_filename_ext_threaded, get_open_filenames_threaded,
      get_open_filenames_ext_threaded, get_save_filename_threaded,
      get_save_filename_ext_threaded, get_directory_threaded, get_directory_alt_threaded,
      get_color_threaded, get_color_ext_threaded, stmtCreateDsMap, stmtDsMapAddDouble,
      stmtDsMapAddString, stmtCreateAsynEventWithDSMap, stmtEnableDialogCreation,
      Host.CreateDsMap, Host.DsMapAddDouble, Host.DsMapAddString, Host.CreateAsynEventWithDSMap,
      modify_length_append, getD_length_append]

/-! ### Claims about the asynchronous wrappers -/

/-- C1: for every asynchronous entry point, a call made while the gate
`enable_dialog_creation` is true closes the gate, returns the value
`dialog_identifier` held before the call, increments `dialog_identifier` by one
modulo 2^32, and starts exactly one worker (the started threads grow by one
thread), which carries the returned identifier. -/
theorem async_call_accepted (c : AsyncCall) (s : State)
    (h : s.enable_dialog_creation = true) :
    (c.run s).2.enable_dialog_creation = false ∧
    (c.run s).1 = Dbl.ofUnsigned s.dialog_identifier ∧
    (c.run s).2.dialog_identifier = (s.dialog_identifier + 1) % 4294967296 ∧
    ∃ w, (c.run s).2.threads = s.threads ++ [w] ∧ w.id = s.dialog_identifier ∧
      Dbl.ofUnsigned w.id = (c.run s).1 := by
  obtain ⟨h1, h2, h3, w, h4, h5⟩ := run_of_open c s h
  exact ⟨h1, h2, h3, w, h4, h5, by rw [h5, h2]⟩

/-- Witness of C1: `get_open_filename_ext_async` called in the initial state
returns 100, leaves the counter at 101 and the gate closed, and starts the
worker with `id` 100. -/
theorem async_call_accepted_witness :
    State.initial.enable_dialog_creation = true ∧
    ((AsyncCall.get_open_filename_ext_async "*.txt" "a.txt" "/tmp" "Open").run
        State.initial).2.enable_dialog_creation = false ∧
    ((AsyncCall.get_open_filename_ext_async "*.txt" "a.txt" "/tmp" "Open").run
        State.initial).1 = Dbl.ofUnsigned 100 ∧
    ((AsyncCall.get_open_filename_ext_async "*.txt" "a.txt" "/tmp" "Open").run
        State.initial).2.dialog_identifier = 101 :=
  ⟨rfl,
   (async_call_accepted (.get_open_filename_ext_async "*.txt" "a.txt" "/tmp" "Open")
      State.initial rfl).1,
   (async_call_accepted (.get_open_filename_ext_async "*.txt" "a.txt" "/tmp" "Open")
      State.initial rfl).2.1,
   (async_call_accepted (.get_open_filename_ext_async "*.txt" "a.txt" "/tmp" "Open")
      State.initial rfl).2.2.1⟩

/-- C2: for every asynchronous entry point, a call made while the gate is false
returns `dialog_identifier - 1` (computed in `unsigned` arithmetic), starts no
worker, and leaves the gate, `dialog_identifier` and the staging strings
`arg1..arg4` unchanged (indeed the whole state). -/
theorem async_call_busy (c : AsyncCall) (s : State)
    (h : s.enable_dialog_creation = false) :
    (c.run s).1 = Dbl.ofUnsigned ((s.dialog_identifier + 4294967295) % 4294967296) ∧
    (c.run s).2.threads = s.threads ∧
    (c.run s).2.enable_dialog_creation = s.enable_dialog_creation ∧
    (c.run s).2.dialog_identifier = s.dialog_identifier ∧
    (c.run s).2.arg1 = s.arg1 ∧ (c.run s).2.arg2 = s.arg2 ∧
    (c.run s).2.arg3 = s.arg3 ∧ (c.run s).2.arg4 = s.arg4 ∧
    (c.run s).2 = s := by
  obtain ⟨h1, h2⟩ := run_of_closed c s h
  refine ⟨h1, ?_, ?_, ?_, ?_, ?_, ?_, ?_, h2⟩ <;> rw [h2]

/-- Witness of C2: after `show_message_async` was accepted in the initial state,
`get_string_async` returns 100 and changes nothing. -/
theorem async_call_busy_witness :
    ((AsyncCall.show_message_async "Hello").run State.initial).2.enable_dialog_creation = false ∧
    ((AsyncCall.get_string_async "Name?" "none").run
        ((AsyncCall.show_message_async "Hello").run State.initial).2).1 = Dbl.ofUnsigned 100 ∧
    ((AsyncCall.get_string_async "Name?" "none").run
        ((AsyncCall.show_message_async "Hello").run State.initial).2).2.arg1 = "Hello" :=
  ⟨rfl,
   (async_call_busy (.get_string_async "Name?" "none")
      ((AsyncCall.show_message_async "Hello").run State.initial).2 rfl).1,
   (async_call_busy (.get_string_async "Name?" "none")
      ((AsyncCall.show_message_async "Hello").run State.initial).2 rfl).2.2.2.2.1⟩

/-- C3: in every state reached from the initial state by a sequence of atomic
steps (asynchronous calls and worker completions), at most one worker is in
flight, and the gate is closed if and only if exactly one worker is in
flight. -/
theorem at_most_one_worker_in_flight (es : List Event) :
    (run es State.initial).threads.length ≤ 1 ∧
    ((run es State.initial).enable_dialog_creation = false ↔
      (run es State.initial).threads.length = 1) := by
  obtain ⟨_, hg⟩ := inv_run es State.initial inv_initial
  rcases hg with ⟨hopen, hth⟩ | ⟨hclosed, w, hth, _⟩
  · simp [hopen, hth]
  · simp [hclosed, hth]

/-- C4: in every reachable state in which the gate is closed there is exactly
one worker in flight, and what any asynchronous call returns there (the busy
value `dialog_identifier - 1`) is the identifier that worker carries. -/
theorem busy_return_is_in_flight_id (es : List Event) (c : AsyncCall)
    (h : (run es State.initial).enable_dialog_creation = false) :
    ∃ w, (run es State.initial).threads = [w] ∧
      (c.run (run es State.initial)).1 = Dbl.ofUnsigned w.id ∧
      Dbl.ofUnsigned ((((run es State.initial).dialog_identifier) + 4294967295) % 4294967296)
        = Dbl.ofUnsigned w.id := by
  obtain ⟨_, hg⟩ := inv_run es State.initial inv_initial
  rcases hg with ⟨hopen, _⟩ | ⟨hclosed, w, hth, hid⟩
  · rw [hopen] at h; cases h
  · exact ⟨w, hth, by rw [(run_of_closed c _ hclosed).1, hid], by rw [hid]⟩

/-- Witness of C4: after an accepted `get_directory_async`, a finished worker
and an accepted `get_color_async`, the busy value returned to
`show_question_async` is 101, the identifier of the colour worker. -/
theorem busy_return_is_in_flight_id_witness :
    (run [Event.call (.get_directory_async "/tmp"), Event.finish 0 ⟨.nan, "/tmp/x/"⟩,
          Event.call (.get_color_async (.fin 255))] State.initial).enable_dialog_creation = false ∧
    ∃ w, (run [Event.call (.get_directory_async "/tmp"), Event.finish 0 ⟨.nan, "/tmp/x/"⟩,
          Event.call (.get_color_async (.fin 255))] State.initial).threads = [w] ∧
      ((AsyncCall.show_question_async "Sure?").run
        (run [Event.call (.get_directory_async "/tmp"), Event.finish 0 ⟨.nan, "/tmp/x/"⟩,
          Event.call (.get_color_async (.fin 255))] State.initial)).1 = Dbl.ofUnsigned w.id ∧
      Dbl.ofUnsigned 101 = Dbl.ofUnsigned w.id :=
  ⟨by decide,
   busy_return_is_in_flight_id
     [Event.call (.get_directory_async "/tmp"), Event.finish 0 ⟨.nan, "/tmp/x/"⟩,
      Event.call (.get_color_async (.fin 255))] (.show_question_async "Sure?") (by decide)⟩

/-- C5: every worker, from whatever state it starts, dispatches exactly one
event, of type 63, for the map it created, and ends with the gate open; at
every point of its run either nothing has been dispatched yet and the gate is
as it was at the start, or the one event has been dispatched and its map holds
`id` = the identifier the worker was started with.  So the gate is not
reopened before the dispatch. -/
theorem worker_dispatches_before_reopening (w : Thread) (r : DialogResult) (s : State) :
    (w.complete r s).host.events = s.host.events ++ [(s.host.maps.length, 63)] ∧
    (w.complete r s).enable_dialog_creation = true ∧
    (trace (w.body r) { resultMap := 0, g := s }).getLast? =
      some (exec (w.body r) { resultMap := 0, g := s }) ∧
    (∀ l ∈ trace (w.body r) { resultMap := 0, g := s },
      (l.g.host.events = s.host.events ∧
        l.g.enable_dialog_creation = s.enable_dialog_creation) ∨
      (l.g.host.events = s.host.events ++ [(s.host.maps.length, 63)] ∧
        ("id", MapVal.dbl (Dbl.ofUnsigned w.id)) ∈
          l.g.host.maps.getD s.host.maps.length [])) := by
  cases w <;>
    simp [Thread.complete, Thread.body, exec, trace, Thread.id, show_message_threaded,
      show_message_cancelable_threaded, show_question_threaded,
      show_question_cancelable_threaded, show_attempt_threaded, show_error_threaded,
      get_string_threaded, get_password_threaded, get_integer_threaded, get_passcode_threaded,
      get_open_filename_threaded, get_open_filename_ext_threaded, get_open_filenames_threaded,
      get_open_filenames_ext_threaded, get_save_filename_threaded,
      get_save_filename_ext_threaded, get_directory_threaded, get_directory_alt_threaded,
      get_color_threaded, get_color_ext_threaded, stmtCreateDsMap, stmtDsMapAddDouble,
      stmtDsMapAddString, stmtCreateAsynEventWithDSMap, stmtEnableDialogCreation,
      Host.CreateDsMap, Host.DsMapAddDouble, Host.DsMapAddString, Host.CreateAsynEventWithDSMap,
      modify_length_append, getD_length_append]

/-- C6: from the initial state, whatever the sequence of atomic steps, the k-th
accepted call (k from 0, k < 2^32 - 100) returns 100 + k; and the counter has
advanced by the number of accepted calls only, so busy calls consume no
identifier. -/
theorem accepted_call_returns_next_id (es : List Event) (k : Nat)
    (hk : k < (acceptedReturns es State.initial).length) (hb : k < 4294967296 - 100) :
    (acceptedReturns es State.initial)[k]? = some (Dbl.ofUnsigned (100 + k)) ∧
    (run es State.initial).dialog_identifier =
      (100 + (acceptedReturns es State.initial).length) % 4294967296 := by
  obtain ⟨h1, h2⟩ := acceptedReturns_spec es State.initial (by decide)
  refine ⟨?_, h2⟩
  rw [h1 k hk]
  have : (State.initial.dialog_identifier + k) % 4294967296 = 100 + k := by
    show (100 + k) % 4294967296 = 100 + k
    omega
  rw [this]

/-- Witness of C6: one accepted call, two busy calls, the worker finishing, and
a second accepted call; the second accepted call (k = 1) returns 101. -/
theorem accepted_call_returns_next_id_witness :
    (acceptedReturns
      [Event.call (.show_message_async "a"), Event.call (.get_integer_async "b" (.fin 3)),
       Event.call (.get_directory_async "c"), Event.finish 0 ⟨.fin 1, ""⟩,
       Event.call (.get_save_filename_async "*.txt" "d")] State.initial)[1]?
      = some (Dbl.ofUnsigned (100 + 1)) ∧
    (run
      [Event.call (.show_message_async "a"), Event.call (.get_integer_async "b" (.fin 3)),
       Event.call (.get_directory_async "c"), Event.finish 0 ⟨.fin 1, ""⟩,
       Event.call (.get_save_filename_async "*.txt" "d")] State.initial).dialog_identifier
      = (100 + (acceptedReturns
      [Event.call (.show_message_async "a"), Event.call (.get_integer_async "b" (.fin 3)),
       Event.call (.get_directory_async "c"), Event.finish 0 ⟨.fin 1, ""⟩,
       Event.call (.get_save_filename_async "*.txt" "d")] State.initial).length) % 4294967296 :=
  accepted_call_returns_next_id
    [Event.call (.show_message_async "a"), Event.call (.get_integer_async "b" (.fin 3)),
     Event.call (.get_directory_async "c"), Event.finish 0 ⟨.fin 1, ""⟩,
     Event.call (.get_save_filename_async "*.txt" "d")] 1 (by decide) (by decide)

/-- C7, as stated, fails: the map delivered by `show_message_threaded` holds
`id` and `status` only; it has neither a `result` nor a `value` entry. -/
theorem message_box_map_has_no_payload :
    Thread.delivered (.show_message_threaded "Hello" 100) ⟨.fin 1, ""⟩ State.initial =
      [("id", MapVal.dbl (.fin 100)), ("status", MapVal.dbl (.fin 1))] ∧
    ¬ ((∃ v, ("result", MapVal.str v) ∈
          Thread.delivered (.show_message_threaded "Hello" 100) ⟨.fin 1, ""⟩ State.initial) ∨
       (∃ v, ("value", MapVal.dbl v) ∈
          Thread.delivered (.show_message_threaded "Hello" 100) ⟨.fin 1, ""⟩ State.initial)) := by
  have h : Thread.delivered (.show_message_threaded "Hello" 100) ⟨.fin 1, ""⟩ State.initial =
      [("id", MapVal.dbl (.fin 100)), ("status", MapVal.dbl (.fin 1))] := by decide
  refine ⟨h, ?_⟩
  rw [h]
  simp

/-- C7 (amended): the map every worker delivers starts with `id` (the worker's
identifier) and `status`, both numbers.  For the string-returning dialogs the
third and last entry is `result`, the string the dialog returned; for
`get_integer`, `get_passcode`, `get_color` and `get_color_ext` it is `value`, a
number; for the six message-box dialogs there is no third entry, and `status`
is the number the dialog returned. -/
theorem delivered_map_contents (w : Thread) (r : DialogResult) (s : State) :
    keys (w.delivered r s) =
      (if w.isMessageBox then ["id", "status"]
       else if w.returnsString then ["id", "status", "result"]
       else ["id", "status", "value"]) ∧
    (w.delivered r s).head? = some ("id", MapVal.dbl (Dbl.ofUnsigned w.id)) ∧
    (∃ v, (w.delivered r s).get? 1 = some ("status", MapVal.dbl v)) ∧
    (w.returnsString = true → (w.delivered r s).get? 2 = some ("result", MapVal.str r.text)) ∧
    (w.isMessageBox = false → w.returnsString = false →
      ∃ v, (w.delivered r s).get? 2 = some ("value", MapVal.dbl v)) ∧
    (w.isMessageBox = true → (w.delivered r s).get? 1 = some ("status", MapVal.dbl r.num)) := by
  rw [(delivered_eq w r s).1]
  cases w <;>
    simp [keys, Thread.complete, Thread.body, exec, Thread.id, Thread.isMessageBox,
      Thread.returnsString, show_message_threaded,
      show_message_cancelable_threaded, show_question_threaded,
      show_question_cancelable_threaded, show_attempt_threaded, show_error_threaded,
      get_string_threaded, get_password_threaded, get_integer_threaded, get_passcode_threaded,
      get_open_filename_threaded, get_open_filename_ext_threaded, get_open_filenames_threaded,
      get_open_filenames_ext_threaded, get_save_filename_threaded,
      get_save_filename_ext_threaded, get_directory_threaded, get_directory_alt_threaded,
      get_color_threaded, get_color_ext_threaded, stmtCreateDsMap, stmtDsMapAddDouble,
      stmtDsMapAddString, stmtCreateAsynEventWithDSMap, stmtEnableDialogCreation,
      Host.CreateDsMap, Host.DsMapAddDouble, Host.DsMapAddString, Host.CreateAsynEventWithDSMap,
      modify_length_append, getD_length_append]

end dlgmodule

namespace filedialogs

/-! ### Claims about `file_dialog_helper` -/

theorem render_loop_unconfirmed (p : Platform) (fs : FileSystem) (filterNew fname : Str)
    (type : DialogType) (frames : List Frame) (dir : Str)
    (h1 : ∀ f ∈ frames, f.Display = true → f.IsOk = false)
    (h2 : ∃ f ∈ frames, f.Display = true ∨ true ∈ f.events) :
    (render_loop p fs filterNew fname type frames dir []).result = some [] := by
  induction frames generalizing dir with
  | nil => simp at h2
  | cons f frames ih =>
    have hf := h1 f (List.mem_cons_self _ _)
    cases hD : f.Display with
    | true =>
      simp [render_loop, hD, hf hD]
    | false =>
      by_cases hq : true ∈ f.events
      · have : f.events.any (fun isQuit => isQuit) = true := by
          simp only [List.any_eq_true]; exact ⟨true, hq, rfl⟩
        simp [render_loop, hD, this]
      · have hany : f.events.any (fun isQuit => isQuit) = false := by
          rw [Bool.eq_false_iff]
          intro h
          simp only [List.any_eq_true] at h
          obtain ⟨b, hb, hb2⟩ := h
          subst hb2
          exact hq hb
        have h2t : ∃ g ∈ frames, g.Display = true ∨ true ∈ g.events := by
          obtain ⟨g, hg, hg2⟩ := h2
          rcases List.mem_cons.mp hg with rfl | hg
          · rcases hg2 with h | h
            · rw [hD] at h; cases h
            · exact absurd h hq
          · exact ⟨g, hg, hg2⟩
        have := fun d => ih d (fun g hg => h1 g (List.mem_cons_of_mem _ hg)) h2t
        simp [render_loop, hD, hany, this]

theorem helper_unconfirmed (p : Platform) (su : Setup) (fs : FileSystem) (frames : List Frame)
    (filter fname dir title : Str) (type : DialogType)
    (h1 : ∀ f ∈ frames, f.Display = true → f.IsOk = false)
    (h2 : ∃ f ∈ frames, f.Display = true ∨ true ∈ f.events) :
    (file_dialog_helper p su fs frames filter fname dir title type).result = some [] := by
  have h := render_loop_unconfirmed p fs (imgui_filter filter) fname type frames dir h1 h2
  unfold file_dialog_helper
  split
  · rfl
  · split
    · rfl
    · split
      · rfl
      · simp only [h]

end filedialogs

namespace MacOSX

open filedialogs (Str Platform DialogType Setup Call Outcome)

theorem render_loop_unconfirmed_mac (p : Platform) (fs : FileSystem) (filterNew fname : Str)
    (type : DialogType) (frames : List Frame) (dir : Str)
    (h1 : ∀ f ∈ frames, f.finished = true → f.HasResult = false)
    (h2 : ∃ f ∈ frames, f.finished = true ∨ true ∈ f.events) :
    (render_loop p fs filterNew fname type frames dir []).result = some [] := by
  induction frames generalizing dir with
  | nil => simp at h2
  | cons f frames ih =>
    have hf := h1 f (List.mem_cons_self _ _)
    cases hD : f.finished with
    | true =>
      have hr := hf hD
      simp only [Frame.finished, Bool.or_eq_true] at hD
      unfold render_loop
      simp only [hr]
      split
      · rfl
      · split
        · rfl
        · split
          · rfl
          · split
            · rfl
            · rename_i a b c d
              rcases hD with ((h | h) | h) | h
              · exact absurd h a
              · exact absurd h b
              · exact absurd h c
              · exact absurd h d
    | false =>
      have hD2 := hD
      simp only [Frame.finished, Bool.or_eq_false_iff] at hD2
      obtain ⟨⟨⟨k1, k2⟩, k3⟩, k4⟩ := hD2
      by_cases hq : true ∈ f.events
      · have : f.events.any (fun isQuit => isQuit) = true := by
          simp only [List.any_eq_true]; exact ⟨true, hq, rfl⟩
        unfold render_loop
        simp only [k1, k2, k3, k4, this, Bool.false_eq_true, if_false, if_true]
      · have hany : f.events.any (fun isQuit => isQuit) = false := by
          rw [Bool.eq_false_iff]
          intro h
          simp only [List.any_eq_true] at h
          obtain ⟨b, hb, hb2⟩ := h
          subst hb2
          exact hq hb
        have h2t : ∃ g ∈ frames, g.finished = true ∨ true ∈ g.events := by
          obtain ⟨g, hg, hg2⟩ := h2
          rcases List.mem_cons.mp hg with rfl | hg
          · rcases hg2 with h | h
            · rw [hD] at h; cases h
            · exact absurd h hq
          · exact ⟨g, hg, hg2⟩
        have := ih (expand_without_trailing_slash p fs dir)
          (fun g hg => h1 g (List.mem_cons_of_mem _ hg)) h2t
        unfold render_loop
        simp only [k1, k2, k3, k4, hany, this, Bool.false_eq_true, if_false]

theorem helper_unconfirmed_mac (p : Platform) (su : Setup) (fs : FileSystem) (frames : List Frame)
    (filter fname dir title : Str) (type : DialogType)
    (h1 : ∀ f ∈ frames, f.finished = true → f.HasResult = false)
    (h2 : ∃ f ∈ frames, f.finished = true ∨ true ∈ f.events) :
    (file_dialog_helper p su fs frames filter fname dir title type).result = some [] := by
  have h := render_loop_unconfirmed_mac p fs (imgui_filter filter (type = .selectFolder)) fname type
    frames dir h1 h2
  unfold file_dialog_helper
  split
  · rfl
  · split
    · rfl
    · split
      · rfl
      · split
        · rfl
        · simp only [h]

end MacOSX

namespace filedialogs

/-- C8: in both backends `file_dialog_helper` returns the empty string when
`SDL_Init` reports failure or `SDL_CreateWindow` returns a null window, for
every filter, fname, dir, title and dialog type; no iteration of the render
loop is run (no frame is started, and the outcome is the one for no frames at
all). -/
theorem init_failure_returns_empty (p : Platform) (su : Setup) (fs : FileSystem)
    (frames : List Frame) (fsM : MacOSX.FileSystem) (framesM : List MacOSX.Frame)
    (filter fname dir title : Str) (type : DialogType)
    (h : su.SDL_Init ≠ 0 ∨ su.SDL_CreateWindow = false) :
    ((file_dialog_helper p su fs frames filter fname dir title type).result = some [] ∧
      Call.ImGui_NewFrame ∉ (file_dialog_helper p su fs frames filter fname dir title type).calls ∧
      file_dialog_helper p su fs frames filter fname dir title type =
        file_dialog_helper p su fs [] filter fname dir title type) ∧
    ((MacOSX.file_dialog_helper p su fsM framesM filter fname dir title type).result = some [] ∧
      Call.ImGui_NewFrame ∉
        (MacOSX.file_dialog_helper p su fsM framesM filter fname dir title type).calls ∧
      MacOSX.file_dialog_helper p su fsM framesM filter fname dir title type =
        MacOSX.file_dialog_helper p su fsM [] filter fname dir title type) := by
  by_cases h0 : su.SDL_Init = 0
  · rcases h with h | h
    · exact absurd h0 h
    · simp [file_dialog_helper, MacOSX.file_dialog_helper, h0, h]
  · simp [file_dialog_helper, MacOSX.file_dialog_helper, h0]

/-- Witness of C8: `SDL_Init` returns -1 on a Linux build; a frame in which the
user would confirm a file is never looked at. -/
theorem init_failure_returns_empty_witness :
    (file_dialog_helper .other
        { SDL_Init := -1, SDL_CreateWindow := true, SDL_CreateRenderer := true,
          SDL_GetWindowWMInfo := true, SDL_GL_CreateContext := true }
        { filename_absolute := id, filename_canonical := id,
          directory_exists := fun _ => true, directory_create := fun _ => true }
        [{ events := [], Display := true, IsOk := true,
           GetSelection := ["/tmp/a.txt".toList], GetFilePathName := "/tmp/a.txt".toList }]
        "Text|*.txt".toList "a.txt".toList "/tmp".toList "Open".toList .openFile).result
      = some [] ∧
    (MacOSX.file_dialog_helper .other
        { SDL_Init := -1, SDL_CreateWindow := true, SDL_CreateRenderer := true,
          SDL_GetWindowWMInfo := true, SDL_GL_CreateContext := true }
        { environment_expand_variables := id, absolute := fun d => some d,
          root_name := fun _ => [] }
        [{ events := [], IsDone := fun _ => true, HasResult := true,
           GetResult := "/tmp/a.txt".toList, GetResults := [] }]
        "Text|*.txt".toList "a.txt".toList "/tmp".toList "Open".toList .openFile).result
      = some [] :=
  ⟨(init_failure_returns_empty .other
      { SDL_Init := -1, SDL_CreateWindow := true, SDL_CreateRenderer := true,
        SDL_GetWindowWMInfo := true, SDL_GL_CreateContext := true }
      { filename_absolute := id, filename_canonical := id,
        directory_exists := fun _ => true, directory_create := fun _ => true }
      [{ events := [], Display := true, IsOk := true,
         GetSelection := ["/tmp/a.txt".toList], GetFilePathName := "/tmp/a.txt".toList }]
      { environment_expand_variables := id, absolute := fun d => some d,
        root_name := fun _ => [] }
      [{ events := [], IsDone := fun _ => true, HasResult := true,
         GetResult := "/tmp/a.txt".toList, GetResults := [] }]
      "Text|*.txt".toList "a.txt".toList "/tmp".toList "Open".toList .openFile
      (Or.inl (by decide))).1.1,
   (init_failure_returns_empty .other
      { SDL_Init := -1, SDL_CreateWindow := true, SDL_CreateRenderer := true,
        SDL_GetWindowWMInfo := true, SDL_GL_CreateContext := true }
      { filename_absolute := id, filename_canonical := id,
        directory_exists := fun _ => true, directory_create := fun _ => true }
      [{ events := [], Display := true, IsOk := true,
         GetSelection := ["/tmp/a.txt".toList], GetFilePathName := "/tmp/a.txt".toList }]
      { environment_expand_variables := id, absolute := fun d => some d,
        root_name := fun _ => [] }
      [{ events := [], IsDone := fun _ => true, HasResult := true,
         GetResult := "/tmp/a.txt".toList, GetResults := [] }]
      "Text|*.txt".toList "a.txt".toList "/tmp".toList "Open".toList .openFile
      (Or.inl (by decide))).2.1⟩

/-- C9: the code does not do what the claim says.  With `SDL_Init`, the window
and the window-manager query succeeding and `SDL_GL_CreateContext` returning
null (Linux build), both helpers go on into the render loop, and when the user
confirms `/tmp/a.txt` in the first frame they return that path, not the empty
string. -/
theorem gl_context_failure_not_detected :
    ((file_dialog_helper .other
        { SDL_Init := 0, SDL_CreateWindow := true, SDL_CreateRenderer := true,
          SDL_GetWindowWMInfo := true, SDL_GL_CreateContext := false }
        { filename_absolute := id, filename_canonical := id,
          directory_exists := fun _ => true, directory_create := fun _ => true }
        [{ events := [], Display := true, IsOk := true,
           GetSelection := ["/tmp/a.txt".toList], GetFilePathName := "/tmp/a.txt".toList }]
        "Text|*.txt".toList "a.txt".toList "/tmp".toList "Open".toList .openFile).result
      = some "/tmp/a.txt".toList ∧
     Call.ImGui_NewFrame ∈ (file_dialog_helper .other
        { SDL_Init := 0, SDL_CreateWindow := true, SDL_CreateRenderer := true,
          SDL_GetWindowWMInfo := true, SDL_GL_CreateContext := false }
        { filename_absolute := id, filename_canonical := id,
          directory_exists := fun _ => true, directory_create := fun _ => true }
        [{ events := [], Display := true, IsOk := true,
           GetSelection := ["/tmp/a.txt".toList], GetFilePathName := "/tmp/a.txt".toList }]
        "Text|*.txt".toList "a.txt".toList "/tmp".toList "Open".toList .openFile).calls) ∧
    ((MacOSX.file_dialog_helper .other
        { SDL_Init := 0, SDL_CreateWindow := true, SDL_CreateRenderer := true,
          SDL_GetWindowWMInfo := true, SDL_GL_CreateContext := false }
        { environment_expand_variables := id, absolute := fun d => some d,
          root_name := fun _ => [] }
        [{ events := [], IsDone := fun k => decide (k = "GetOpenFileName".toList),
           HasResult := true, GetResult := "/tmp/a.txt".toList, GetResults := [] }]
        "Text|*.txt".toList "a.txt".toList "/tmp".toList "Open".toList .openFile).result
      = some "/tmp/a.txt".toList ∧
     Call.ImGui_NewFrame ∈ (MacOSX.file_dialog_helper .other
        { SDL_Init := 0, SDL_CreateWindow := true, SDL_CreateRenderer := true,
          SDL_GetWindowWMInfo := true, SDL_GL_CreateContext := false }
        { environment_expand_variables := id, absolute := fun d => some d,
          root_name := fun _ => [] }
        [{ events := [], IsDone := fun k => decide (k = "GetOpenFileName".toList),
           HasResult := true, GetResult := "/tmp/a.txt".toList, GetResults := [] }]
        "Text|*.txt".toList "a.txt".toList "/tmp".toList "Open".toList .openFile).calls) := by
  refine ⟨⟨?_, ?_⟩, ⟨?_, ?_⟩⟩ <;> decide

/-- C10: for every dialog type and every sequence of frames in which the dialog
library never reports a confirmed result (`IsOk`, resp. `HasResult`, is false
in every frame in which the dialog finishes) and in which the loop ends (some
frame finishes the dialog or brings an `SDL_QUIT` event), `file_dialog_helper`
returns the empty string, in both backends and whatever the set-up calls
returned. -/
theorem unconfirmed_dialog_returns_empty (p : Platform) (su : Setup) (fs : FileSystem)
    (frames : List Frame) (fsM : MacOSX.FileSystem) (framesM : List MacOSX.Frame)
    (filter fname dir title : Str) (type : DialogType)
    (h1 : ∀ f ∈ frames, f.Display = true → f.IsOk = false)
    (h2 : ∃ f ∈ frames, f.Display = true ∨ true ∈ f.events)
    (h1M : ∀ f ∈ framesM, f.finished = true → f.HasResult = false)
    (h2M : ∃ f ∈ framesM, f.finished = true ∨ true ∈ f.events) :
    (file_dialog_helper p su fs frames filter fname dir title type).result = some [] ∧
    (MacOSX.file_dialog_helper p su fsM framesM filter fname dir title type).result = some [] :=
  ⟨helper_unconfirmed p su fs frames filter fname dir title type h1 h2,
   MacOSX.helper_unconfirmed_mac p su fsM framesM filter fname dir title type h1M h2M⟩

/-- Witness of C10 (Linux build, set-up succeeds, save dialog): in the first
backend an idle frame is followed by one in which the window is closed; in
the MacOSX backend an idle frame is followed by one in which the dialog
finishes without a result. -/
theorem unconfirmed_dialog_returns_empty_witness :
    (file_dialog_helper .other
        { SDL_Init := 0, SDL_CreateWindow := true, SDL_CreateRenderer := true,
          SDL_GetWindowWMInfo := true, SDL_GL_CreateContext := true }
        { filename_absolute := id, filename_canonical := id,
          directory_exists := fun _ => true, directory_create := fun _ => true }
        [{ events := [false], Display := false, IsOk := false, GetSelection := [],
           GetFilePathName := [] },
         { events := [false, true], Display := false, IsOk := true, GetSelection := [],
           GetFilePathName := "/tmp/a.txt".toList }]
        "Text|*.txt".toList "a.txt".toList "/tmp".toList "Save As".toList .saveFile).result
      = some [] ∧
    (MacOSX.file_dialog_helper .other
        { SDL_Init := 0, SDL_CreateWindow := true, SDL_CreateRenderer := true,
          SDL_GetWindowWMInfo := true, SDL_GL_CreateContext := true }
        { environment_expand_variables := id, absolute := fun d => some d,
          root_name := fun _ => [] }
        [{ events := [false], IsDone := fun _ => false, HasResult := false,
           GetResult := [], GetResults := [] },
         { events := [], IsDone := fun k => decide (k = "GetSaveFileName".toList),
           HasResult := false, GetResult := "/tmp/a.txt".toList, GetResults := [] }]
        "Text|*.txt".toList "a.txt".toList "/tmp".toList "Save As".toList .saveFile).result
      = some [] :=
  unconfirmed_dialog_returns_empty .other
    { SDL_Init := 0, SDL_CreateWindow := true, SDL_CreateRenderer := true,
      SDL_GetWindowWMInfo := true, SDL_GL_CreateContext := true }
    { filename_absolute := id, filename_canonical := id,
      directory_exists := fun _ => true, directory_create := fun _ => true }
    [{ events := [false], Display := false, IsOk := false, GetSelection := [],
       GetFilePathName := [] },
     { events := [false, true], Display := false, IsOk := true, GetSelection := [],
       GetFilePathName := "/tmp/a.txt".toList }]
    { environment_expand_variables := id, absolute := fun d => some d,
      root_name := fun _ => [] }
    [{ events := [false], IsDone := fun _ => false, HasResult := false,
       GetResult := [], GetResults := [] },
     { events := [], IsDone := fun k => decide (k = "GetSaveFileName".toList),
       HasResult := false, GetResult := "/tmp/a.txt".toList, GetResults := [] }]
    "Text|*.txt".toList "a.txt".toList "/tmp".toList "Save As".toList .saveFile
    (by decide) (by decide) (by decide) (by decide)

end filedialogs

namespace filedialogs

/-! ### Tear-down and the filter handed to the library -/

/-- C11: the code does not do what the claim says.  When `SDL_Init` succeeds
and `SDL_CreateWindow` returns null, both helpers return after the calls
`SDL_Init`, `SDL_CreateWindow`: `SDL_Quit` is not called.  When the window
exists and `SDL_GetWindowWMInfo` fails (Windows build of the first file, any
build of the MacOSX file), or `SDL_CreateRenderer` fails (Apple build), they
return without `SDL_DestroyWindow` and without `SDL_Quit`. -/
theorem early_return_skips_teardown :
    ((file_dialog_helper .other
        { SDL_Init := 0, SDL_CreateWindow := false, SDL_CreateRenderer := true,
          SDL_GetWindowWMInfo := true, SDL_GL_CreateContext := true }
        { filename_absolute := id, filename_canonical := id,
          directory_exists := fun _ => true, directory_create := fun _ => true }
        [] "Text|*.txt".toList "a.txt".toList "/tmp".toList "Open".toList .openFile)
      = { calls := [Call.SDL_Init, Call.SDL_CreateWindow "Open".toList], result := some [] }) ∧
    ((file_dialog_helper .win32
        { SDL_Init := 0, SDL_CreateWindow := true, SDL_CreateRenderer := true,
          SDL_GetWindowWMInfo := false, SDL_GL_CreateContext := true }
        { filename_absolute := id, filename_canonical := id,
          directory_exists := fun _ => true, directory_create := fun _ => true }
        [] "Text|*.txt".toList "a.txt".toList "/tmp".toList "Open".toList .openFile)
      = { calls := [Call.SDL_Init, Call.SDL_CreateWindow "Open".toList, Call.SDL_GetWindowWMInfo],
          result := some [] }) ∧
    ((MacOSX.file_dialog_helper .other
        { SDL_Init := 0, SDL_CreateWindow := false, SDL_CreateRenderer := true,
          SDL_GetWindowWMInfo := true, SDL_GL_CreateContext := true }
        { environment_expand_variables := id, absolute := fun d => some d,
          root_name := fun _ => [] }
        [] "Text|*.txt".toList "a.txt".toList "/tmp".toList "Open".toList .openFile)
      = { calls := [Call.SDL_Init, Call.SDL_CreateWindow "Open".toList], result := some [] }) ∧
    ((MacOSX.file_dialog_helper .apple
        { SDL_Init := 0, SDL_CreateWindow := true, SDL_CreateRenderer := false,
          SDL_GetWindowWMInfo := true, SDL_GL_CreateContext := true }
        { environment_expand_variables := id, absolute := fun d => some d,
          root_name := fun _ => [] }
        [] "Text|*.txt".toList "a.txt".toList "/tmp".toList "Open".toList .openFile)
      = { calls := [Call.SDL_Init, Call.SDL_CreateWindow "Open".toList, Call.SDL_CreateRenderer],
          result := some [] }) ∧
    ((MacOSX.file_dialog_helper .other
        { SDL_Init := 0, SDL_CreateWindow := true, SDL_CreateRenderer := true,
          SDL_GetWindowWMInfo := false, SDL_GL_CreateContext := true }
        { environment_expand_variables := id, absolute := fun d => some d,
          root_name := fun _ => [] }
        [] "Text|*.txt".toList "a.txt".toList "/tmp".toList "Open".toList .openFile)
      = { calls := [Call.SDL_Init, Call.SDL_CreateWindow "Open".toList, Call.SDL_GetWindowWMInfo],
          result := some [] }) := by
  refine ⟨?_, ?_, ?_, ?_, ?_⟩ <;> rfl

theorem render_loop_select_folder (p : Platform) (fs : FileSystem) (filter1 filter2 fname : Str)
    (frames : List Frame) (dir result : Str) :
    render_loop p fs filter1 fname .selectFolder frames dir result =
      render_loop p fs filter2 fname .selectFolder frames dir result := by
  induction frames generalizing dir result with
  | nil => rfl
  | cons f frames ih =>
    unfold render_loop
    simp only [ih]

theorem render_loop_select_folder_calls (p : Platform) (fs : FileSystem) (filterNew fname : Str)
    (frames : List Frame) (dir result : Str) :
    ∀ c ∈ (render_loop p fs filterNew fname .selectFolder frames dir result).calls,
      (∀ filters path fileName count flag,
        c = Call.OpenDialog filters path fileName count flag → filters = none) := by
  induction frames generalizing dir result with
  | nil => intro c hc; simp [render_loop] at hc
  | cons f frames ih =>
    intro c hc filters path fileName count flag hcall
    subst hcall
    cases hD : f.Display <;> cases hq : f.events.any (fun isQuit => isQuit) <;>
      simp only [render_loop, hD, hq, Bool.false_eq_true, if_false, if_true, false_and,
        List.append_nil, List.mem_append, List.mem_cons, List.mem_singleton, List.not_mem_nil,
        Call.OpenDialog.injEq, reduceCtorEq, false_or, or_false] at hc
    · rcases hc with hc | hc
      · exact hc.1
      · exact ih _ _ _ hc _ _ _ _ _ rfl
    · exact hc.1
    · exact hc.1
    · exact hc.1

end filedialogs

namespace MacOSX

open filedialogs (Str Platform DialogType Setup Call Outcome)

theorem render_loop_select_folder_mac (p : Platform) (fs : FileSystem)
    (filter1 filter2 fname : Str) (frames : List Frame) (dir result : Str) :
    render_loop p fs filter1 fname .selectFolder frames dir result =
      render_loop p fs filter2 fname .selectFolder frames dir result := by
  induction frames generalizing dir result with
  | nil => rfl
  | cons f frames ih =>
    unfold render_loop
    simp only [ih]

theorem render_loop_select_folder_calls_mac (p : Platform) (fs : FileSystem)
    (filterNew fname : Str) (frames : List Frame) (dir result : Str) :
    ∀ c ∈ (render_loop p fs filterNew fname .selectFolder frames dir result).calls,
      (∀ key title filter multi file start,
        c = Call.Open key title filter multi file start → filter = []) ∧
      (∀ key title filter file start, c ≠ Call.Save key title filter file start) := by
  induction frames generalizing dir result with
  | nil => intro c hc; simp [render_loop] at hc
  | cons f frames ih =>
    intro c hc
    unfold render_loop at hc
    simp only [] at hc
    split at hc
    · simp only [List.mem_cons, List.mem_singleton, List.not_mem_nil, or_false] at hc
      rcases hc with rfl | rfl | rfl | rfl <;> (simp; try (intros; assumption))
    · split at hc
      · simp only [List.mem_cons, List.mem_singleton, List.not_mem_nil, or_false] at hc
        rcases hc with rfl | rfl | rfl | rfl <;> (simp; try (intros; assumption))
      · split at hc
        · simp only [List.mem_cons, List.mem_singleton, List.not_mem_nil, or_false] at hc
          rcases hc with rfl | rfl | rfl | rfl <;> (simp; try (intros; assumption))
        · split at hc
          · simp only [List.mem_cons, List.mem_singleton, List.not_mem_nil, or_false] at hc
            rcases hc with rfl | rfl | rfl | rfl <;> (simp; try (intros; assumption))
          · split at hc
            · simp only [List.mem_cons, List.mem_singleton, List.not_mem_nil, or_false] at hc
              rcases hc with rfl | rfl | rfl <;> (simp; try (intros; assumption))
            · simp only [List.mem_append, List.mem_cons, List.mem_singleton, List.not_mem_nil,
                or_false] at hc
              rcases hc with (rfl | rfl | rfl) | hc
              · simp
              · simp; intros; assumption
              · simp
              · exact ih _ _ c hc

end MacOSX

namespace filedialogs

/-- C13, as stated, fails: for the input `Text|*.txt` neither `imgui_filter`
returns `Text{.txt},` in the file-dialog (non-folder) case. -/
theorem text_filter_is_not_comma_terminated :
    imgui_filter "Text|*.txt".toList ≠ "Text\x7b.txt\x7d,".toList ∧
    MacOSX.imgui_filter "Text|*.txt".toList false ≠ "Text\x7b.txt\x7d,".toList := by
  constructor <;> decide

/-- C13 (amended): for the input `Text|*.txt` the `imgui_filter` of
src/filedialogs.cpp returns `Text{.txt}` (the trailing comma is removed), and
the `imgui_filter` of the MacOSX file returns `Text{.txt},.*` in the non-folder
case; it returns `Text{.txt},` only with `is_folder` true. -/
theorem text_filter_translation :
    imgui_filter "Text|*.txt".toList = "Text\x7b.txt\x7d".toList ∧
    MacOSX.imgui_filter "Text|*.txt".toList false = "Text\x7b.txt\x7d,.*".toList ∧
    MacOSX.imgui_filter "Text|*.txt".toList true = "Text\x7b.txt\x7d,".toList := by
  refine ⟨?_, ?_, ?_⟩ <;> decide

/-- C16: for the dialog type `selectFolder` the run of `file_dialog_helper`
(every call made, with its arguments, and the result) is the same for any two
filter strings, all other inputs equal; the filter handed to the dialog
library is the null pointer in every `OpenDialog` call of the first backend
and the empty string in every `Open` call of the MacOSX backend, which makes
no `Save` call. -/
theorem select_folder_ignores_filter (p : Platform) (su : Setup) (fs : FileSystem)
    (frames : List Frame) (fsM : MacOSX.FileSystem) (framesM : List MacOSX.Frame)
    (filter1 filter2 fname dir title : Str) :
    file_dialog_helper p su fs frames filter1 fname dir title .selectFolder =
      file_dialog_helper p su fs frames filter2 fname dir title .selectFolder ∧
    (∀ c ∈ (file_dialog_helper p su fs frames filter1 fname dir title .selectFolder).calls,
      ∀ filters path fileName count flag,
        c = Call.OpenDialog filters path fileName count flag → filters = none) ∧
    MacOSX.file_dialog_helper p su fsM framesM filter1 fname dir title .selectFolder =
      MacOSX.file_dialog_helper p su fsM framesM filter2 fname dir title .selectFolder ∧
    (∀ c ∈ (MacOSX.file_dialog_helper p su fsM framesM filter1 fname dir title
          .selectFolder).calls,
      (∀ key title filter multi file start,
        c = Call.Open key title filter multi file start → filter = []) ∧
      (∀ key title filter file start, c ≠ Call.Save key title filter file start)) := by
  refine ⟨?_, ?_, ?_, ?_⟩
  · unfold file_dialog_helper
    simp only [render_loop_select_folder p fs (imgui_filter filter1) (imgui_filter filter2)]
  · intro c hc filters path fileName count flag hcall
    subst hcall
    have key := render_loop_select_folder_calls p fs (imgui_filter filter1) fname frames dir []
    simp only [file_dialog_helper] at hc
    generalize render_loop p fs (imgui_filter filter1) fname .selectFolder frames dir [] = o
      at hc key
    obtain ⟨calls, result⟩ := o
    cases result <;> by_cases h0 : su.SDL_Init = 0 <;> cases hw : su.SDL_CreateWindow <;>
      by_cases hp : p = .win32 <;> cases hwm : su.SDL_GetWindowWMInfo <;>
      simp [h0, hw, hp, hwm] at hc <;>
      exact key _ hc _ _ _ _ _ rfl
  · simp only [MacOSX.file_dialog_helper]
    rw [MacOSX.render_loop_select_folder_mac p fsM _ (MacOSX.imgui_filter filter2 true) fname
      framesM dir []]
    rfl
  · intro c hc
    have key := MacOSX.render_loop_select_folder_calls_mac p fsM [] fname framesM dir []
    simp only [MacOSX.file_dialog_helper] at hc
    rw [MacOSX.render_loop_select_folder_mac p fsM _ [] fname framesM dir []] at hc
    generalize MacOSX.render_loop p fsM [] fname .selectFolder framesM dir [] = o at hc key
    obtain ⟨calls, result⟩ := o
    cases result <;> by_cases h0 : su.SDL_Init = 0 <;> cases hw : su.SDL_CreateWindow <;>
      by_cases hp : p = .apple <;> cases hre : su.SDL_CreateRenderer <;>
      cases hwm : su.SDL_GetWindowWMInfo <;>
      simp [h0, hw, hp, hre, hwm] at hc <;>
      (first
        | exact key _ hc
        | (rcases hc with hc | hc | hc | hc | hc | hc | hc | hc | hc | hc <;>
            first | exact key _ hc | (subst hc; simp))
        | (rcases hc with hc | hc | hc | hc | hc | hc | hc | hc | hc <;>
            first | exact key _ hc | (subst hc; simp))
        | (rcases hc with hc | hc | hc | hc | hc | hc | hc | hc <;>
            first | exact key _ hc | (subst hc; simp))
        | (rcases hc with hc | hc | hc | hc | hc | hc | hc <;>
            first | exact key _ hc | (subst hc; simp))
        | (rcases hc with hc | hc | hc | hc | hc | hc <;>
            first | exact key _ hc | (subst hc; simp))
        | (rcases hc with hc | hc | hc | hc | hc <;>
            first | exact key _ hc | (subst hc; simp))
        | (rcases hc with hc | hc | hc | hc <;>
            first | exact key _ hc | (subst hc; simp))
        | (rcases hc with hc | hc | hc <;>
            first | exact key _ hc | (subst hc; simp))
        | (rcases hc with hc | hc <;>
            first | exact key _ hc | (subst hc; simp))
        | (subst hc; simp))

end filedialogs

namespace filedialogs

/-! ### Slash trimming -/

theorem remove_slash_loop_some (p : Platform) (l x : Str)
    (h : filename_remove_slash.loop p l = some x) :
    ∃ c cs, x.reverse = c :: cs ∧ ¬ (c = '/' ∨ (p = .win32 ∧ c = '\\')) := by
  induction l with
  | nil => simp [filename_remove_slash.loop] at h
  | cons c cs ih =>
    unfold filename_remove_slash.loop at h
    split at h
    · exact ih h
    · rename_i hc
      cases h
      exact ⟨c, cs, by simp, hc⟩

theorem remove_slash_loop_fixed (p : Platform) (l x : Str)
    (h : filename_remove_slash.loop p l = some x) :
    filename_remove_slash.loop p x.reverse = some x := by
  obtain ⟨c, cs, hx, hc⟩ := remove_slash_loop_some p l x h
  rw [hx]
  unfold filename_remove_slash.loop
  rw [if_neg hc, ← hx, List.reverse_reverse]

theorem filename_remove_slash_fixed (p : Platform) (fs : FileSystem) (dname r : Str)
    (h : filename_remove_slash p fs dname false = some r) :
    filename_remove_slash p fs r false = some r := by
  simp only [filename_remove_slash, Bool.false_eq_true, if_false] at h ⊢
  exact remove_slash_loop_fixed p _ r h

theorem chr_slash_is_slash (p : Platform) :
    CHR_SLASH p = '/' ∨ (p = .win32 ∧ CHR_SLASH p = '\\') := by
  cases p <;> simp [CHR_SLASH]

theorem filename_add_slash_some (p : Platform) (fs : FileSystem) (dname r : Str)
    (h : filename_add_slash p fs dname false = some r) :
    ∃ x, filename_remove_slash p fs dname false = some x ∧ r = x ++ STR_SLASH p := by
  unfold filename_add_slash at h
  cases hx : filename_remove_slash p fs dname false with
  | none => rw [hx] at h; simp at h
  | some x =>
    rw [hx] at h
    simp only [filename_remove_slash, Bool.false_eq_true, if_false] at hx
    obtain ⟨c, cs, hrev, hc⟩ := remove_slash_loop_some p _ x hx
    have hxe : x = cs.reverse ++ [c] := by
      have := congrArg List.reverse hrev
      simpa using this
    have hlast : x.getLast? = some c := by rw [hxe]; simp
    simp only [hlast] at h
    have hne : c ≠ CHR_SLASH p := by
      intro e
      rw [e] at hc
      exact hc (chr_slash_is_slash p)
    rw [if_pos hne] at h
    cases h
    exact ⟨x, by simp [filename_remove_slash, hx], rfl⟩

theorem filename_add_slash_fixed (p : Platform) (fs : FileSystem) (dname r : Str)
    (h : filename_add_slash p fs dname false = some r) :
    filename_add_slash p fs r false = some r := by
  obtain ⟨x, hx, hr⟩ := filename_add_slash_some p fs dname r h
  have hfix := filename_remove_slash_fixed p fs dname x hx
  have hrem : filename_remove_slash p fs r false = some x := by
    simp only [filename_remove_slash, Bool.false_eq_true, if_false] at hfix ⊢
    rw [hr]
    simp only [STR_SLASH, List.reverse_append, List.reverse_cons, List.reverse_nil,
      List.nil_append, List.singleton_append]
    unfold filename_remove_slash.loop
    rw [if_pos (chr_slash_is_slash p)]
    exact hfix
  have h2 := h
  unfold filename_add_slash at h2 ⊢
  rw [hx] at h2
  rw [hrem]
  exact h2

end filedialogs

namespace filedialogs

/-! ### Expansion of environment variables -/

theorem find_none_of_absent (substr str : Str) (h : ¬ substr <:+: str) :
    find str substr = none := by
  induction str with
  | nil =>
    unfold find
    rw [if_neg (fun hp => h hp.isInfix)]
  | cons c cs ih =>
    unfold find
    rw [if_neg (fun hp => h hp.isInfix)]
    have : ¬ substr <:+: cs := fun hi => h (hi.trans (List.suffix_cons c cs).isInfix)
    simp [ih this]

theorem find_dollar_brace (pre rest : Str) (h : ¬ ['$', '{'] <:+: pre) :
    find (pre ++ '$' :: '{' :: rest) ['$', '{'] = some pre.length := by
  induction pre with
  | nil =>
    unfold find
    rw [if_pos]
    · rfl
    · exact ⟨rest, rfl⟩
  | cons c cs ih =>
    have hcs : ¬ ['$', '{'] <:+: cs := fun hi => h (hi.trans (List.suffix_cons c cs).isInfix)
    have hnp : ¬ ['$', '{'] <+: (c :: cs) ++ '$' :: '{' :: rest := by
      rintro ⟨t, ht⟩
      cases cs with
      | nil =>
        simp at ht
      | cons d ds =>
        simp only [List.cons_append, List.cons.injEq, List.nil_append] at ht
        obtain ⟨rfl, rfl, _⟩ := ht
        exact h (List.IsPrefix.isInfix ⟨ds, rfl⟩)
    unfold find
    rw [if_neg hnp]
    simp only [List.cons_append]
    rw [ih hcs]
    rfl

theorem find_closing_brace (name post : Str) (h : '}' ∉ name) :
    find (name ++ '}' :: post) ['}'] = some name.length := by
  induction name with
  | nil =>
    unfold find
    rw [if_pos]
    · rfl
    · exact ⟨post, rfl⟩
  | cons c cs ih =>
    have hc : c ≠ '}' := fun e => h (by simp [e])
    have hcs : '}' ∉ cs := fun hm => h (List.mem_cons_of_mem _ hm)
    have hnp : ¬ ['}'] <+: (c :: cs) ++ '}' :: post := by
      rintro ⟨t, ht⟩
      simp only [List.cons_append, List.cons.injEq, List.nil_append] at ht
      exact hc ht.1.symm
    unfold find
    rw [if_neg hnp]
    simp only [List.cons_append]
    rw [ih hcs]
    rfl

theorem expand_step (env : Env) (fuel : Nat) (pre name post : Str)
    (hpre : ¬ ['$', '{'] <:+: pre) (hname : '}' ∉ name) :
    environment_expand_variables env (fuel + 1) (pre ++ ['$', '{'] ++ name ++ ['}'] ++ post) =
      environment_expand_variables env fuel
        (pre ++ environment_get_variable env name ++ post) := by
  have e1 : pre ++ ['$', '{'] ++ name ++ ['}'] ++ post
      = pre ++ '$' :: '{' :: (name ++ '}' :: post) := by simp
  rw [e1]
  rw [environment_expand_variables]
  simp only [find_dollar_brace pre _ hpre, List.take_left', List.drop_append,
    List.take_append_eq_append_take, List.drop_length]
  simp [find_closing_brace name post hname]

theorem expand_no_reference (env : Env) (fuel : Nat) (str : Str)
    (h : ¬ ['$', '{'] <:+: str) :
    environment_expand_variables env (fuel + 1) str = some str := by
  rw [environment_expand_variables]
  simp [find_none_of_absent _ str h]

end filedialogs

namespace filedialogs

/-- C17: the code does not do what the claim says for every string.  On the
root directory `/` and on the empty string (on every string made of slashes
only) `filename_remove_slash` evaluates `back()` on an empty string, which is
undefined behaviour, so the call has no defined value to compare.  Wherever
the call is defined its value is a fixed point: on those strings the function
is idempotent. -/
theorem remove_slash_undefined_on_root :
    (∀ (p : Platform) (fs : FileSystem),
      filename_remove_slash p fs ['/'] false = none ∧
      filename_remove_slash p fs [] false = none ∧
      filename_remove_slash p fs ['/', '/', '/'] false = none) ∧
    (∀ (p : Platform) (fs : FileSystem) (dname r : Str),
      filename_remove_slash p fs dname false = some r →
        filename_remove_slash p fs r false = some r) := by
  refine ⟨fun p fs => ⟨?_, ?_, ?_⟩, filename_remove_slash_fixed⟩ <;>
    simp [filename_remove_slash, filename_remove_slash.loop]

/-- C18: the code does not do what the claim says for every string.  On the
root directory `/` and on the empty string `filename_add_slash` evaluates
`back()` on an empty string (inside `filename_remove_slash`), which is
undefined behaviour.  Wherever the call is defined its value is a fixed point,
for instance `/a` and `/a//` both give `/a/`, which gives `/a/` again. -/
theorem add_slash_undefined_on_root :
    (∀ (p : Platform) (fs : FileSystem),
      filename_add_slash p fs ['/'] false = none ∧
      filename_add_slash p fs [] false = none) ∧
    (∀ fs : FileSystem,
      filename_add_slash .other fs "/a".toList false = some "/a/".toList ∧
      filename_add_slash .other fs "/a//".toList false = some "/a/".toList ∧
      filename_add_slash .other fs "/a/".toList false = some "/a/".toList) ∧
    (∀ (p : Platform) (fs : FileSystem) (dname r : Str),
      filename_add_slash p fs dname false = some r →
        filename_add_slash p fs r false = some r) := by
  refine ⟨fun p fs => ⟨?_, ?_⟩, fun fs => ⟨?_, ?_, ?_⟩, filename_add_slash_fixed⟩ <;>
    simp [filename_add_slash, filename_remove_slash, filename_remove_slash.loop, CHR_SLASH,
      STR_SLASH]

/-- C19: for every environment and all strings pre, name, post such that pre
contains no `${`, name contains no `}`, `getenv` answers the value v for name,
and pre + v + post contains no `${`, the expansion of
pre + `${` + name + `}` + post returns pre + v + post (the recursion is two
calls deep, so every bound of at least two suffices). -/
theorem expand_known_variable (env : Env) (pre name post v : Str) (fuel : Nat)
    (hpre : ¬ ['$', '{'] <:+: pre) (hname : '}' ∉ name) (hset : env (c_str name) = some v)
    (hres : ¬ ['$', '{'] <:+: pre ++ v ++ post) :
    environment_expand_variables env (fuel + 2) (pre ++ ['$', '{'] ++ name ++ ['}'] ++ post) =
      some (pre ++ v ++ post) := by
  rw [expand_step env (fuel + 1) pre name post hpre hname]
  have hv : environment_get_variable env name = v := by
    simp [environment_get_variable, hset]
  rw [hv]
  exact expand_no_reference env fuel _ hres

/-- Witness of C19: with `HOME` set to `/home/u`, the text `cd ${HOME}/bin`
expands to `cd /home/u/bin`. -/
theorem expand_known_variable_witness :
    environment_expand_variables
        (fun n => if n = "HOME".toList then some "/home/u".toList else none) 2
        ("cd ".toList ++ ['$', '{'] ++ "HOME".toList ++ ['}'] ++ "/bin".toList) =
      some ("cd ".toList ++ "/home/u".toList ++ "/bin".toList) :=
  expand_known_variable (fun n => if n = "HOME".toList then some "/home/u".toList else none)
    "cd ".toList "HOME".toList "/bin".toList "/home/u".toList 0
    (by decide) (by decide) (by decide) (by decide)

/-- C20, as stated, fails: with `X` not set, the expansion of `a${X}b` is `ab`,
not `a${X}b`; no bound on the recursion makes it return the input. -/
theorem unknown_variable_is_dropped :
    environment_expand_variables (fun _ => none) 2 "a$\x7bX\x7db".toList = some "ab".toList ∧
    ¬ ∃ fuel, environment_expand_variables (fun _ => none) fuel "a$\x7bX\x7db".toList =
      some "a$\x7bX\x7db".toList := by
  refine ⟨by decide, ?_⟩
  rintro ⟨fuel, h⟩
  match fuel with
  | 0 => simp [environment_expand_variables] at h
  | 1 =>
    have : environment_expand_variables (fun _ => none) 1 "a$\x7bX\x7db".toList = none := by
      decide
    rw [this] at h
    cases h
  | n + 2 =>
    have h2 := expand_step (fun _ => none) (n + 1) ['a'] ['X'] ['b'] (by decide) (by decide)
    have h3 := expand_no_reference (fun _ => none) n ("ab".toList) (by decide)
    have e1 : "a$\x7bX\x7db".toList = ['a'] ++ ['$', '{'] ++ ['X'] ++ ['}'] ++ ['b'] := by decide
    rw [e1, h2] at h
    have e2 : ['a'] ++ environment_get_variable (fun _ => none) ['X'] ++ ['b'] = "ab".toList := by
      decide
    rw [e2, h3] at h
    revert h
    decide

/-- C20 (amended): for every environment in which name is not set (`getenv`
answers null), pre containing no `${` and name containing no `}`, the
expansion of pre + `${` + name + `}` + post is the expansion of pre + post:
the text `${name}` is replaced by the empty string.  When pre + post contains
no `${` the value returned is pre + post. -/
theorem expand_unknown_variable (env : Env) (pre name post : Str) (fuel : Nat)
    (hpre : ¬ ['$', '{'] <:+: pre) (hname : '}' ∉ name) (hunset : env (c_str name) = none) :
    environment_expand_variables env (fuel + 1) (pre ++ ['$', '{'] ++ name ++ ['}'] ++ post) =
      environment_expand_variables env fuel (pre ++ post) ∧
    (¬ ['$', '{'] <:+: pre ++ post →
      environment_expand_variables env (fuel + 2) (pre ++ ['$', '{'] ++ name ++ ['}'] ++ post) =
        some (pre ++ post)) := by
  have hv : environment_get_variable env name = [] := by
    simp [environment_get_variable, hunset]
  have step := fun f => expand_step env f pre name post hpre hname
  simp only [hv, List.append_nil] at step
  refine ⟨step fuel, fun hres => ?_⟩
  rw [step (fuel + 1)]
  exact expand_no_reference env fuel _ hres

/-- Witness of C20 (amended): with an empty environment, `a${X}b` expands to
`ab`. -/
theorem expand_unknown_variable_witness :
    environment_expand_variables (fun _ => none) 2
        (['a'] ++ ['$', '{'] ++ ['X'] ++ ['}'] ++ ['b']) = some (['a'] ++ ['b']) :=
  (expand_unknown_variable (fun _ => none) ['a'] ['X'] ['b'] 0
    (by decide) (by decide) rfl).2 (by decide)

end filedialogs

namespace filedialogs

/-! ### The filter translation -/

theorem replace_all_remove_char (c : Char) (s : Str) :
    string_replace_all s [c] [] = s.filter (fun x => decide (x ≠ c)) := by
  unfold string_replace_all
  induction s with
  | nil => rfl
  | cons x xs ih =>
    unfold string_replace_all.scan
    by_cases hx : x = c
    · subst hx
      have hp : [x] ≠ [] ∧ [x] <+: x :: xs := ⟨by simp, ⟨xs, rfl⟩⟩
      rw [if_pos hp]
      simp only [List.length_singleton, Nat.sub_self, List.nil_append]
      rw [ih]
      simp
    · have hp : ¬ ([c] ≠ [] ∧ [c] <+: x :: xs) := by
        rintro ⟨_, t, ht⟩
        simp only [List.singleton_append, List.cons.injEq] at ht
        exact hx ht.1.symm
      rw [if_neg hp, ih]
      simp [hx]

theorem replace_all_remove_absent (c : Char) (s : Str) (h : c ∉ s) :
    string_replace_all s [c] [] = s := by
  rw [replace_all_remove_char, List.filter_eq_self]
  intro a ha
  simp only [ne_eq, decide_not, Bool.not_eq_true', decide_eq_false_iff_not]
  rintro rfl
  exact h ha

theorem replace_star_dot (s : Str) :
    string_replace_all s ['*', '.'] ['.'] = claimed_star_dot s := by
  unfold string_replace_all
  induction s using claimed_star_dot.induct with
  | case1 => rfl
  | case2 c =>
    unfold string_replace_all.scan
    have hp : ¬ (['*', '.'] ≠ [] ∧ ['*', '.'] <+: [c]) := by
      rintro ⟨_, t, ht⟩
      simp at ht
    rw [if_neg hp]
    rfl
  | case3 c d rest hcd ih =>
    obtain ⟨rfl, rfl⟩ := hcd
    unfold string_replace_all.scan
    have hp : (['*', '.'] ≠ [] ∧ ['*', '.'] <+: '*' :: '.' :: rest) := ⟨by simp, ⟨rest, rfl⟩⟩
    rw [if_pos hp]
    simp only [List.length_cons, List.length_nil, List.singleton_append]
    unfold string_replace_all.scan
    rw [ih]
    simp [claimed_star_dot]
  | case4 c d rest hcd ih =>
    unfold string_replace_all.scan
    have hp : ¬ (['*', '.'] ≠ [] ∧ ['*', '.'] <+: c :: d :: rest) := by
      rintro ⟨_, t, ht⟩
      simp only [List.cons_append, List.cons.injEq, List.nil_append] at ht
      exact hcd ⟨ht.1.symm, ht.2.1.symm⟩
    rw [if_neg hp, ih]
    simp [claimed_star_dot, hcd]

end filedialogs

namespace filedialogs

theorem split_go_field (delim : Char) (tmp f rest : Str) (h : delim ∉ f) :
    string_split.go delim tmp (f ++ delim :: rest) =
      (tmp ++ f) :: string_split.go delim [] rest := by
  induction f generalizing tmp with
  | nil => simp [string_split.go]
  | cons c cs ih =>
    have hc : c ≠ delim := fun e => h (by simp [e])
    have hcs : delim ∉ cs := fun hm => h (List.mem_cons_of_mem _ hm)
    simp only [List.cons_append, string_split.go, if_neg hc, List.append_eq]
    rw [ih _ hcs]
    simp

theorem split_go_last (delim : Char) (tmp f : Str) (h : delim ∉ f) (hne : tmp ++ f ≠ []) :
    string_split.go delim tmp f = [tmp ++ f] := by
  induction f generalizing tmp with
  | nil =>
    simp only [List.append_nil] at hne ⊢
    simp [string_split.go, hne]
  | cons c cs ih =>
    have hc : c ≠ delim := fun e => h (by simp [e])
    have hcs : delim ∉ cs := fun hm => h (List.mem_cons_of_mem _ hm)
    simp only [string_split.go, if_neg hc]
    rw [ih _ hcs (by simp)]
    simp

theorem intercalate_cons_cons (sep a b : Str) (l : List Str) :
    List.intercalate sep (a :: b :: l) = a ++ sep ++ List.intercalate sep (b :: l) := by
  simp [List.intercalate, List.intersperse]

theorem split_intercalate (delim : Char) (fields : List Str) (hne : fields ≠ [])
    (hfree : ∀ f ∈ fields, delim ∉ f) (hlast : ∀ f ∈ fields.getLast?, f ≠ []) :
    string_split (List.intercalate [delim] fields) delim = fields := by
  unfold string_split
  induction fields with
  | nil => exact absurd rfl hne
  | cons a l ih =>
    cases l with
    | nil =>
      have ha : a ≠ [] := hlast a (by simp)
      have : List.intercalate [delim] [a] = a := by simp [List.intercalate, List.intersperse]
      rw [this, split_go_last delim [] a (hfree a (by simp)) (by simpa using ha)]
      simp
    | cons b l =>
      rw [intercalate_cons_cons]
      simp only [List.append_assoc, List.singleton_append]
      rw [split_go_field delim [] a _ (hfree a (by simp))]
      rw [ih (by simp) (fun f hf => hfree f (List.mem_cons_of_mem _ hf))
        (fun f hf => hlast f (by simpa using hf))]
      simp

theorem split_go_trailing (delim : Char) (tmp s : Str) (hne : tmp ++ s ≠ [])
    (hlast : s.getLast? ≠ some delim) :
    string_split.go delim tmp (s ++ [delim]) = string_split.go delim tmp s := by
  induction s generalizing tmp with
  | nil =>
    simp only [List.append_nil] at hne
    simp [string_split.go, hne]
  | cons c cs ih =>
    have hcs : cs.getLast? ≠ some delim := by
      intro h
      apply hlast
      cases cs with
      | nil => simp at h
      | cons d ds => simpa using h
    by_cases hc : c = delim
    · subst hc
      have hcsne : cs ≠ [] := by
        rintro rfl
        exact hlast (by simp)
      simp only [List.cons_append, string_split.go, if_true, List.append_eq]
      rw [ih [] (by simpa using hcsne) hcs]
    · simp only [List.cons_append, string_split.go, if_neg hc, List.append_eq]
      rw [ih (tmp ++ [c]) (by simp) hcs]

theorem mem_intercalate (sep : Str) (fields : List Str) (c : Char)
    (h : c ∈ List.intercalate sep fields) : c ∈ sep ∨ ∃ f ∈ fields, c ∈ f := by
  induction fields with
  | nil => simp [List.intercalate, List.intersperse] at h
  | cons a l ih =>
    cases l with
    | nil =>
      have e : List.intercalate sep [a] = a := by simp [List.intercalate, List.intersperse]
      rw [e] at h
      exact Or.inr ⟨a, by simp, h⟩
    | cons b l =>
      rw [intercalate_cons_cons] at h
      simp only [List.mem_append] at h
      rcases h with (h | h) | h
      · exact Or.inr ⟨a, by simp, h⟩
      · exact Or.inl h
      · rcases ih h with h | ⟨f, hf, hc⟩
        · exact Or.inl h
        · exact Or.inr ⟨f, List.mem_cons_of_mem _ hf, hc⟩

end filedialogs

namespace filedialogs

theorem filter_loop_pairs (pairs : List (Str × Str)) (index : Nat) (out : Str)
    (h : index % 2 = 0) :
    imgui_filter.loop (pairs.flatMap (fun dp => [dp.1, dp.2])) index out =
      out ++ pairs.flatMap
        (fun dp => (dp.1 ++ ['{'] ++ claimed_pattern dp.2 ++ ['}']) ++ [',']) := by
  induction pairs generalizing index out with
  | nil => simp [imgui_filter.loop]
  | cons dp rest ih =>
    have h1 : ¬ (index + 1) % 2 = 0 := by omega
    have h2 : (index + 1 + 1) % 2 = 0 := by omega
    have e : (dp :: rest).flatMap (fun dp => [dp.1, dp.2]) =
        dp.1 :: dp.2 :: rest.flatMap (fun dp => [dp.1, dp.2]) := by
      simp [List.flatMap_cons]
    rw [e, imgui_filter.loop, if_pos h, imgui_filter.loop, if_neg h1, ih _ _ h2,
      replace_star_dot, List.flatMap_cons]
    simp [claimed_pattern]

theorem flatMap_comma (g : Str × Str → Str) (pairs : List (Str × Str)) (hne : pairs ≠ []) :
    pairs.flatMap (fun dp => g dp ++ [',']) =
      List.intercalate [','] (pairs.map g) ++ [','] := by
  induction pairs with
  | nil => exact absurd rfl hne
  | cons a l ih =>
    cases l with
    | nil => simp [List.intercalate, List.intersperse]
    | cons b l =>
      rw [List.flatMap_cons, ih (by simp)]
      simp only [List.map_cons]
      rw [intercalate_cons_cons]
      simp

theorem strip_clean (input : Str) (h : ∀ c ∈ input, c ∉ stripped_chars) :
    string_replace_all
      (string_replace_all
        (string_replace_all
          (string_replace_all (string_replace_all input ['\r'] []) ['\n'] []) ['{'] [])
        ['}'] [])
      [','] [] = input := by
  have h1 : '\r' ∉ input := fun hm => h _ hm (by decide)
  have h2 : '\n' ∉ input := fun hm => h _ hm (by decide)
  have h3 : '{' ∉ input := fun hm => h _ hm (by decide)
  have h4 : '}' ∉ input := fun hm => h _ hm (by decide)
  have h5 : ',' ∉ input := fun hm => h _ hm (by decide)
  rw [replace_all_remove_absent _ _ h1, replace_all_remove_absent _ _ h2,
    replace_all_remove_absent _ _ h3, replace_all_remove_absent _ _ h4,
    replace_all_remove_absent _ _ h5]

theorem strip_all (input : Str) (h : ∀ c ∈ input, c ∈ stripped_chars) :
    string_replace_all
      (string_replace_all
        (string_replace_all
          (string_replace_all (string_replace_all input ['\r'] []) ['\n'] []) ['{'] [])
        ['}'] [])
      [','] [] = [] := by
  simp only [replace_all_remove_char, List.filter_filter, List.filter_eq_nil_iff]
  intro a ha
  have := h a ha
  simp only [stripped_chars, List.mem_cons, List.mem_singleton, List.not_mem_nil, or_false]
    at this
  rcases this with rfl | rfl | rfl | rfl | rfl <;> decide

theorem imgui_filter_clean (input : Str) (h : ∀ c ∈ input, c ∉ stripped_chars) :
    imgui_filter input =
      (if imgui_filter.loop (string_split input '|') 0 [] ≠ [] ∧
          (imgui_filter.loop (string_split input '|') 0 []).getLast? = some ',' then
        (imgui_filter.loop (string_split input '|') 0 []).dropLast
      else if imgui_filter.loop (string_split input '|') 0 [] = [] then ['.', '*']
      else imgui_filter.loop (string_split input '|') 0 []) ∧
    ∀ is_folder, MacOSX.imgui_filter input is_folder =
      (if ¬ is_folder then imgui_filter.loop (string_split input '|') 0 [] ++ ['.', '*']
      else imgui_filter.loop (string_split input '|') 0 []) := by
  constructor
  · simp only [imgui_filter, strip_clean input h]
  · intro is_folder
    simp only [MacOSX.imgui_filter, strip_clean input h]

end filedialogs

namespace filedialogs

/-- C12: for every n >= 1 and non-empty strings D1..Dn, P1..Pn that contain none
of `|`, `\r`, `\n`, `{`, `}`, `,`, the `imgui_filter` of src/filedialogs.cpp
applied to `D1|P1|...|Dn|Pn` returns `D1{P1'},...,Dn{Pn'}` without a trailing
comma, where `Pi'` is `Pi` with every `;` replaced by `,` and then every
left-to-right non-overlapping `*.` replaced by `.`. -/
theorem filter_translation_of_pairs (pairs : List (Str × Str)) (hne : pairs ≠ [])
    (hD : ∀ dp ∈ pairs, dp.1 ≠ [] ∧ ∀ c ∈ dp.1, c ≠ '|' ∧ c ∉ stripped_chars)
    (hP : ∀ dp ∈ pairs, dp.2 ≠ [] ∧ ∀ c ∈ dp.2, c ≠ '|' ∧ c ∉ stripped_chars) :
    imgui_filter (claimed_input pairs) = claimed_output pairs := by
  have hfield : ∀ f ∈ pairs.flatMap (fun dp => [dp.1, dp.2]),
      f ≠ [] ∧ ∀ c ∈ f, c ≠ '|' ∧ c ∉ stripped_chars := by
    intro f hf
    simp only [List.mem_flatMap, List.mem_cons, List.mem_singleton, List.not_mem_nil,
      or_false] at hf
    obtain ⟨dp, hdp, rfl | rfl⟩ := hf
    · exact hD dp hdp
    · exact hP dp hdp
  have hfne : pairs.flatMap (fun dp => [dp.1, dp.2]) ≠ [] := by
    cases pairs with
    | nil => exact absurd rfl hne
    | cons a l => simp [List.flatMap_cons]
  have hclean : ∀ c ∈ claimed_input pairs, c ∉ stripped_chars := by
    intro c hc
    rcases mem_intercalate _ _ c hc with h | ⟨f, hf, hcf⟩
    · simp only [List.mem_singleton] at h
      subst h
      decide
    · exact ((hfield f hf).2 c hcf).2
  have hsplit : string_split (claimed_input pairs) '|' =
      pairs.flatMap (fun dp => [dp.1, dp.2]) := by
    apply split_intercalate _ _ hfne
    · intro f hf hmem
      exact ((hfield f hf).2 _ hmem).1 rfl
    · intro f hf
      exact (hfield f (List.mem_of_mem_getLast? hf)).1
  rw [(imgui_filter_clean _ hclean).1, hsplit, filter_loop_pairs pairs 0 [] rfl, List.nil_append,
    flatMap_comma (fun dp => dp.1 ++ ['{'] ++ claimed_pattern dp.2 ++ ['}']) pairs hne]
  have hcond : List.intercalate [',']
        (pairs.map (fun dp => dp.1 ++ ['{'] ++ claimed_pattern dp.2 ++ ['}'])) ++ [','] ≠ [] ∧
      (List.intercalate [',']
        (pairs.map (fun dp => dp.1 ++ ['{'] ++ claimed_pattern dp.2 ++ ['}'])) ++ [',']).getLast?
        = some ',' := by
    constructor
    · simp
    · simp
  rw [if_pos hcond]
  simp [claimed_output]

/-- Witness of C12: the example of the claim, `Images|*.png;*.jpg`, yields
`Images{.png,.jpg}`. -/
theorem filter_translation_of_pairs_witness :
    imgui_filter "Images|*.png;*.jpg".toList = "Images\x7b.png,.jpg\x7d".toList :=
  filter_translation_of_pairs [("Images".toList, "*.png;*.jpg".toList)]
    (by decide) (by decide) (by decide)

/-- C14: for the empty input, and for every input that consists only of the
characters `\r`, `\n`, `{`, `}` and `,`, both `imgui_filter` implementations
(src/filedialogs.cpp, and the MacOSX one with `is_folder` false) return the
match-everything filter `.*`. -/
theorem filter_of_stripped_input (input : Str) (h : ∀ c ∈ input, c ∈ stripped_chars) :
    imgui_filter input = ['.', '*'] ∧ MacOSX.imgui_filter input false = ['.', '*'] := by
  constructor
  · simp only [imgui_filter, strip_all input h]
    rfl
  · simp only [MacOSX.imgui_filter, strip_all input h]
    rfl

/-- Witness of C14: the empty input and the input `,{}` followed by a carriage
return and a line feed. -/
theorem filter_of_stripped_input_witness :
    (imgui_filter [] = ['.', '*'] ∧ MacOSX.imgui_filter [] false = ['.', '*']) ∧
    (imgui_filter [',', '{', '}', '\r', '\n'] = ['.', '*'] ∧
      MacOSX.imgui_filter [',', '{', '}', '\r', '\n'] false = ['.', '*']) :=
  ⟨filter_of_stripped_input [] (by decide),
   filter_of_stripped_input [',', '{', '}', '\r', '\n'] (by decide)⟩

/-- C15: a single trailing delimiter does not change the translation: for every
non-empty s that contains none of `\r`, `\n`, `{`, `}`, `,` and does not end
with `|`, `imgui_filter (s + "|")` equals `imgui_filter s`, in src/filedialogs.cpp
and, for either value of `is_folder`, in the MacOSX file; `string_split` yields
the same fields for both inputs. -/
theorem trailing_delimiter_ignored (s : Str) (hne : s ≠ [])
    (hclean : ∀ c ∈ s, c ∉ stripped_chars) (hlast : s.getLast? ≠ some '|') :
    string_split (s ++ ['|']) '|' = string_split s '|' ∧
    imgui_filter (s ++ ['|']) = imgui_filter s ∧
    ∀ is_folder, MacOSX.imgui_filter (s ++ ['|']) is_folder = MacOSX.imgui_filter s is_folder := by
  have hsplit : string_split (s ++ ['|']) '|' = string_split s '|' :=
    split_go_trailing '|' [] s (by simpa using hne) hlast
  have hclean2 : ∀ c ∈ s ++ ['|'], c ∉ stripped_chars := by
    intro c hc
    simp only [List.mem_append, List.mem_singleton] at hc
    rcases hc with hc | rfl
    · exact hclean c hc
    · decide
  refine ⟨hsplit, ?_, fun is_folder => ?_⟩
  · rw [(imgui_filter_clean _ hclean2).1, (imgui_filter_clean _ hclean).1, hsplit]
  · rw [(imgui_filter_clean _ hclean2).2, (imgui_filter_clean _ hclean).2, hsplit]

/-- Witness of C15: `Text|*.txt|` translates like `Text|*.txt`. -/
theorem trailing_delimiter_ignored_witness :
    imgui_filter ("Text|*.txt".toList ++ ['|']) = imgui_filter "Text|*.txt".toList :=
  (trailing_delimiter_ignored "Text|*.txt".toList (by decide) (by decide) (by decide)).2.1

end filedialogs

namespace dlgmodule

/-! ### Status and payload of the delivered maps -/

theorem delivered_get_integer (str : String) (def_ : Dbl) (id : Nat) (r : DialogResult)
    (s : State) :
    Thread.delivered (.get_integer_threaded str def_ id) r s =
      [("id", MapVal.dbl (Dbl.ofUnsigned id)),
       ("status", MapVal.dbl (if isnan r.num then .fin 0 else .fin 1)),
       ("value", MapVal.dbl (if isnan r.num then .fin 0 else r.num))] := by
  rw [(delivered_eq _ r s).1]
  simp [Thread.complete, Thread.body, exec, get_integer_threaded, stmtCreateDsMap,
    stmtDsMapAddDouble, stmtCreateAsynEventWithDSMap, stmtEnableDialogCreation,
    Host.CreateDsMap, Host.DsMapAddDouble, Host.CreateAsynEventWithDSMap,
    modify_length_append, getD_length_append]

theorem delivered_string_dialog (w : Thread) (r : DialogResult) (s : State)
    (h : w.returnsString = true) :
    w.delivered r s =
      [("id", MapVal.dbl (Dbl.ofUnsigned w.id)), ("status", MapVal.dbl (.fin 1)),
       ("result", MapVal.str r.text)] := by
  rw [(delivered_eq w r s).1]
  cases w <;> simp [Thread.returnsString] at h <;>
    simp [Thread.complete, Thread.body, exec, Thread.id,
      get_string_threaded, get_password_threaded,
      get_open_filename_threaded, get_open_filename_ext_threaded, get_open_filenames_threaded,
      get_open_filenames_ext_threaded, get_save_filename_threaded,
      get_save_filename_ext_threaded, get_directory_threaded, get_directory_alt_threaded,
      stmtCreateDsMap, stmtDsMapAddDouble,
      stmtDsMapAddString, stmtCreateAsynEventWithDSMap, stmtEnableDialogCreation,
      Host.CreateDsMap, Host.DsMapAddDouble, Host.DsMapAddString, Host.CreateAsynEventWithDSMap,
      modify_length_append, getD_length_append]

/-- C22: `get_integer_threaded` reports the NaN sentinel as a failure: when the
synchronous `get_integer` returns NaN the map delivered holds status 0 and
value 0, and for every result r that is not NaN it holds status 1 and value
r. -/
theorem get_integer_reports_nan (str : String) (def_ : Dbl) (id : Nat) (text : String)
    (s : State) :
    Thread.delivered (.get_integer_threaded str def_ id) ⟨.nan, text⟩ s =
      [("id", MapVal.dbl (Dbl.ofUnsigned id)), ("status", MapVal.dbl (.fin 0)),
       ("value", MapVal.dbl (.fin 0))] ∧
    ∀ r : Dbl, isnan r = false →
      Thread.delivered (.get_integer_threaded str def_ id) ⟨r, text⟩ s =
        [("id", MapVal.dbl (Dbl.ofUnsigned id)), ("status", MapVal.dbl (.fin 1)),
         ("value", MapVal.dbl r)] := by
  constructor
  · rw [delivered_get_integer]
    simp [isnan]
  · intro r hr
    rw [delivered_get_integer]
    simp [hr]

/-- C23: for every string-returning asynchronous dialog the map delivered is
`id`, `status` = 1, `result` = the string the dialog returned, whatever that
string is; so two runs whose dialogs return the same string (the empty one
after a cancellation and after a failed initialisation) deliver maps that
agree in everything after the `id` entry. -/
theorem string_dialog_status_is_constant (w1 w2 : Thread) (r1 r2 : DialogResult)
    (s1 s2 : State) (h1 : w1.returnsString = true) (h2 : w2.returnsString = true)
    (ht : r1.text = r2.text) :
    w1.delivered r1 s1 =
      [("id", MapVal.dbl (Dbl.ofUnsigned w1.id)), ("status", MapVal.dbl (.fin 1)),
       ("result", MapVal.str r1.text)] ∧
    w2.delivered r2 s2 =
      [("id", MapVal.dbl (Dbl.ofUnsigned w2.id)), ("status", MapVal.dbl (.fin 1)),
       ("result", MapVal.str r2.text)] ∧
    (w1.delivered r1 s1).tail = (w2.delivered r2 s2).tail := by
  rw [delivered_string_dialog w1 r1 s1 h1, delivered_string_dialog w2 r2 s2 h2, ht]
  exact ⟨rfl, rfl, rfl⟩

/-- Witness of C23: `get_open_filename` returning the empty string for worker
100 and `get_directory` returning the empty string for worker 101 (with
different numeric garbage) deliver the same `status` and `result`. -/
theorem string_dialog_status_is_constant_witness :
    (Thread.delivered (.get_open_filename_threaded "*.txt" "a.txt" 100) ⟨.nan, ""⟩
        State.initial).tail =
      (Thread.delivered (.get_directory_threaded "/tmp" 101) ⟨.fin 7, ""⟩ State.initial).tail :=
  (string_dialog_status_is_constant (.get_open_filename_threaded "*.txt" "a.txt" 100)
    (.get_directory_threaded "/tmp" 101) ⟨.nan, ""⟩ ⟨.fin 7, ""⟩ State.initial State.initial
    rfl rfl rfl).2.2

end dlgmodule

namespace filedialogs

/-! ### Recursion of the expansion, slash loops, file-name round trip -/

/-- C21: `environment_expand_variables` has no cycle guard.  In the environment
where `V` has the value `${V}`, the call on `${V}` makes its recursive call on
the identical string, so a call nested k deep is again a call on `${V}`, and
no bound on the depth of the recursion lets the function return. -/
theorem expand_self_reference_diverges :
    (['$', '{', 'V', '}'] : Str) =
      [] ++ environment_get_variable
        (fun n => if n = ['V'] then some ['$', '{', 'V', '}'] else none) ['V'] ++ [] ∧
    (∀ fuel,
      environment_expand_variables
          (fun n => if n = ['V'] then some ['$', '{', 'V', '}'] else none) (fuel + 1)
          ['$', '{', 'V', '}'] =
        environment_expand_variables
          (fun n => if n = ['V'] then some ['$', '{', 'V', '}'] else none) fuel
          ['$', '{', 'V', '}']) ∧
    (∀ fuel,
      environment_expand_variables
          (fun n => if n = ['V'] then some ['$', '{', 'V', '}'] else none) fuel
          ['$', '{', 'V', '}'] = none) := by
  have hget : environment_get_variable
      (fun n => if n = ['V'] then some ['$', '{', 'V', '}'] else none) ['V'] =
      ['$', '{', 'V', '}'] := by decide
  have hstep : ∀ fuel,
      environment_expand_variables
          (fun n => if n = ['V'] then some ['$', '{', 'V', '}'] else none) (fuel + 1)
          ['$', '{', 'V', '}'] =
        environment_expand_variables
          (fun n => if n = ['V'] then some ['$', '{', 'V', '}'] else none) fuel
          ['$', '{', 'V', '}'] := by
    intro fuel
    have h := expand_step (fun n => if n = ['V'] then some ['$', '{', 'V', '}'] else none)
      fuel [] ['V'] [] (by decide) (by decide)
    rw [hget] at h
    exact h
  refine ⟨by rw [hget]; rfl, hstep, ?_⟩
  intro fuel
  induction fuel with
  | zero => rfl
  | succ n ih => rw [hstep n, ih]

theorem remove_slash_loop_none (p : Platform) (l : Str) :
    filename_remove_slash.loop p l = none ↔
      ∀ c ∈ l, c = '/' ∨ (p = .win32 ∧ c = '\\') := by
  induction l with
  | nil => simp [filename_remove_slash.loop]
  | cons c cs ih =>
    unfold filename_remove_slash.loop
    by_cases hc : c = '/' ∨ (p = .win32 ∧ c = '\\')
    · rw [if_pos hc, ih]
      constructor
      · intro h x hx
        rcases List.mem_cons.mp hx with rfl | hx
        · exact hc
        · exact h x hx
      · intro h x hx
        exact h x (List.mem_cons_of_mem _ hx)
    · rw [if_neg hc]
      constructor
      · intro h; cases h
      · intro h
        exact absurd (h c (List.mem_cons_self _ _)) hc

/-- C24: in `filename_remove_slash` with `canonical` false on a non-Windows
build, the loop evaluates `back()` on an empty string if and only if `dname`
consists solely of `/` characters; this includes the empty string and the root
directory `/`. -/
theorem remove_slash_back_on_empty (fs : FileSystem) (dname : Str) :
    (filename_remove_slash .other fs dname false = none ↔ ∀ c ∈ dname, c = '/') ∧
    (filename_remove_slash .apple fs dname false = none ↔ ∀ c ∈ dname, c = '/') ∧
    filename_remove_slash .other fs [] false = none ∧
    filename_remove_slash .other fs ['/'] false = none := by
  refine ⟨?_, ?_, ?_, ?_⟩
  · simp [filename_remove_slash, remove_slash_loop_none]
  · simp [filename_remove_slash, remove_slash_loop_none]
  · simp [filename_remove_slash, filename_remove_slash.loop]
  · simp [filename_remove_slash, filename_remove_slash.loop]

end filedialogs

namespace MacOSX

open filedialogs (Str Platform DialogType Setup Call Outcome)

theorem expand_posix_of_absolute (fs : FileSystem) (dname a : Str)
    (ha : fs.absolute (fs.environment_expand_variables dname) = some a)
    (hroot : a.head? = some '/') :
    expand_without_trailing_slash .other fs dname = a ∧
    expand_without_trailing_slash .apple fs dname = a := by
  have hloop : expand_without_trailing_slash.posix a.length a = a := by
    cases hl : a.length with
    | zero => rfl
    | succ n =>
      unfold expand_without_trailing_slash.posix
      rw [if_neg]
      rintro ⟨_, _, h, _⟩
      exact h hroot
  constructor <;> simp [expand_without_trailing_slash, ha, hloop]

/-- C25: the code does not do what the claim says.  On a non-Windows build the
loop of `expand_without_trailing_slash` requires `dname[0] != '/'`, so for
every absolutized path, which begins with `/`, it removes nothing: the path is
returned as `absolute` delivered it, `/tmp/` and `/tmp//` with their trailing
slashes. -/
theorem expand_keeps_trailing_slash :
    (∀ (fs : FileSystem) (dname a : Str),
      fs.absolute (fs.environment_expand_variables dname) = some a → a.head? = some '/' →
        expand_without_trailing_slash .other fs dname = a ∧
        expand_without_trailing_slash .apple fs dname = a) ∧
    expand_without_trailing_slash .other
      { environment_expand_variables := id, absolute := fun d => some d,
        root_name := fun _ => [] } "/tmp/".toList = "/tmp/".toList ∧
    expand_without_trailing_slash .other
      { environment_expand_variables := id, absolute := fun d => some d,
        root_name := fun _ => [] } "/tmp//".toList = "/tmp//".toList := by
  refine ⟨expand_posix_of_absolute, ?_, ?_⟩ <;> decide

end MacOSX

namespace filedialogs

theorem find_last_of_none (str : Str) (chars : List Char) :
    find_last_of str chars = none ↔ ∀ c ∈ str, c ∉ chars := by
  induction str with
  | nil => simp [find_last_of]
  | cons c cs ih =>
    unfold find_last_of
    cases h : find_last_of cs chars with
    | some i =>
      simp only [reduceCtorEq, false_iff]
      intro hall
      have : find_last_of cs chars = none :=
        ih.mpr (fun x hx => hall x (List.mem_cons_of_mem _ hx))
      rw [h] at this
      cases this
    | none =>
      have hcs := ih.mp h
      by_cases hc : c ∈ chars
      · simp only [hc, if_true, reduceCtorEq, false_iff]
        intro hall
        exact hall c (List.mem_cons_self _ _) hc
      · simp only [hc, if_false, true_iff]
        intro x hx
        rcases List.mem_cons.mp hx with rfl | hx
        · exact hc
        · exact hcs x hx

theorem path_name_of_separator (p : Platform) (fname : Str)
    (h : ∃ c ∈ fname, c ∈ separators p) :
    filename_path p fname ++ filename_name p fname = fname := by
  unfold filename_path filename_name
  cases hf : find_last_of fname (separators p) with
  | none =>
    obtain ⟨c, hc, hs⟩ := h
    exact absurd hs ((find_last_of_none _ _).mp hf c hc)
  | some fp => exact List.take_append_drop _ _

theorem path_name_of_no_separator (p : Platform) (fname : Str) (hne : fname ≠ [])
    (h : ∀ c ∈ fname, c ∉ separators p) :
    filename_path p fname = fname ∧ filename_name p fname = fname ∧
      filename_path p fname ++ filename_name p fname ≠ fname := by
  have hf := (find_last_of_none _ _).mpr h
  have h1 : filename_path p fname = fname := by simp [filename_path, hf]
  have h2 : filename_name p fname = fname := by simp [filename_name, hf]
  refine ⟨h1, h2, ?_⟩
  rw [h1, h2]
  intro e
  have := congrArg List.length e
  simp only [List.length_append] at this
  have hpos : 0 < fname.length := List.length_pos.mpr hne
  omega

/-- C30, as stated, fails in its second half on a Windows build: `a\b` is not
empty and contains no `/`, but `find_last_of` also looks for the backslash, so
`filename_path` gives `a\`, `filename_name` gives `b`, neither is the input,
and the round trip succeeds. -/
theorem backslash_name_round_trips_on_windows :
    ('/' ∉ ['a', '\\', 'b'] ∧ (['a', '\\', 'b'] : Str) ≠ []) ∧
    filename_path .win32 ['a', '\\', 'b'] = ['a', '\\'] ∧
    filename_name .win32 ['a', '\\', 'b'] = ['b'] ∧
    filename_path .win32 ['a', '\\', 'b'] ++ filename_name .win32 ['a', '\\', 'b'] =
      ['a', '\\', 'b'] := by
  decide

/-- C30 (amended): for every fname that contains at least one `/`,
`filename_path fname` followed by `filename_name fname` equals fname, on every
build.  The round trip fails for a non-empty fname that contains no separator
(no `/`, and on a Windows build no backslash either), where both functions
return fname itself; on a non-Windows build that is every non-empty fname
with no `/`. -/
theorem path_name_round_trip (p : Platform) (fname : Str) :
    ('/' ∈ fname → filename_path p fname ++ filename_name p fname = fname) ∧
    (fname ≠ [] → (∀ c ∈ fname, c ∉ separators p) →
      filename_path p fname = fname ∧ filename_name p fname = fname ∧
        filename_path p fname ++ filename_name p fname ≠ fname) ∧
    (p ≠ .win32 → fname ≠ [] → '/' ∉ fname →
      filename_path p fname = fname ∧ filename_name p fname = fname ∧
        filename_path p fname ++ filename_name p fname ≠ fname) := by
  refine ⟨fun h => ?_, path_name_of_no_separator p fname, fun hp hne h => ?_⟩
  · apply path_name_of_separator
    refine ⟨'/', h, ?_⟩
    unfold separators
    split <;> simp
  · apply path_name_of_no_separator p fname hne
    intro c hc hs
    simp only [separators, if_neg hp, List.mem_singleton] at hs
    subst hs
    exact h hc

/-- Witness of C30 (amended): `/a/b.txt` splits into `/a/` and `b.txt`; `b.txt`
is returned whole by both functions. -/
theorem path_name_round_trip_witness :
    (filename_path .other "/a/b.txt".toList ++ filename_name .other "/a/b.txt".toList =
      "/a/b.txt".toList) ∧
    (filename_path .other "b.txt".toList = "b.txt".toList ∧
      filename_name .other "b.txt".toList = "b.txt".toList ∧
      filename_path .other "b.txt".toList ++ filename_name .other "b.txt".toList ≠
        "b.txt".toList) :=
  ⟨(path_name_round_trip .other "/a/b.txt".toList).1 (by decide),
   (path_name_round_trip .other "b.txt".toList).2.2 (by decide) (by decide) (by decide)⟩

end filedialogs

namespace filedialogs

/-! ### Termination of the expansion -/

theorem find_some_split (substr str : Str) (i : Nat) (h : find str substr = some i) :
    str = str.take i ++ (substr ++ str.drop (i + substr.length)) := by
  induction str generalizing i with
  | nil =>
    unfold find at h
    by_cases hp : substr <+: []
    · rw [if_pos hp] at h
      cases h
      have : substr = [] := List.prefix_nil.mp hp
      subst this
      rfl
    · rw [if_neg hp] at h
      cases h
  | cons c cs ih =>
    unfold find at h
    by_cases hp : substr <+: c :: cs
    · rw [if_pos hp] at h
      cases h
      obtain ⟨t, ht⟩ := hp
      rw [← ht]
      simp
    · rw [if_neg hp] at h
      change Option.map (fun i => i + 1) (find cs substr) = some i at h
      cases hj : find cs substr with
      | none => rw [hj] at h; cases h
      | some j =>
        rw [hj] at h
        simp only [Option.map_some', Option.some.injEq] at h
        subst h
        have e := ih j hj
        have hd : (c :: cs).drop (j + 1 + substr.length) = cs.drop (j + substr.length) := by
          rw [show j + 1 + substr.length = (j + substr.length) + 1 by omega, List.drop_succ_cons]
        rw [List.take_succ_cons, hd, List.cons_append, ← e]

theorem count_get_variable (env : Env) (henv : ∀ n v, env n = some v → '{' ∉ v) (name : Str) :
    (environment_get_variable env name).count '{' = 0 := by
  unfold environment_get_variable
  cases h : env (c_str name) with
  | none => rfl
  | some v => exact List.count_eq_zero.mpr (henv _ v h)

theorem expand_argument_decreases (env : Env) (henv : ∀ n v, env n = some v → '{' ∉ v)
    (str : Str) (i j : Nat) (hi : find str ['$', '{'] = some i)
    (hj : find (str.drop (i + 2)) ['}'] = some j) :
    (str.take i ++ environment_get_variable env ((str.drop (i + 2)).take j)
        ++ (str.drop (i + 2)).drop (j + 1)).count '{' < str.count '{' := by
  have e1 := find_some_split _ _ _ hi
  have e2 := find_some_split _ _ _ hj
  simp only [List.length_cons, List.length_nil] at e1 e2
  have c1 := congrArg (List.count '{') e1
  have c2 := congrArg (List.count '{') e2
  generalize str.drop (i + 2) = post at c1 c2 ⊢
  generalize post.drop (j + 1) = rest at c2 ⊢
  generalize post.take j = name at c2 ⊢
  generalize str.take i = pre at c1 ⊢
  have k1 : List.count '{' ['$', '{'] = 1 := by decide
  have k2 : List.count '{' ['}'] = 0 := by decide
  simp only [List.count_append, k1, k2] at c1 c2
  simp only [List.count_append, count_get_variable env henv]
  omega

theorem expand_terminates (env : Env) (henv : ∀ n v, env n = some v → '{' ∉ v) :
    ∀ (fuel : Nat) (str : Str), str.count '{' < fuel →
      ∃ r, environment_expand_variables env fuel str = some r := by
  intro fuel
  induction fuel with
  | zero => intro str h; omega
  | succ n ih =>
    intro str hlt
    rw [environment_expand_variables]
    cases hi : find str ['$', '{'] with
    | none => exact ⟨str, rfl⟩
    | some i =>
      cases hj : find (str.drop (i + 2)) ['}'] with
      | none => exact ⟨str, by simp only [hj]⟩
      | some j =>
        simp only [hj]
        apply ih
        have := expand_argument_decreases env henv str i j hi hj
        omega

/-- C29: whenever no environment variable has a value that contains `{`,
`environment_expand_variables` terminates for every input: each recursive call
is made on a string with strictly fewer `{` than the argument of the call
that makes it, and a depth of one more than the number of `{` in the input
(or any larger bound) lets the function return. -/
theorem expand_terminates_without_braces (env : Env)
    (henv : ∀ n v, env n = some v → '{' ∉ v) :
    (∀ (str : Str) (fuel : Nat), str.count '{' < fuel →
      ∃ r, environment_expand_variables env fuel str = some r) ∧
    (∀ (str : Str) (i j : Nat), find str ['$', '{'] = some i →
      find (str.drop (i + 2)) ['}'] = some j →
      (str.take i ++ environment_get_variable env ((str.drop (i + 2)).take j)
          ++ (str.drop (i + 2)).drop (j + 1)).count '{' < str.count '{') :=
  ⟨fun str fuel h => expand_terminates env henv fuel str h,
   fun str i j hi hj => expand_argument_decreases env henv str i j hi hj⟩

/-- Witness of C29: with `A` set to `x$B` and `B` set to `y`, values without a
brace, the text `${A}${B}` (two braces) returns within depth three. -/
theorem expand_terminates_without_braces_witness :
    ∃ r, environment_expand_variables
      (fun n => if n = ['A'] then some ['x', '$', 'B'] else
        if n = ['B'] then some ['y'] else none) 3
      ['$', '{', 'A', '}', '$', '{', 'B', '}'] = some r :=
  (expand_terminates_without_braces
    (fun n => if n = ['A'] then some ['x', '$', 'B'] else
      if n = ['B'] then some ['y'] else none)
    (by
      intro n v h
      by_cases hA : n = ['A']
      · simp [hA] at h
        subst h
        decide
      · by_cases hB : n = ['B']
        · simp [hB] at h
          subst h
          decide
        · simp [hA, hB] at h)).1
    ['$', '{', 'A', '}', '$', '{', 'B', '}'] 3 (by decide)

end filedialogs

namespace MacOSX

open filedialogs (Str Platform DialogType Setup Call Outcome)

/-! ### The filter handed to the library by the MacOSX entry points -/

theorem render_loop_filter_mac (p : Platform) (fs : FileSystem) (filterNew fname : Str)
    (type : DialogType) (ht : type ≠ .selectFolder) (frames : List Frame) (dir result : Str) :
    ∀ c ∈ (render_loop p fs filterNew fname type frames dir result).calls,
      (∀ key ttl flt multi file start,
        c = Call.Open key ttl flt multi file start → flt = filterNew) ∧
      (∀ key ttl flt file start, c = Call.Save key ttl flt file start → flt = filterNew) := by
  cases type with
  | selectFolder => exact absurd rfl ht
  | _ =>
  induction frames generalizing dir result with
  | nil => intro c hc; simp [render_loop] at hc
  | cons f frames ih =>
    intro c hc
    unfold render_loop at hc
    simp only [] at hc
    split at hc
    · simp only [List.mem_cons, List.mem_singleton, List.not_mem_nil, or_false] at hc
      rcases hc with rfl | rfl | rfl | rfl <;>
        (simp; try (intros; first | assumption | (symm; assumption)))
    · split at hc
      · simp only [List.mem_cons, List.mem_singleton, List.not_mem_nil, or_false] at hc
        rcases hc with rfl | rfl | rfl | rfl <;>
          (simp; try (intros; first | assumption | (symm; assumption)))
      · split at hc
        · simp only [List.mem_cons, List.mem_singleton, List.not_mem_nil, or_false] at hc
          rcases hc with rfl | rfl | rfl | rfl <;>
            (simp; try (intros; first | assumption | (symm; assumption)))
        · split at hc
          · simp only [List.mem_cons, List.mem_singleton, List.not_mem_nil, or_false] at hc
            rcases hc with rfl | rfl | rfl | rfl <;>
              (simp; try (intros; first | assumption | (symm; assumption)))
          · split at hc
            · simp only [List.mem_cons, List.mem_singleton, List.not_mem_nil, or_false] at hc
              rcases hc with rfl | rfl | rfl <;>
                (simp; try (intros; first | assumption | (symm; assumption)))
            · simp only [List.mem_append, List.mem_cons, List.mem_singleton, List.not_mem_nil,
                or_false] at hc
              rcases hc with (rfl | rfl | rfl) | hc
              · simp
              · simp; try (intros; first | assumption | (symm; assumption))
              · simp
              · exact ih _ _ c hc

theorem helper_filter_mac (p : Platform) (su : Setup) (fs : FileSystem) (frames : List Frame)
    (filter fname dir title : Str) (type : DialogType) (ht : type ≠ .selectFolder) :
    ∀ c ∈ (file_dialog_helper p su fs frames filter fname dir title type).calls,
      (∀ key ttl flt multi file start,
        c = Call.Open key ttl flt multi file start → flt = imgui_filter filter false) ∧
      (∀ key ttl flt file start,
        c = Call.Save key ttl flt file start → flt = imgui_filter filter false) := by
  intro c hc
  have key := render_loop_filter_mac p fs (imgui_filter filter false) fname type ht frames dir []
  have hd : decide (type = DialogType.selectFolder) = false := by simp [ht]
  simp only [file_dialog_helper, hd] at hc
  generalize render_loop p fs (imgui_filter filter false) fname type frames dir [] = o at hc key
  obtain ⟨calls, result⟩ := o
  cases result <;> by_cases h0 : su.SDL_Init = 0 <;> cases hw : su.SDL_CreateWindow <;>
    by_cases hp : p = .apple <;> cases hre : su.SDL_CreateRenderer <;>
    cases hwm : su.SDL_GetWindowWMInfo <;>
    simp [h0, hw, hp, hre, hwm] at hc <;>
    (first
      | exact key _ hc
      | (rcases hc with hc | hc | hc | hc | hc | hc | hc | hc | hc | hc <;>
          first | exact key _ hc | (subst hc; simp))
      | (rcases hc with hc | hc | hc | hc | hc | hc | hc | hc | hc <;>
          first | exact key _ hc | (subst hc; simp))
      | (rcases hc with hc | hc | hc | hc | hc | hc | hc | hc <;>
          first | exact key _ hc | (subst hc; simp))
      | (rcases hc with hc | hc | hc | hc | hc | hc | hc <;>
          first | exact key _ hc | (subst hc; simp))
      | (rcases hc with hc | hc | hc | hc | hc | hc <;>
          first | exact key _ hc | (subst hc; simp))
      | (rcases hc with hc | hc | hc | hc | hc <;>
          first | exact key _ hc | (subst hc; simp))
      | (rcases hc with hc | hc | hc | hc <;>
          first | exact key _ hc | (subst hc; simp))
      | (rcases hc with hc | hc | hc <;>
          first | exact key _ hc | (subst hc; simp))
      | (rcases hc with hc | hc <;>
          first | exact key _ hc | (subst hc; simp))
      | (subst hc; simp))

theorem render_loop_opens_mac (p : Platform) (fs : FileSystem) (filterNew fname : Str)
    (f : Frame) (frames : List Frame) (dir result : Str) :
    Call.Open "GetOpenFileName".toList "Open".toList filterNew false fname
        (expand_without_trailing_slash p fs dir) ∈
      (render_loop p fs filterNew fname .openFile (f :: frames) dir result).calls ∧
    Call.Open "GetOpenFileNames".toList "Open".toList filterNew true fname
        (expand_without_trailing_slash p fs dir) ∈
      (render_loop p fs filterNew fname .openFiles (f :: frames) dir result).calls ∧
    Call.Save "GetSaveFileName".toList "Save As".toList filterNew fname
        (expand_without_trailing_slash p fs dir) ∈
      (render_loop p fs filterNew fname .saveFile (f :: frames) dir result).calls := by
  refine ⟨?_, ?_, ?_⟩ <;>
    (unfold render_loop
     simp only []
     split_ifs <;> simp)

theorem helper_reaches_loop_mac (p : Platform) (su : Setup) (fs : FileSystem)
    (frames : List Frame) (filter fname dir title : Str) (type : DialogType)
    (h0 : su.SDL_Init = 0) (hw : su.SDL_CreateWindow = true)
    (hr : p = .apple → su.SDL_CreateRenderer = true) (hwm : su.SDL_GetWindowWMInfo = true) :
    ∀ c ∈ (render_loop p fs (imgui_filter filter (decide (type = .selectFolder))) fname type
        frames dir []).calls,
      c ∈ (file_dialog_helper p su fs frames filter fname dir title type).calls := by
  intro c hc
  simp only [file_dialog_helper]
  generalize render_loop p fs (imgui_filter filter (decide (type = .selectFolder))) fname type
    frames dir [] = o at hc
  obtain ⟨calls, result⟩ := o
  by_cases hp : p = .apple
  · have hre := hr hp
    cases result <;> simp [h0, hw, hwm, hp, hre] <;> simp_all
  · cases result <;> simp [h0, hw, hwm, hp] <;> simp_all

/-- C26: each of the six MacOSX entry points that takes a filter, called with
the empty filter, runs the helper with `*.*` in its place, and the filter
handed to the dialog library is `imgui_filter("*.*", false)`, which is
`*.*{.*`: every `Open` and `Save` call of the run carries it, and whenever
the set-up succeeds and the render loop runs at least once, each of the six
makes its `Open` (or `Save`) call with that filter. -/
theorem empty_filter_becomes_catch_all (p : Platform) (su : Setup) (fs : FileSystem)
    (frames : List Frame) (home fname dir title : Str) :
    imgui_filter "*.*".toList false = "*.*\x7b.*".toList ∧
    (get_open_filename p su fs frames home [] fname =
        file_dialog_helper p su fs frames "*.*".toList fname home "Open".toList .openFile ∧
      get_open_filename_ext p su fs frames home [] fname dir title =
        file_dialog_helper p su fs frames "*.*".toList fname (if dir = [] then home else dir)
          title .openFile ∧
      get_open_filenames p su fs frames home [] fname =
        file_dialog_helper p su fs frames "*.*".toList fname home "Open".toList .openFiles ∧
      get_open_filenames_ext p su fs frames home [] fname dir title =
        file_dialog_helper p su fs frames "*.*".toList fname (if dir = [] then home else dir)
          title .openFiles ∧
      get_save_filename p su fs frames home [] fname =
        file_dialog_helper p su fs frames "*.*".toList fname home "Save As".toList .saveFile ∧
      get_save_filename_ext p su fs frames home [] fname dir title =
        file_dialog_helper p su fs frames "*.*".toList fname (if dir = [] then home else dir)
          title .saveFile) ∧
    (∀ o ∈ [get_open_filename p su fs frames home [] fname,
          get_open_filename_ext p su fs frames home [] fname dir title,
          get_open_filenames p su fs frames home [] fname,
          get_open_filenames_ext p su fs frames home [] fname dir title,
          get_save_filename p su fs frames home [] fname,
          get_save_filename_ext p su fs frames home [] fname dir title],
      ∀ c ∈ o.calls,
        (∀ key ttl flt multi file start,
          c = Call.Open key ttl flt multi file start → flt = "*.*\x7b.*".toList) ∧
        (∀ key ttl flt file start,
          c = Call.Save key ttl flt file start → flt = "*.*\x7b.*".toList)) ∧
    (su.SDL_Init = 0 → su.SDL_CreateWindow = true →
      (p = .apple → su.SDL_CreateRenderer = true) → su.SDL_GetWindowWMInfo = true →
      frames ≠ [] →
        Call.Open "GetOpenFileName".toList "Open".toList "*.*\x7b.*".toList false fname
            (expand_without_trailing_slash p fs home) ∈
          (get_open_filename p su fs frames home [] fname).calls ∧
        Call.Open "GetOpenFileName".toList "Open".toList "*.*\x7b.*".toList false fname
            (expand_without_trailing_slash p fs (if dir = [] then home else dir)) ∈
          (get_open_filename_ext p su fs frames home [] fname dir title).calls ∧
        Call.Open "GetOpenFileNames".toList "Open".toList "*.*\x7b.*".toList true fname
            (expand_without_trailing_slash p fs home) ∈
          (get_open_filenames p su fs frames home [] fname).calls ∧
        Call.Open "GetOpenFileNames".toList "Open".toList "*.*\x7b.*".toList true fname
            (expand_without_trailing_slash p fs (if dir = [] then home else dir)) ∈
          (get_open_filenames_ext p su fs frames home [] fname dir title).calls ∧
        Call.Save "GetSaveFileName".toList "Save As".toList "*.*\x7b.*".toList fname
            (expand_without_trailing_slash p fs home) ∈
          (get_save_filename p su fs frames home [] fname).calls ∧
        Call.Save "GetSaveFileName".toList "Save As".toList "*.*\x7b.*".toList fname
            (expand_without_trailing_slash p fs (if dir = [] then home else dir)) ∈
          (get_save_filename_ext p su fs frames home [] fname dir title).calls) ∧
    Call.Open "GetOpenFileName".toList "Open".toList "*.*\x7b.*".toList false "a.txt".toList
        "/home/u".toList ∈
      (get_open_filename .other
        { SDL_Init := 0, SDL_CreateWindow := true, SDL_CreateRenderer := true,
          SDL_GetWindowWMInfo := true, SDL_GL_CreateContext := true }
        { environment_expand_variables := fun s => s, absolute := fun s => some s,
          root_name := fun _ => [] }
        [{ events := [true], IsDone := fun _ => false, HasResult := false, GetResult := [],
           GetResults := [] }]
        "/home/u".toList [] "a.txt".toList).calls := by
  have hf : imgui_filter "*.*".toList false = "*.*\x7b.*".toList := by decide
  refine ⟨hf, ⟨rfl, rfl, rfl, rfl, rfl, rfl⟩, ?_, ?_, by decide⟩
  · intro o ho
    simp only [List.mem_cons, List.mem_singleton, List.not_mem_nil, or_false] at ho
    rcases ho with rfl | rfl | rfl | rfl | rfl | rfl
    · have h := helper_filter_mac p su fs frames "*.*".toList fname home "Open".toList .openFile
        (by decide)
      rw [hf] at h
      exact h
    · have h := helper_filter_mac p su fs frames "*.*".toList fname
        (if dir = [] then home else dir) title .openFile (by decide)
      rw [hf] at h
      exact h
    · have h := helper_filter_mac p su fs frames "*.*".toList fname home "Open".toList
        .openFiles (by decide)
      rw [hf] at h
      exact h
    · have h := helper_filter_mac p su fs frames "*.*".toList fname
        (if dir = [] then home else dir) title .openFiles (by decide)
      rw [hf] at h
      exact h
    · have h := helper_filter_mac p su fs frames "*.*".toList fname home "Save As".toList
        .saveFile (by decide)
      rw [hf] at h
      exact h
    · have h := helper_filter_mac p su fs frames "*.*".toList fname
        (if dir = [] then home else dir) title .saveFile (by decide)
      rw [hf] at h
      exact h
  · intro h0 hw hr hwm hfr
    obtain ⟨f, rest, rfl⟩ := List.exists_cons_of_ne_nil hfr
    have d1 : decide (DialogType.openFile = DialogType.selectFolder) = false := by decide
    have d2 : decide (DialogType.openFiles = DialogType.selectFolder) = false := by decide
    have d3 : decide (DialogType.saveFile = DialogType.selectFolder) = false := by decide
    have reach := fun d ttl type =>
      helper_reaches_loop_mac p su fs (f :: rest) "*.*".toList fname d ttl type h0 hw hr hwm
    have loop := fun d =>
      render_loop_opens_mac p fs "*.*\x7b.*".toList fname f rest d []
    refine ⟨?_, ?_, ?_, ?_, ?_, ?_⟩
    · have r := reach home "Open".toList .openFile
      rw [d1, hf] at r
      exact r _ (loop home).1
    · have r := reach (if dir = [] then home else dir) title .openFile
      rw [d1, hf] at r
      exact r _ (loop _).1
    · have r := reach home "Open".toList .openFiles
      rw [d2, hf] at r
      exact r _ (loop home).2.1
    · have r := reach (if dir = [] then home else dir) title .openFiles
      rw [d2, hf] at r
      exact r _ (loop _).2.1
    · have r := reach home "Save As".toList .saveFile
      rw [d3, hf] at r
      exact r _ (loop home).2.2
    · have r := reach (if dir = [] then home else dir) title .saveFile
      rw [d3, hf] at r
      exact r _ (loop _).2.2

/-- Witness of C26: on a Linux build with a successful set-up and one frame in
which the user closes the window, `get_save_filename` with the empty filter
and `get_open_filenames_ext` with the empty filter and the directory `/tmp`
hand `*.*{.*` to the library. -/
theorem empty_filter_becomes_catch_all_witness :
    Call.Save "GetSaveFileName".toList "Save As".toList "*.*\x7b.*".toList "a.txt".toList
        "/home/u".toList ∈
      (get_save_filename .other
        { SDL_Init := 0, SDL_CreateWindow := true, SDL_CreateRenderer := true,
          SDL_GetWindowWMInfo := true, SDL_GL_CreateContext := true }
        { environment_expand_variables := fun s => s, absolute := fun s => some s,
          root_name := fun _ => [] }
        [{ events := [true], IsDone := fun _ => false, HasResult := false, GetResult := [],
           GetResults := [] }]
        "/home/u".toList [] "a.txt".toList).calls ∧
    Call.Open "GetOpenFileNames".toList "Open".toList "*.*\x7b.*".toList true "a.txt".toList
        "/tmp".toList ∈
      (get_open_filenames_ext .other
        { SDL_Init := 0, SDL_CreateWindow := true, SDL_CreateRenderer := true,
          SDL_GetWindowWMInfo := true, SDL_GL_CreateContext := true }
        { environment_expand_variables := fun s => s, absolute := fun s => some s,
          root_name := fun _ => [] }
        [{ events := [true], IsDone := fun _ => false, HasResult := false, GetResult := [],
           GetResults := [] }]
        "/home/u".toList [] "a.txt".toList "/tmp".toList "Pick".toList).calls :=
  have h := (empty_filter_becomes_catch_all .other
    { SDL_Init := 0, SDL_CreateWindow := true, SDL_CreateRenderer := true,
      SDL_GetWindowWMInfo := true, SDL_GL_CreateContext := true }
    { environment_expand_variables := fun s => s, absolute := fun s => some s,
      root_name := fun _ => [] }
    [{ events := [true], IsDone := fun _ => false, HasResult := false, GetResult := [],
       GetResults := [] }]
    "/home/u".toList "a.txt".toList "/tmp".toList "Pick".toList).2.2.2.1
    rfl rfl (by decide) rfl (by simp)
  ⟨h.2.2.2.2.1, h.2.2.2.1⟩

end MacOSX

namespace filedialogs

/-! ### Braces in the output of `imgui_filter` -/

theorem strip_eq_claimed_stripped (input : Str) :
    string_replace_all
      (string_replace_all
        (string_replace_all
          (string_replace_all (string_replace_all input ['\r'] []) ['\n'] []) ['{'] [])
        ['}'] [])
      [','] [] = claimed_stripped input := by
  simp only [replace_all_remove_char, List.filter_filter, claimed_stripped]
  apply List.filter_congr
  intro a _
  simp only [stripped_chars, List.mem_cons, List.mem_singleton, List.not_mem_nil, or_false]
  by_cases h1 : a = '\r' <;> by_cases h2 : a = '\n' <;> by_cases h3 : a = '{' <;>
    by_cases h4 : a = '}' <;> by_cases h5 : a = ',' <;> simp [h1, h2, h3, h4, h5]

theorem claimed_stripped_free (input : Str) : ∀ c ∈ claimed_stripped input, c ∉ stripped_chars := by
  intro c hc
  simpa [claimed_stripped] using (List.mem_filter.mp hc).2

theorem split_go_mem (delim : Char) (tmp s : Str) :
    ∀ f ∈ string_split.go delim tmp s, ∀ c ∈ f, c ∈ tmp ∨ c ∈ s := by
  induction s generalizing tmp with
  | nil =>
    intro f hf c hc
    by_cases ht : tmp = []
    · simp [string_split.go, ht] at hf
    · simp [string_split.go, ht] at hf
      subst hf
      exact Or.inl hc
  | cons x xs ih =>
    intro f hf c hc
    by_cases hx : x = delim
    · simp only [string_split.go, if_pos hx, List.mem_cons] at hf
      rcases hf with rfl | hf
      · exact Or.inl hc
      · rcases ih [] f hf c hc with h | h
        · simp at h
        · exact Or.inr (List.mem_cons_of_mem _ h)
    · simp only [string_split.go, if_neg hx] at hf
      rcases ih _ f hf c hc with h | h
      · simp only [List.mem_append, List.mem_singleton] at h
        rcases h with h | rfl
        · exact Or.inl h
        · exact Or.inr (by simp)
      · exact Or.inr (List.mem_cons_of_mem _ h)

theorem claimed_star_dot_mem (s : Str) : ∀ c ∈ claimed_star_dot s, c ∈ s := by
  induction s using claimed_star_dot.induct with
  | case1 => intro c hc; simp [claimed_star_dot] at hc
  | case2 x => intro c hc; simpa [claimed_star_dot] using hc
  | case3 x d rest hcd ih =>
    intro c hc
    simp only [claimed_star_dot, if_pos hcd, List.mem_cons] at hc
    rcases hc with rfl | hc
    · simp [hcd.2]
    · exact List.mem_cons_of_mem _ (List.mem_cons_of_mem _ (ih c hc))
  | case4 x d rest hcd ih =>
    intro c hc
    simp only [claimed_star_dot, if_neg hcd, List.mem_cons] at hc
    rcases hc with rfl | hc
    · simp
    · exact List.mem_cons_of_mem _ (by simpa using ih c hc)

theorem filter_loop_acc (fields : List Str) (index : Nat) (out : Str) :
    imgui_filter.loop fields index out = out ++ imgui_filter.loop fields index [] := by
  induction fields generalizing index out with
  | nil => simp [imgui_filter.loop]
  | cons f rest ih =>
    by_cases h : index % 2 = 0
    · simp only [imgui_filter.loop, if_pos h, List.nil_append]
      rw [ih (index + 1) (out ++ (f ++ ['{'])), ih (index + 1) (f ++ ['{'])]
      simp
    · simp only [imgui_filter.loop, if_neg h, List.nil_append]
      rw [ih (index + 1) (out ++ _), ih (index + 1) (_ ++ ['}', ','])]
      simp

theorem pattern_free (f : Str) (x : Char) (hx : x ≠ ',') (h : x ∉ f) :
    x ∉ string_replace_all (f.map (fun c => if c = ';' then ',' else c)) ['*', '.'] ['.'] := by
  rw [replace_star_dot]
  intro hm
  have hm2 := claimed_star_dot_mem _ x hm
  simp only [List.mem_map] at hm2
  obtain ⟨a, ha, e⟩ := hm2
  by_cases hs : a = ';'
  · rw [if_pos hs] at e
    exact hx e.symm
  · rw [if_neg hs] at e
    exact h (e ▸ ha)

theorem filter_loop_braces (fields : List Str) (index : Nat)
    (h : ∀ f ∈ fields, '{' ∉ f ∧ '}' ∉ f) :
    (imgui_filter.loop fields index []).count '{' =
        (if index % 2 = 0 then (fields.length + 1) / 2 else fields.length / 2) ∧
    (imgui_filter.loop fields index []).count '}' =
        (if index % 2 = 0 then fields.length / 2 else (fields.length + 1) / 2) := by
  induction fields generalizing index with
  | nil => by_cases hi : index % 2 = 0 <;> simp [imgui_filter.loop, hi]
  | cons f rest ih =>
    have hf := h f (by simp)
    have ihr := ih (index + 1) (fun g hg => h g (List.mem_cons_of_mem _ hg))
    have k1 : List.count '{' ['{'] = 1 := by decide
    have k2 : List.count '}' ['{'] = 0 := by decide
    have k3 : List.count '{' ['}', ','] = 0 := by decide
    have k4 : List.count '}' ['}', ','] = 1 := by decide
    by_cases hi : index % 2 = 0
    · have hi1 : ¬ (index + 1) % 2 = 0 := by omega
      simp only [if_neg hi1] at ihr
      simp only [imgui_filter.loop, if_pos hi, List.nil_append, List.length_cons]
      rw [filter_loop_acc]
      simp only [List.count_append, List.count_eq_zero_of_not_mem hf.1,
        List.count_eq_zero_of_not_mem hf.2, k1, k2, ihr.1, ihr.2]
      constructor <;> omega
    · have hi1 : (index + 1) % 2 = 0 := by omega
      have p1 := pattern_free f '{' (by decide) hf.1
      have p2 := pattern_free f '}' (by decide) hf.2
      simp only [if_pos hi1] at ihr
      simp only [imgui_filter.loop, if_neg hi, List.nil_append, List.length_cons]
      rw [filter_loop_acc]
      simp only [List.count_append, List.count_eq_zero_of_not_mem p1,
        List.count_eq_zero_of_not_mem p2, k3, k4, ihr.1, ihr.2]
      constructor <;> omega

theorem filter_loop_last (fields : List Str) (index : Nat) (out : Str) (hne : fields ≠ [])
    (h : (index + fields.length) % 2 = 0) :
    (imgui_filter.loop fields index out).getLast? = some ',' := by
  induction fields generalizing index out with
  | nil => exact absurd rfl hne
  | cons f rest ih =>
    cases rest with
    | nil =>
      have hi : ¬ index % 2 = 0 := by
        simp only [List.length_cons, List.length_nil] at h
        omega
      simp only [imgui_filter.loop, if_neg hi]
      have e : ∀ l : Str, l ++ ['}', ','] = (l ++ ['}']) ++ [','] := by intro l; simp
      rw [e, ← List.append_assoc, List.getLast?_concat]
    | cons g rest =>
      have hl : (index + 1 + (g :: rest).length) % 2 = 0 := by
        simp only [List.length_cons] at h ⊢
        omega
      by_cases hi : index % 2 = 0
      · simp only [imgui_filter.loop.eq_2, if_pos hi]
        exact ih (index + 1) _ (by simp) hl
      · simp only [imgui_filter.loop.eq_2, if_neg hi]
        exact ih (index + 1) _ (by simp) hl

theorem count_dropLast_of_last (l : Str) (x c : Char) (h : l.getLast? = some c) (hx : x ≠ c) :
    l.dropLast.count x = l.count x := by
  have e : l = l.dropLast ++ [c] := by
    have := List.dropLast_append_getLast? c h
    exact this.symm
  conv_rhs => rw [e]
  rw [List.count_append]
  have : List.count x [c] = 0 := List.count_eq_zero_of_not_mem (by simpa using hx)
  omega

end filedialogs

namespace filedialogs

/-- C27: for every input the output of `imgui_filter` of src/filedialogs.cpp has
as many `{` as `}` exactly when the input without its `\r`, `\n`, `{`, `}` and
`,` splits on `|` into an even number of fields; with an odd number of fields
the output has exactly one `{` more than `}`. -/
theorem filter_brace_balance (input : Str) :
    ((imgui_filter input).count '{' = (imgui_filter input).count '}' ↔
      (string_split (claimed_stripped input) '|').length % 2 = 0) ∧
    ((string_split (claimed_stripped input) '|').length % 2 = 1 →
      (imgui_filter input).count '{' = (imgui_filter input).count '}' + 1) := by
  have hfields : ∀ f ∈ string_split (claimed_stripped input) '|', '{' ∉ f ∧ '}' ∉ f := by
    intro f hf
    constructor
    · intro hm
      rcases split_go_mem '|' [] _ f hf _ hm with h | h
      · simp at h
      · exact claimed_stripped_free input _ h (by decide)
    · intro hm
      rcases split_go_mem '|' [] _ f hf _ hm with h | h
      · simp at h
      · exact claimed_stripped_free input _ h (by decide)
  have hb := filter_loop_braces _ 0 hfields
  simp only [Nat.zero_mod, if_true] at hb
  have hout :
      (imgui_filter input).count '{' =
          (imgui_filter.loop (string_split (claimed_stripped input) '|') 0 []).count '{' ∧
      (imgui_filter input).count '}' =
          (imgui_filter.loop (string_split (claimed_stripped input) '|') 0 []).count '}' := by
    simp only [imgui_filter, strip_eq_claimed_stripped]
    generalize imgui_filter.loop (string_split (claimed_stripped input) '|') 0 [] = out
    by_cases h1 : out ≠ [] ∧ out.getLast? = some ','
    · rw [if_pos h1]
      exact ⟨count_dropLast_of_last _ _ _ h1.2 (by decide),
        count_dropLast_of_last _ _ _ h1.2 (by decide)⟩
    · rw [if_neg h1]
      by_cases h2 : out = []
      · rw [if_pos h2]
        subst h2
        constructor <;> decide
      · rw [if_neg h2]
        exact ⟨rfl, rfl⟩
  rw [hout.1, hout.2, hb.1, hb.2]
  constructor
  · constructor <;> intro _ <;> omega
  · intro _
    omega

/-- C28: for every input whose form without `\r`, `\n`, `{`, `}` and `,` splits
on `|` into an even, non-zero number of fields, `imgui_filter(input, false)` of
the MacOSX file is `imgui_filter(input)` of src/filedialogs.cpp followed by
`,.*`. -/
theorem mac_filter_appends_catch_all (input : Str)
    (hne : (string_split (claimed_stripped input) '|').length ≠ 0)
    (heven : (string_split (claimed_stripped input) '|').length % 2 = 0) :
    MacOSX.imgui_filter input false = imgui_filter input ++ [',', '.', '*'] := by
  have hl := filter_loop_last (string_split (claimed_stripped input) '|') 0 []
    (by intro e; simp [e] at hne) (by simpa using heven)
  simp only [MacOSX.imgui_filter, imgui_filter, strip_eq_claimed_stripped]
  generalize imgui_filter.loop (string_split (claimed_stripped input) '|') 0 [] = out at hl
  have hne2 : out ≠ [] := by
    intro e
    simp [e] at hl
  have e := List.dropLast_append_getLast? ',' hl
  simp only [Bool.false_eq_true, not_false_eq_true, if_true]
  rw [if_pos ⟨hne2, hl⟩]
  conv_lhs => rw [← e]
  simp

/-- C28 at the input `Text|*.txt`, which splits into two fields. -/
theorem mac_filter_appends_catch_all_witness :
    (string_split (claimed_stripped "Text|*.txt".toList) '|').length ≠ 0 ∧
    (string_split (claimed_stripped "Text|*.txt".toList) '|').length % 2 = 0 ∧
    MacOSX.imgui_filter "Text|*.txt".toList false =
      imgui_filter "Text|*.txt".toList ++ [',', '.', '*'] :=
  ⟨by decide, by decide, mac_filter_appends_catch_all "Text|*.txt".toList (by decide) (by decide)⟩

end filedialogs
